import Mathlib

/-!
# KubeDB Redis operator: reconciler, resource store helpers and retrying updates

Shallow embedding of

* `pkg/controller/redis.go` (`create`, `setMonitoringPort`, `matchDormantDatabase`, `pause`),
* `pkg/controller/secret.go` (`RedisForSecret`),
* `vendor/kubedb.dev/apimachinery/.../util/proxysql.go`
  (`CreateOrPatchProxySQL`, `PatchProxySQL`, `PatchProxySQLObject`, `TryUpdateProxySQL`,
  `UpdateProxySQLStatus`),
* `test/e2e/framework/cert_manager.go` (`UpdateIssuer`),
* `test/e2e/redis_cluster_test.go` (the expected slot lists of the cluster tests).

Calls that leave the process (API server, validator, provisioners, event recorder) are
recorded in an effect log; their results are supplied by an explicit environment.
-/

namespace KubedbRedis

/-! ## Go values shared by all components -/

/-- Status reasons of `k8s.io/apimachinery/pkg/api/errors` that the code distinguishes. -/
inductive StatusReason where
  | unknown
  | notFound
  | alreadyExists
  | conflict
  | invalid
  | serviceUnavailable
  | timeout
  | serverTimeout
  | tooManyRequests
  deriving DecidableEq, Repr

/-- A non-nil Go `error`: the API status reason (if any) and the text of `Error()`. -/
structure GoError where
  reason : StatusReason
  msg : String
  deriving DecidableEq, Repr

/-- Go `kerr.IsNotFound`, for a possibly nil error. -/
def IsNotFound : Option GoError → Bool
  | some e => e.reason = StatusReason.notFound
  | none => false

/-- Go `kerr.IsConflict`, for a possibly nil error. -/
def IsConflict : Option GoError → Bool
  | some e => e.reason = StatusReason.conflict
  | none => false

/-- Go `kutil.VerbType`, the outcome of a create-or-patch call. -/
inductive VerbType where
  | VerbUnchanged
  | VerbCreated
  | VerbPatched
  deriving DecidableEq, Repr

/-! ## Go `fmt` formatting, restricted to the verbs the sources use -/

/-- An operand handed to a `fmt` formatting call. `emptyArgs` is an empty
`[]interface{}` handed over as ONE operand (a variadic slice passed without `...`). -/
inductive FmtArg where
  | str (s : String)
  | int (n : Nat)
  | emptyArgs
  deriving DecidableEq, Repr

/-- Text of an operand under the default verb. -/
def FmtArg.value : FmtArg → List Char
  | FmtArg.str s => s.toList
  | FmtArg.int n => (toString n).toList
  | FmtArg.emptyArgs => ['[', ']']

/-- Go type name of an operand, as printed in formatting diagnostics. -/
def FmtArg.typeName : FmtArg → List Char
  | FmtArg.str _ => "string".toList
  | FmtArg.int _ => "int".toList
  | FmtArg.emptyArgs => "[]interface {}".toList

/-- The `type=value` rendering used inside `%!(EXTRA ...)` and bad-verb diagnostics. -/
def FmtArg.typed (a : FmtArg) : List Char :=
  a.typeName ++ ['='] ++ a.value

/-- Rendering of one operand under verb `c`: `%T` prints the type name; a string prints
under `%v` and `%s`, an `int` under `%v` and `%d`; an empty (nil) slice prints as `[]` under
every verb but `%p`; any other combination is the bad-verb diagnostic `%!c(type=value)`.
The verbs `%q`, `%x`, `%X` of strings and the number bases of `int` are not modelled. -/
def renderVerb (c : Char) (a : FmtArg) : List Char :=
  if c = 'T' then a.typeName
  else
    match a with
    | FmtArg.str _ =>
      if c = 'v' ∨ c = 's' then a.value else ['%', '!', c, '('] ++ a.typed ++ [')']
    | FmtArg.int _ =>
      if c = 'v' ∨ c = 'd' then a.value else ['%', '!', c, '('] ++ a.typed ++ [')']
    | FmtArg.emptyArgs => if c = 'p' then ['0', 'x', '0'] else a.value

/-- Operands left over when the format is exhausted: `%!(EXTRA t=v, t=v)`. -/
def renderExtra : List FmtArg → List Char
  | [] => []
  | a :: rest =>
    "%!(EXTRA ".toList ++ a.typed ++ (rest.map (fun b => [',', ' '] ++ b.typed)).flatten ++ [')']

/-- Where the scan of a format stands: in plain text, or inside a directive, after its
percent sign: in the flags, in the width or in the precision. -/
inductive FmtState where
  | text
  | flags
  | width
  | prec
  deriving DecidableEq, Repr

/-- The flag characters of a directive. -/
def isFlag (c : Char) : Bool :=
  c = '#' || c = '0' || c = '+' || c = '-' || c = ' '

/-- The decimal digits. -/
def isDigit (c : Char) : Bool :=
  c = '0' || c = '1' || c = '2' || c = '3' || c = '4' || c = '5' || c = '6' || c = '7' ||
    c = '8' || c = '9'

/-- One step of the scan inside a directive: the state after the character `c`, or `none`
when `c` is the verb. -/
def FmtState.next (st : FmtState) (c : Char) : Option FmtState :=
  match st with
  | FmtState.text => none
  | FmtState.flags =>
    if isFlag c then some FmtState.flags
    else if isDigit c then some FmtState.width
    else if c = '.' then some FmtState.prec
    else none
  | FmtState.width =>
    if isDigit c then some FmtState.width
    else if c = '.' then some FmtState.prec
    else none
  | FmtState.prec => if isDigit c then some FmtState.prec else none

/-- Go `fmt.Sprintf` on the character list of the format. Flags, width and precision are
scanned as Go scans them, so that the verb is found where Go finds it, but they do not
change the rendering of an operand; explicit argument indexes and `*` are not modelled.
The formats of the sources use bare verbs only. -/
def sprintfAux : FmtState → List Char → List FmtArg → List Char
  | FmtState.text, [], args => renderExtra args
  | FmtState.text, c :: rest, args =>
    if c = '%' then sprintfAux FmtState.flags rest args
    else c :: sprintfAux FmtState.text rest args
  | _, [], args => "%!(NOVERB)".toList ++ renderExtra args
  | st, c :: rest, args =>
    match st.next c with
    | some st2 => sprintfAux st2 rest args
    | none =>
      if c = '%' then '%' :: sprintfAux FmtState.text rest args
      else
        match args with
        | [] => ['%', '!', c] ++ "(MISSING)".toList ++ sprintfAux FmtState.text rest []
        | a :: more => renderVerb c a ++ sprintfAux FmtState.text rest more

/-- Go `fmt.Sprintf`. -/
def Sprintf (format : String) (args : List FmtArg) : String :=
  String.mk (sprintfAux FmtState.text format.toList args)

/-! ## Data model of the reconciler -/

/-- Modelled from the spec: `metav1.ObjectMeta` is declared outside the listed sources; the
fields the code reads are the identity and the labels. A missing label reads as `""`. -/
structure ObjectMeta where
  Name : String
  Namespace : String
  Labels : List (String × String)
  deriving DecidableEq, Repr

/-- Go map indexing `m[key]` on a `map[string]string`: the zero value when absent. -/
def labelValue (labels : List (String × String)) (key : String) : String :=
  match labels.lookup key with
  | some v => v
  | none => ""

/-- Modelled from the spec: Prometheus monitoring section, with the exporter port
(`0` means unset). The type is declared outside the listed sources. -/
structure PrometheusSpec where
  port : Nat
  deriving DecidableEq, Repr

/-- Modelled from the spec: optional monitoring configuration of a database resource. -/
structure AgentSpec where
  agent : String
  prometheus : Option PrometheusSpec
  deriving DecidableEq, Repr

/-- Modelled from the spec: cluster topology request `{masterCount, replicaCount}`. -/
structure RedisClusterSpec where
  master : Option Nat
  replicas : Option Nat
  deriving DecidableEq, Repr

/-- Modelled from the spec: termination policies of a database resource. -/
inductive TerminationPolicy where
  | pause
  | delete
  | wipeOut
  | doNotTerminate
  deriving DecidableEq, Repr

/-- Modelled from the spec: `api.RedisSpec` (section 3: termination policy, optional
monitoring config, cluster topology request). The type is declared outside the listed
sources. -/
structure RedisSpec where
  version : String
  cluster : Option RedisClusterSpec
  monitor : Option AgentSpec
  terminationPolicy : TerminationPolicy
  deriving DecidableEq, Repr

/-- Modelled from the spec: lifecycle phases of section 3, plus the empty phase of a fresh
resource. -/
inductive DatabasePhase where
  | unset
  | creating
  | running
  | pausing
  | dormant
  | resuming
  | wipeOut
  | failed
  deriving DecidableEq, Repr

/-- Modelled from the spec: `api.RedisStatus` (section 3). Times are abstract instants. -/
structure RedisStatus where
  phase : DatabasePhase
  creationTime : Option Nat
  observedGeneration : Nat
  deriving DecidableEq, Repr

/-- Modelled from the spec: `api.Redis`, the DatabaseResource of section 3. -/
structure Redis where
  meta : ObjectMeta
  spec : RedisSpec
  status : RedisStatus
  deriving DecidableEq, Repr

/-- Modelled from the spec: `api.DormantDatabase`, the archived twin of section 3.
`origin` is `dormantDb.Spec.Origin.Spec.Redis`, a pointer that may be nil. -/
structure DormantDatabase where
  meta : ObjectMeta
  origin : Option RedisSpec
  deriving DecidableEq, Repr

/-- The label key `api.LabelDatabaseKind`. -/
def LabelDatabaseKind : String := "kubedb.com/kind"

/-- The kind name `api.ResourceKindRedis`. -/
def ResourceKindRedis : String := "Redis"

/-- The default exporter port `api.PrometheusExporterPortNumber`. -/
def PrometheusExporterPortNumber : Nat := 56790

/-- Event types `core.EventTypeNormal` and `core.EventTypeWarning`. -/
inductive EventType where
  | normal
  | warning
  deriving DecidableEq, Repr

/-- Event reasons of the `eventer` package used by the controller. -/
inductive EventReason where
  | invalid
  | failedToUpdate
  | failedToGet
  | failedToCreate
  | failedToDelete
  | successful
  | successfulCreate
  deriving DecidableEq, Repr

/-- One recorded event: the object it refers to, its type, reason and message. -/
structure Event where
  objNamespace : String
  objName : String
  etype : EventType
  reason : EventReason
  message : String
  deriving DecidableEq, Repr

/-- Everything the controller does outside its own memory, in program order. -/
inductive Effect where
  | validateRedis (r : Redis)
  | event (e : Event)
  | patchRedis (cur mod : Redis)
  | getDormantDatabase (ns name : String)
  | deleteDormantDatabase (m : ObjectMeta)
  | createGoverningService (name ns : String)
  | ensureService (r : Redis)
  | ensureStatefulSet (r : Redis)
  | manageMonitor (r : Redis)
  | createDormantDatabase (r : Redis)
  | deleteMonitor (r : Redis)
  deriving DecidableEq, Repr

/-- Results of the external collaborators of the controller (validator, API server,
provisioners, monitoring manager, clock). Within one reconcile every collaborator is
called at most once per distinct argument, so a result per argument describes any run. -/
structure World where
  validateRedis : Redis → Option GoError
  now : Nat
  patchRedis : Redis → Redis → Except GoError Redis
  getDormantDatabase : String → String → Except GoError DormantDatabase
  deleteDormantDatabase : ObjectMeta → Option GoError
  governingService : String
  createGoverningService : String → String → Option GoError
  ensureService : Redis → VerbType × Option GoError
  ensureStatefulSet : Redis → VerbType × Option GoError
  manageMonitor : Redis → Option GoError
  createDormantDatabase : Redis → Except GoError DormantDatabase
  deleteMonitor : Redis → Option GoError

/-- What a controller method leaves behind: the returned error (`none` is nil), the
resource as the caller sees it through the pointer, and the effects in order. -/
structure Outcome where
  err : Option GoError
  redis : Redis
  log : List Effect
  deriving DecidableEq, Repr

/-- The call `c.recorder.Event(redis.ObjectReference(), etype, reason, message)`. -/
def recordEvent (redis : Redis) (etype : EventType) (reason : EventReason)
    (message : String) : Effect :=
  Effect.event
    { objNamespace := redis.meta.Namespace, objName := redis.meta.Name,
      etype := etype, reason := reason, message := message }

/-- The call `c.recorder.Eventf(redis.ObjectReference(), etype, reason, format, args...)`. -/
def recordEventf (redis : Redis) (etype : EventType) (reason : EventReason)
    (format : String) (args : List FmtArg) : Effect :=
  recordEvent redis etype reason (Sprintf format args)

/-- Go `fmt.Errorf(format, args...)`: a plain error carrying the formatted text. -/
def Errorf (format : String) (args : List FmtArg) : GoError :=
  { reason := StatusReason.unknown, msg := Sprintf format args }

/-! ## `pkg/controller/redis.go` -/

/-- The transform of the status-stamping patch in `create` (lines 31-36). -/
def stampStatus (now : Nat) (r : Redis) : Redis :=
  { r with status := { r.status with creationTime := some now, phase := DatabasePhase.creating } }

/-- The transform of the port patch in `setMonitoringPort` (lines 121-124); it is only
applied to a resource whose `Spec.Monitor.Prometheus` is present. -/
def defaultPort (r : Redis) : Redis :=
  let setPort (p : PrometheusSpec) : PrometheusSpec :=
    { p with port := PrometheusExporterPortNumber }
  let setAgent (m : AgentSpec) : AgentSpec :=
    { m with prometheus := Option.map setPort m.prometheus }
  { r with spec := { r.spec with monitor := Option.map setAgent r.spec.monitor } }

/-- The method `Controller.setMonitoringPort` (lines 117-138). -/
def setMonitoringPort (w : World) (redis : Redis) : Outcome :=
  match redis.spec.monitor with
  | none => { err := none, redis := redis, log := [] }
  | some m =>
    match m.prometheus with
    | none => { err := none, redis := redis, log := [] }
    | some p =>
      if p.port = 0 then
        match w.patchRedis redis (defaultPort redis) with
        | Except.error err =>
          { err := some err, redis := redis,
            log := [Effect.patchRedis redis (defaultPort redis),
                    recordEventf redis EventType.warning EventReason.failedToUpdate err.msg []] }
        | Except.ok mc =>
          { err := none, redis := { redis with spec := mc.spec },
            log := [Effect.patchRedis redis (defaultPort redis)] }
      else { err := none, redis := redis, log := [] }

/-- The closure `sendEvent` of `matchDormantDatabase` (lines 158-167): the variadic `args`
is handed on as a single operand, both to `Eventf` and to `fmt.Errorf`. -/
def sendEvent (redis : Redis) (message : String) : Outcome :=
  { err := some (Errorf message [FmtArg.emptyArgs]),
    redis := redis,
    log := [recordEventf redis EventType.warning EventReason.failedToCreate message
              [FmtArg.emptyArgs]] }

/-- The method `Controller.matchDormantDatabase` (lines 140-183). -/
def matchDormantDatabase (w : World) (redis : Redis) : Outcome :=
  let get := Effect.getDormantDatabase redis.meta.Namespace redis.meta.Name
  match w.getDormantDatabase redis.meta.Namespace redis.meta.Name with
  | Except.error err =>
    if !IsNotFound (some err) then
      { err := some err, redis := redis,
        log := [get, recordEventf redis EventType.warning EventReason.failedToGet
                  "Fail to get DormantDatabase: \"%v\". Reason: %v"
                  [FmtArg.str redis.meta.Name, FmtArg.str err.msg]] }
    else { err := none, redis := redis, log := [get] }
  | Except.ok dormantDb =>
    if labelValue dormantDb.meta.Labels LabelDatabaseKind ≠ ResourceKindRedis then
      let o := sendEvent redis
        (Sprintf "Invalid Redis: \"%v\". Exists DormantDatabase \"%v\" of different Kind"
          [FmtArg.str redis.meta.Name, FmtArg.str dormantDb.meta.Name])
      { o with log := get :: o.log }
    else if dormantDb.origin ≠ some redis.spec then
      let o := sendEvent redis "Redis spec mismatches with OriginSpec in DormantDatabases"
      { o with log := get :: o.log }
    else
      { err := w.deleteDormantDatabase dormantDb.meta, redis := redis,
        log := [get, Effect.deleteDormantDatabase dormantDb.meta] }

/-- Lines 61-115 of `Controller.create`: governing service, service, workload, outcome
event and monitoring, on the resource as it stands after the dormant match. -/
def createProvision (w : World) (redis : Redis) : Outcome :=
  let governingService := w.governingService
  let log := [Effect.createGoverningService governingService redis.meta.Namespace]
  match w.createGoverningService governingService redis.meta.Namespace with
  | some err =>
    { err := some err, redis := redis,
      log := log ++ [recordEventf redis EventType.warning EventReason.failedToCreate
        "Failed to create Service: \"%v\". Reason: %v"
        [FmtArg.str governingService, FmtArg.str err.msg]] }
  | none =>
    let log := log ++ [Effect.ensureService redis]
    match w.ensureService redis with
    | (_, some er1) => { err := some er1, redis := redis, log := log }
    | (ok1, none) =>
      let log := log ++ [Effect.ensureStatefulSet redis]
      match w.ensureStatefulSet redis with
      | (_, some er2) => { err := some er2, redis := redis, log := log }
      | (ok2, none) =>
        let log :=
          if ok1 = VerbType.VerbCreated ∧ ok2 = VerbType.VerbCreated then
            log ++ [recordEvent redis EventType.normal EventReason.successful
                      "Successfully created Redis"]
          else if ok1 = VerbType.VerbPatched ∨ ok2 = VerbType.VerbPatched then
            log ++ [recordEvent redis EventType.normal EventReason.successful
                      "Successfully patched Redis"]
          else log
        let log := log ++ [Effect.manageMonitor redis]
        match w.manageMonitor redis with
        | some err =>
          { err := none, redis := redis,
            log := log ++ [recordEventf redis EventType.warning EventReason.failedToCreate
              "Failed to manage monitoring system. Reason: %v" [FmtArg.str err.msg]] }
        | none => { err := none, redis := redis, log := log }

/-- Lines 49-115 of `Controller.create`: port defaulting, dormant match, then
`createProvision`, on the resource as it stands after the stamping step. -/
def createDefaulted (w : World) (redis : Redis) : Outcome :=
  let o1 := setMonitoringPort w redis
  match o1.err with
  | some err => { err := some err, redis := o1.redis, log := o1.log }
  | none =>
    let o2 := matchDormantDatabase w o1.redis
    match o2.err with
    | some err => { err := some err, redis := o2.redis, log := o1.log ++ o2.log }
    | none =>
      let o3 := createProvision w o2.redis
      { o3 with log := o1.log ++ o2.log ++ o3.log }

/-- The method `Controller.create` (lines 18-47 here, the remainder in `createDefaulted`). -/
def create (w : World) (redis : Redis) : Outcome :=
  match w.validateRedis redis with
  | some err =>
    { err := none, redis := redis,
      log := [Effect.validateRedis redis,
              recordEvent redis EventType.warning EventReason.invalid err.msg] }
  | none =>
    if redis.status.creationTime = none then
      match w.patchRedis redis (stampStatus w.now redis) with
      | Except.error err =>
        { err := some err, redis := redis,
          log := [Effect.validateRedis redis,
                  Effect.patchRedis redis (stampStatus w.now redis),
                  recordEventf redis EventType.warning EventReason.failedToUpdate err.msg []] }
      | Except.ok mc =>
        let o := createDefaulted w { redis with status := mc.status }
        { o with log := [Effect.validateRedis redis,
                         Effect.patchRedis redis (stampStatus w.now redis)] ++ o.log }
    else
      let o := createDefaulted w redis
      { o with log := Effect.validateRedis redis :: o.log }

/-- The method `Controller.pause` (lines 185-242). -/
def pause (w : World) (redis : Redis) : Outcome :=
  match w.createDormantDatabase redis with
  | Except.error err =>
    { err := some err, redis := redis,
      log := [Effect.createDormantDatabase redis,
              recordEventf redis EventType.warning EventReason.failedToCreate
                "Failed to create DormantDatabase: \"%v\". Reason: %v"
                [FmtArg.str redis.meta.Name, FmtArg.str err.msg]] }
  | Except.ok _ =>
    let log := [Effect.createDormantDatabase redis,
                recordEventf redis EventType.normal EventReason.successfulCreate
                  "Successfully created DormantDatabase: \"%v\"" [FmtArg.str redis.meta.Name]]
    match redis.spec.monitor with
    | none => { err := none, redis := redis, log := log }
    | some _ =>
      match w.deleteMonitor redis with
      | some err =>
        { err := none, redis := redis,
          log := log ++ [Effect.deleteMonitor redis,
            recordEventf redis EventType.warning EventReason.failedToDelete
              "Failed to delete monitoring system. Reason: %v" [FmtArg.str err.msg]] }
      | none => { err := none, redis := redis, log := log ++ [Effect.deleteMonitor redis] }

/-! ## `pkg/controller/secret.go` -/

/-- Modelled from the spec: an owner reference (`metav1.OwnerReference`); `Controller` is a
pointer to a boolean and may be nil. The type is declared outside the listed sources. -/
structure OwnerReference where
  Kind : String
  Name : String
  Controller : Option Bool
  deriving DecidableEq, Repr

/-- Go `metav1.GetControllerOf`: the first owner reference whose `Controller` is set and
true, if any. -/
def GetControllerOf (owners : List OwnerReference) : Option OwnerReference :=
  owners.find? (fun ref => ref.Controller = some true)

/-- Modelled from the spec: a secret (`core.Secret`) with the parts `RedisForSecret` reads;
the type is declared outside the listed sources. -/
structure Secret where
  Name : String
  Namespace : String
  Annotations : List (String × String)
  OwnerReferences : List OwnerReference
  deriving DecidableEq, Repr

/-- Modelled from the spec: a cert-manager certificate (`cm_api.Certificate`) with its
`Spec.SecretName` and its owner references. -/
structure Certificate where
  Name : String
  Namespace : String
  SecretName : String
  OwnerReferences : List OwnerReference
  deriving DecidableEq, Repr

/-- The annotation key `cm_api.CertificateNameKey`. -/
def CertificateNameKey : String := "cert-manager.io/certificate-name"

/-- The method `Controller.RedisForSecret` (lines 19-46). `getCertificate ns name` is the
answer of the certificate client to `Certificates(ns).Get(name)`; the result is the
`cache.ExplicitKey`, a string. -/
def RedisForSecret (getCertificate : String → String → Except GoError Certificate)
    (s : Secret) : String :=
  match GetControllerOf s.OwnerReferences with
  | some ctrl =>
    if ctrl.Kind = ResourceKindRedis then s.Namespace ++ "/" ++ ctrl.Name
    else ""
  | none =>
    match s.Annotations.lookup CertificateNameKey with
    | none => ""
    | some certName =>
      match getCertificate s.Namespace certName with
      | Except.error _ => ""
      | Except.ok cert =>
        if cert.SecretName ≠ s.Name then ""
        else
          match GetControllerOf cert.OwnerReferences with
          | none => ""
          | some certCtrl =>
            if certCtrl.Kind ≠ ResourceKindRedis then ""
            else s.Namespace ++ "/" ++ certCtrl.Name

/-! ## Resource store: `util/proxysql.go` -/

/-- Kind and API version of a record (`metav1.TypeMeta`). -/
structure TypeMeta where
  Kind : String
  APIVersion : String
  deriving DecidableEq, Repr

/-- Modelled from the spec: the spec part of a stored record. `api.ProxySQLSpec` is declared
outside the listed sources; its zero value is `ProxySQLSpec.zero`. -/
structure ProxySQLSpec where
  version : String
  replicas : Nat
  paused : Bool
  deriving DecidableEq, Repr

/-- Modelled from the spec: the status part of a stored record (`api.ProxySQLStatus`). -/
structure ProxySQLStatus where
  phase : DatabasePhase
  reason : String
  observedGeneration : Nat
  deriving DecidableEq, Repr

/-- Modelled from the spec: a stored record (`api.ProxySQL`). -/
structure ProxySQL where
  typeMeta : TypeMeta
  meta : ObjectMeta
  spec : ProxySQLSpec
  status : ProxySQLStatus
  deriving DecidableEq, Repr

/-- Go zero value of `api.ProxySQLSpec`. -/
def ProxySQLSpec.zero : ProxySQLSpec := { version := "", replicas := 0, paused := false }

/-- Go zero value of `api.ProxySQLStatus`. -/
def ProxySQLStatus.zero : ProxySQLStatus :=
  { phase := DatabasePhase.unset, reason := "", observedGeneration := 0 }

/-- The text of `api.SchemeGroupVersion.String()`. -/
def SchemeGroupVersion : String := "kubedb.com/v1alpha1"

/-- Modelled from the spec: a cert-manager issuer (`cm_api.Issuer`), with the CA secret
name of its spec. -/
structure Issuer where
  meta : ObjectMeta
  caSecretName : String
  deriving DecidableEq, Repr

/-- The typed client of one resource kind (section 6, Record API) over a server state `σ`.
Every call takes the namespace of the namespaced client, returns the result of the call
and the server state after it; other writers act through the state. The context and call
options of the Go signatures are not modelled. -/
structure Client (R σ : Type) where
  get : String → String → σ → Except GoError R × σ
  create : String → R → σ → Except GoError R × σ
  update : String → R → σ → Except GoError R × σ
  updateStatus : String → R → σ → Except GoError R × σ
  patch : String → String → String → σ → Except GoError R × σ

/-- One call on a typed client, as issued. -/
inductive Call (R : Type) where
  | get (ns name : String)
  | create (ns : String) (obj : R)
  | update (ns : String) (obj : R)
  | updateStatus (ns : String) (obj : R)
  | patch (ns name patch : String)
  deriving DecidableEq, Repr

/-- The JSON functions `json.Marshal` and `jsonpatch.CreateMergePatch` used by
`PatchProxySQLObject`; documents and patches are byte strings. -/
structure JsonLib where
  marshal : ProxySQL → Except GoError String
  createMergePatch : String → String → Except GoError String

/-- What a store helper returns: the Go results `(object, verb, error)`, the server state
after the call and the client calls issued, in order. -/
structure PatchResult (σ : Type) where
  obj : Option ProxySQL
  verb : VerbType
  err : Option GoError
  store : σ
  calls : List (Call ProxySQL)

/-- The function `PatchProxySQLObject` (lines 60-81). -/
def PatchProxySQLObject {σ : Type} (lib : JsonLib) (c : Client ProxySQL σ)
    (cur mod : ProxySQL) (s : σ) : PatchResult σ :=
  match lib.marshal cur with
  | Except.error err =>
    { obj := none, verb := VerbType.VerbUnchanged, err := some err, store := s, calls := [] }
  | Except.ok curJson =>
    match lib.marshal mod with
    | Except.error err =>
      { obj := none, verb := VerbType.VerbUnchanged, err := some err, store := s, calls := [] }
    | Except.ok modJson =>
      match lib.createMergePatch curJson modJson with
      | Except.error err =>
        { obj := none, verb := VerbType.VerbUnchanged, err := some err, store := s,
          calls := [] }
      | Except.ok patch =>
        if patch.length = 0 ∨ patch = "{}" then
          { obj := some cur, verb := VerbType.VerbUnchanged, err := none, store := s,
            calls := [] }
        else
          match c.patch cur.meta.Namespace cur.meta.Name patch s with
          | (Except.ok out, s1) =>
            { obj := some out, verb := VerbType.VerbPatched, err := none, store := s1,
              calls := [Call.patch cur.meta.Namespace cur.meta.Name patch] }
          | (Except.error err, s1) =>
            { obj := none, verb := VerbType.VerbPatched, err := some err, store := s1,
              calls := [Call.patch cur.meta.Namespace cur.meta.Name patch] }

/-- The function `PatchProxySQL` (lines 56-58); `cur.DeepCopy()` is `cur` itself, values being immutable. -/
def PatchProxySQL {σ : Type} (lib : JsonLib) (c : Client ProxySQL σ) (cur : ProxySQL)
    (transform : ProxySQL → ProxySQL) (s : σ) : PatchResult σ :=
  PatchProxySQLObject lib c cur (transform cur) s

/-- The fresh record of lines 39-44: kind, API version and the given meta, all else zero. -/
def freshProxySQL (meta : ObjectMeta) : ProxySQL :=
  { typeMeta := { Kind := "ProxySQL", APIVersion := SchemeGroupVersion },
    meta := meta, spec := ProxySQLSpec.zero, status := ProxySQLStatus.zero }

/-- The function `CreateOrPatchProxySQL` (lines 35-54). -/
def CreateOrPatchProxySQL {σ : Type} (lib : JsonLib) (c : Client ProxySQL σ)
    (meta : ObjectMeta) (transform : ProxySQL → ProxySQL) (s : σ) : PatchResult σ :=
  let get := Call.get meta.Namespace meta.Name
  match c.get meta.Namespace meta.Name s with
  | (Except.error err, s1) =>
    if IsNotFound (some err) then
      match c.create meta.Namespace (transform (freshProxySQL meta)) s1 with
      | (Except.ok out, s2) =>
        { obj := some out, verb := VerbType.VerbCreated, err := none, store := s2,
          calls := [get, Call.create meta.Namespace (transform (freshProxySQL meta))] }
      | (Except.error cerr, s2) =>
        { obj := none, verb := VerbType.VerbCreated, err := some cerr, store := s2,
          calls := [get, Call.create meta.Namespace (transform (freshProxySQL meta))] }
    else
      { obj := none, verb := VerbType.VerbUnchanged, err := some err, store := s1,
        calls := [get] }
  | (Except.ok cur, s1) =>
    let r := PatchProxySQL lib c cur transform s1
    { r with calls := get :: r.calls }

/-- The calls of one attempt of a retrying update that read `cur` and wrote `obj`. -/
def attemptCalls {R : Type} (meta : ObjectMeta) (ns : String) (obj : R) : List (Call R) :=
  [Call.get meta.Namespace meta.Name, Call.update ns obj]

/-- The calls of one attempt of `UpdateProxySQLStatus` that met a conflict: the status write
of `obj` and the re-fetch. -/
def conflictCalls (meta : ObjectMeta) (obj : ProxySQL) : List (Call ProxySQL) :=
  [Call.updateStatus meta.Namespace obj, Call.get meta.Namespace meta.Name]

/-- The error `wait.ErrWaitTimeout`. -/
def ErrWaitTimeout : GoError :=
  { reason := StatusReason.unknown, msg := "timed out waiting for the condition" }

/-- Go `wait.PollImmediate`: the condition runs at once and then once per tick until it is
done, fails, or the timeout passes. The clock is abstracted to `ticks`, the number of
further runs that fit before the timeout, so at most `ticks + 1` runs are made. -/
def PollImmediate {τ : Type} (condition : τ → (Bool × Option GoError) × τ) :
    Nat → τ → Option GoError × τ
  | 0, st =>
    match condition st with
    | ((_, some err), st1) => (some err, st1)
    | ((true, none), st1) => (none, st1)
    | ((false, none), st1) => (some ErrWaitTimeout, st1)
  | ticks + 1, st =>
    match condition st with
    | ((_, some err), st1) => (some err, st1)
    | ((true, none), st1) => (none, st1)
    | ((false, none), st1) => PollImmediate condition ticks st1

/-- The variables a retrying update carries from one attempt to the next, the server state
and the calls issued so far. -/
structure TryState (R σ : Type) where
  attempt : Nat
  result : Option R
  store : σ
  calls : List (Call R)

/-- The condition closure of `TryUpdateProxySQL` (lines 85-97): one attempt. -/
def tryUpdateAttempt {σ : Type} (c : Client ProxySQL σ) (meta : ObjectMeta)
    (transform : ProxySQL → ProxySQL) (st : TryState ProxySQL σ) :
    (Bool × Option GoError) × TryState ProxySQL σ :=
  let attempt := st.attempt + 1
  let get := Call.get meta.Namespace meta.Name
  match c.get meta.Namespace meta.Name st.store with
  | (Except.error e2, s1) =>
    if IsNotFound (some e2) then
      ((false, some e2),
        { attempt := attempt, result := st.result, store := s1, calls := st.calls ++ [get] })
    else
      ((false, none),
        { attempt := attempt, result := st.result, store := s1, calls := st.calls ++ [get] })
  | (Except.ok cur, s1) =>
    let upd := Call.update cur.meta.Namespace (transform cur)
    match c.update cur.meta.Namespace (transform cur) s1 with
    | (Except.ok out, s2) =>
      ((true, none),
        { attempt := attempt, result := some out, store := s2,
          calls := st.calls ++ [get, upd] })
    | (Except.error _, s2) =>
      ((false, none),
        { attempt := attempt, result := none, store := s2, calls := st.calls ++ [get, upd] })

/-- What a retrying update returns, with the number of attempts made, the server state
after the call and the client calls issued. -/
structure TryResult (R σ : Type) where
  result : Option R
  err : Option GoError
  attempt : Nat
  store : σ
  calls : List (Call R)

/-- The function `TryUpdateProxySQL` (lines 83-103), making at most `ticks + 1` attempts. -/
def TryUpdateProxySQL {σ : Type} (ticks : Nat) (c : Client ProxySQL σ) (meta : ObjectMeta)
    (transform : ProxySQL → ProxySQL) (s : σ) : TryResult ProxySQL σ :=
  match PollImmediate (tryUpdateAttempt c meta transform) ticks
      { attempt := 0, result := none, store := s, calls := [] } with
  | (some err, st) =>
    { result := st.result,
      err := some (Errorf "failed to update ProxySQL %s/%s after %d attempts due to %v"
        [FmtArg.str meta.Namespace, FmtArg.str meta.Name, FmtArg.int st.attempt,
         FmtArg.str err.msg]),
      attempt := st.attempt, store := st.store, calls := st.calls }
  | (none, st) =>
    { result := st.result, err := none, attempt := st.attempt, store := st.store,
      calls := st.calls }

/-- Go `kutil.IsRequestRetryable`: service unavailable, timeout, server timeout or too many
requests. -/
def IsRequestRetryable : Option GoError → Bool
  | some e =>
    e.reason = StatusReason.serviceUnavailable ∨ e.reason = StatusReason.timeout ∨
      e.reason = StatusReason.serverTimeout ∨ e.reason = StatusReason.tooManyRequests
  | none => false

/-- The closure `apply` of `UpdateProxySQLStatus` (lines 112-119): a new record with the
type meta, object meta and spec of `x` and the transformed copy of its status. -/
def applyStatus (transform : ProxySQLStatus → ProxySQLStatus) (x : ProxySQL) : ProxySQL :=
  { typeMeta := x.typeMeta, meta := x.meta, spec := x.spec, status := transform x.status }

/-- The variables `UpdateProxySQLStatus` carries from one attempt to the next: the attempt
count, the last result, the base record `cur`, the server state and the calls so far. -/
structure StatusState (σ : Type) where
  attempt : Nat
  result : Option ProxySQL
  cur : ProxySQL
  store : σ
  calls : List (Call ProxySQL)

/-- The condition closure of `UpdateProxySQLStatus` (lines 126-145): one attempt. `err` is
the named result of the enclosing function, which line 141 reads. -/
def updateStatusAttempt {σ : Type} (c : Client ProxySQL σ) (meta : ObjectMeta)
    (transform : ProxySQLStatus → ProxySQLStatus) (err : Option GoError)
    (st : StatusState σ) : (Bool × Option GoError) × StatusState σ :=
  let attempt := st.attempt + 1
  let upd := Call.updateStatus meta.Namespace (applyStatus transform st.cur)
  let get := Call.get meta.Namespace meta.Name
  match c.updateStatus meta.Namespace (applyStatus transform st.cur) st.store with
  | (Except.error e2, s1) =>
    if IsConflict (some e2) then
      match c.get meta.Namespace meta.Name s1 with
      | (Except.ok latest, s2) =>
        ((false, none),
          { attempt := attempt, result := none, cur := latest, store := s2,
            calls := st.calls ++ [upd, get] })
      | (Except.error e3, s2) =>
        if IsRequestRetryable (some e3) then
          ((false, none),
            { attempt := attempt, result := none, cur := st.cur, store := s2,
              calls := st.calls ++ [upd, get] })
        else
          ((false, some e3),
            { attempt := attempt, result := none, cur := st.cur, store := s2,
              calls := st.calls ++ [upd, get] })
    else if err.isSome && !IsRequestRetryable (some e2) then
      ((false, some e2),
        { attempt := attempt, result := none, cur := st.cur, store := s1,
          calls := st.calls ++ [upd] })
    else
      ((false, none),
        { attempt := attempt, result := none, cur := st.cur, store := s1,
          calls := st.calls ++ [upd] })
  | (Except.ok out, s1) =>
    if err.isSome && !IsRequestRetryable none then
      ((false, none),
        { attempt := attempt, result := some out, cur := st.cur, store := s1,
          calls := st.calls ++ [upd] })
    else
      ((true, none),
        { attempt := attempt, result := some out, cur := st.cur, store := s1,
          calls := st.calls ++ [upd] })

/-- The function `UpdateProxySQLStatus` (lines 105-151), making at most `ticks + 1`
attempts. The named result `err` is nil when the poll starts (line 123 has returned
otherwise) and is assigned again only when the poll is over, so the closure sees nil. -/
def UpdateProxySQLStatus {σ : Type} (ticks : Nat) (c : Client ProxySQL σ) (meta : ObjectMeta)
    (transform : ProxySQLStatus → ProxySQLStatus) (s : σ) : TryResult ProxySQL σ :=
  let get := Call.get meta.Namespace meta.Name
  match c.get meta.Namespace meta.Name s with
  | (Except.error err, s1) =>
    { result := none, err := some err, attempt := 0, store := s1, calls := [get] }
  | (Except.ok cur, s1) =>
    match PollImmediate (updateStatusAttempt c meta transform none) ticks
        { attempt := 0, result := none, cur := cur, store := s1, calls := [get] } with
    | (some err, st) =>
      { result := st.result,
        err := some (Errorf
          "failed to update status of ProxySQL %s/%s after %d attempts due to %v"
          [FmtArg.str meta.Namespace, FmtArg.str meta.Name, FmtArg.int st.attempt,
           FmtArg.str err.msg]),
        attempt := st.attempt, store := st.store, calls := st.calls }
    | (none, st) =>
      { result := st.result, err := none, attempt := st.attempt, store := st.store,
        calls := st.calls }

/-! ## `test/e2e/framework`: `UpdateIssuer` -/

/-- The constant `maxAttempts` of `test/e2e/framework/util.go`. -/
def maxAttempts : Nat := 5

/-- The loop of `UpdateIssuer` (lines 57-70) with `remaining` iterations to go, that is
`remaining = maxAttempts - attempt`; line 71 when none is left. -/
def UpdateIssuerLoop {σ : Type} (c : Client Issuer σ) (meta : ObjectMeta)
    (transformer : Issuer → Issuer) :
    Nat → Nat → σ → List (Call Issuer) → TryResult Issuer σ
  | 0, attempt, s, calls =>
    { result := none,
      err := some (Errorf "failed to update Issuer %s@%s after %d attempts"
        [FmtArg.str meta.Name, FmtArg.str meta.Namespace, FmtArg.int attempt]),
      attempt := attempt, store := s, calls := calls }
  | remaining + 1, attempt, s, calls =>
    let get := Call.get meta.Namespace meta.Name
    match c.get meta.Namespace meta.Name s with
    | (Except.error err, s1) =>
      if IsNotFound (some err) then
        { result := none, err := none, attempt := attempt, store := s1,
          calls := calls ++ [get] }
      else UpdateIssuerLoop c meta transformer remaining (attempt + 1) s1 (calls ++ [get])
    | (Except.ok cur, s1) =>
      let upd := Call.update cur.meta.Namespace (transformer cur)
      match c.update cur.meta.Namespace (transformer cur) s1 with
      | (Except.ok _, s2) =>
        { result := none, err := none, attempt := attempt, store := s2,
          calls := calls ++ [get, upd] }
      | (Except.error _, s2) =>
        UpdateIssuerLoop c meta transformer remaining (attempt + 1) s2 (calls ++ [get, upd])

/-- The method `Framework.UpdateIssuer` (lines 55-72). `attempt` counts the completed failed
iterations, as the loop variable does; the function returns an error only, so `result`
stays empty. -/
def UpdateIssuer {σ : Type} (c : Client Issuer σ) (meta : ObjectMeta)
    (transformer : Issuer → Issuer) (s : σ) : TryResult Issuer σ :=
  UpdateIssuerLoop c meta transformer maxAttempts 0 s []

/-! ## Topology: expected slot ranges -/

/-- The size of the slot keyspace (section 3). -/
def TotalSlots : Nat := 16384

/-- A slot range `[start, stop]`, both ends included: the `Start` and `End` of an
`rd.ClusterSlot` (its `Nodes` are not part of the comparisons made here). -/
structure SlotRange where
  start : Nat
  stop : Nat
  deriving DecidableEq, Repr

/-- Number of slots of a range. -/
def SlotRange.size (r : SlotRange) : Nat :=
  r.stop + 1 - r.start

/-- Modelled from the spec: ranges laid out one after the other from slot `start`, in
increasing order and without gaps, with the given sizes (section 4.4, third item). -/
def layoutRanges : Nat → List Nat → List SlotRange
  | _, [] => []
  | start, n :: rest =>
    { start := start, stop := start + n - 1 } :: layoutRanges (start + n) rest

/-- Modelled from the spec: the sizes of the `M` ranges (section 4.4, second item): the
base size `floor(TotalSlots / M)`, and one slot more for the ranges flagged by `extra`. -/
def rangeSizes (M : Nat) (extra : Nat → Bool) : List Nat :=
  (List.range M).map (fun i => TotalSlots / M + if extra i then 1 else 0)

/-- Modelled from the spec: the placement of the extra slots in the words of section 4.4,
"the first `TotalSlots mod M` ranges receive one extra slot each". -/
def firstExtra (M : Nat) (i : Nat) : Bool :=
  decide (i < TotalSlots % M)

/-- Modelled from the spec: `ExpectedPartition` of section 4.4, which is not in the listed
sources (only expected lists of the cluster tests are). The ranges flagged by `extra` take
the extra slot; `ExpectedPartition M (firstExtra M)` is the function as the spec words
it. -/
def ExpectedPartition (M : Nat) (extra : Nat → Bool) : List SlotRange :=
  layoutRanges 0 (rangeSizes M extra)

/-- The list `wanted` of the test "should CLUSTER SLOTS" (lines 301-315): three masters. -/
def wantedClusterSlots : List SlotRange :=
  [{ start := 0, stop := 5460 }, { start := 5461, stop := 10922 },
   { start := 10923, stop := 16383 }]

/-- The list `expectedClusterSlots` after "Add replica" (lines 482-496). -/
def expectedAfterAddReplica : List SlotRange :=
  [{ start := 0, stop := 5460 }, { start := 5461, stop := 10922 },
   { start := 10923, stop := 16383 }]

/-- The list `expectedClusterSlots` after "Remove replica" (lines 523-537). -/
def expectedAfterRemoveReplica : List SlotRange :=
  [{ start := 0, stop := 5460 }, { start := 5461, stop := 10922 },
   { start := 10923, stop := 16383 }]

/-- The list `expectedClusterSlots` after "Add master" (lines 564-590). -/
def expectedAfterAddMaster : List SlotRange :=
  [{ start := 1365, stop := 5460 }, { start := 6827, stop := 10922 },
   { start := 12288, stop := 16383 }, { start := 0, stop := 1364 },
   { start := 5461, stop := 6826 }, { start := 10923, stop := 12287 }]

/-- The list `expectedClusterSlots` after "Remove master" (lines 617-639). -/
def expectedAfterRemoveMaster : List SlotRange :=
  [{ start := 0, stop := 5460 }, { start := 5461, stop := 6825 },
   { start := 6827, stop := 10922 }, { start := 6826, stop := 6826 },
   { start := 10923, stop := 16383 }]

/-- Two ranges share no slot. -/
def SlotRange.apart (a b : SlotRange) : Prop :=
  a.stop < b.start ∨ b.stop < a.start

/-- The ranges of a list, taken as a set, are pairwise non-overlapping. -/
def NonOverlapping (L : List SlotRange) : Prop :=
  L.Pairwise SlotRange.apart

/-- The union of the ranges of a list is exactly the slots `0 .. n - 1`. -/
def CoversExactly (L : List SlotRange) (n : Nat) : Prop :=
  ∀ x, x < n ↔ ∃ r ∈ L, r.start ≤ x ∧ x ≤ r.stop

/-- Each range of a list starts right after the end of the range before it. -/
def Contiguous (L : List SlotRange) : Prop :=
  L.Chain' (fun a b => b.start = a.stop + 1)

/-- Check that a list of ranges, read in order, starts at slot `s`, has no empty range,
no gap and no overlap, and ends right before slot `t`. -/
def chainFrom : Nat → List SlotRange → Nat → Bool
  | s, [], t => decide (s = t)
  | s, r :: rest, t =>
    decide (r.start = s) && decide (r.start ≤ r.stop) && chainFrom (r.stop + 1) rest t

/-- Check on a list of ranges in any order: sorted by start it is a chain from slot 0 to
the end of the keyspace. -/
def tilesKeyspace (L : List SlotRange) : Bool :=
  chainFrom 0 (L.insertionSort (fun a b => a.start ≤ b.start)) TotalSlots

/-- A list of ranges is a complete partition of the keyspace into `M` ranges: `M` ranges
in increasing order, pairwise non-overlapping, each starting right after the one before,
with union exactly the slots `0 .. TotalSlots - 1`. -/
def CompletePartition (P : List SlotRange) (M : Nat) : Prop :=
  P.length = M ∧ P.Pairwise (fun a b => a.stop < b.start) ∧ NonOverlapping P ∧
    Contiguous P ∧ CoversExactly P TotalSlots

/-! ## Concrete environments used to exercise the definitions -/

/-- A resource with monitoring configured and the exporter port still unset. -/
def sampleRedis : Redis :=
  { meta := { Name := "r0", Namespace := "demo", Labels := [] },
    spec := { version := "5.0", cluster := some { master := some 3, replicas := some 1 },
              monitor := some { agent := "prometheus", prometheus := some { port := 0 } },
              terminationPolicy := TerminationPolicy.pause },
    status := { phase := DatabasePhase.unset, creationTime := none, observedGeneration := 0 } }

/-- An environment in which every collaborator succeeds: the validator accepts, the API
server stores what it is sent, no dormant twin exists, provisioners report `VerbCreated`. -/
def calmWorld : World :=
  { validateRedis := fun _ => none
    now := 7
    patchRedis := fun _ mod => Except.ok mod
    getDormantDatabase := fun _ name =>
      Except.error { reason := StatusReason.notFound, msg := name ++ " not found" }
    deleteDormantDatabase := fun _ => none
    governingService := "kubedb"
    createGoverningService := fun _ _ => none
    ensureService := fun _ => (VerbType.VerbCreated, none)
    ensureStatefulSet := fun _ => (VerbType.VerbCreated, none)
    manageMonitor := fun _ => none
    createDormantDatabase := fun r => Except.ok { meta := r.meta, origin := some r.spec }
    deleteMonitor := fun _ => none }

/-- The environment `calmWorld` with a validator that rejects every resource. -/
def rejectingWorld : World :=
  { calmWorld with
    validateRedis := fun _ => some { reason := StatusReason.invalid, msg := "unsupported version" } }

/-- A dormant twin of `sampleRedis` whose snapshot was taken with another version. -/
def staleTwin : DormantDatabase :=
  { meta := { Name := "r0", Namespace := "demo", Labels := [("kubedb.com/kind", "Redis")] },
    origin := some { sampleRedis.spec with version := "4.0" } }

/-- The environment `calmWorld` in which the dormant twin `staleTwin` exists. -/
def staleTwinWorld : World :=
  { calmWorld with getDormantDatabase := fun _ _ => Except.ok staleTwin }

/-- A dormant twin matching `sampleRedis` once its exporter port has been defaulted. -/
def goodTwin : DormantDatabase :=
  { meta := { Name := "r0", Namespace := "demo", Labels := [("kubedb.com/kind", "Redis")] },
    origin := some (defaultPort sampleRedis).spec }

/-- The environment `calmWorld` in which the dormant twin `goodTwin` exists. -/
def goodTwinWorld : World :=
  { calmWorld with getDormantDatabase := fun _ _ => Except.ok goodTwin }

/-- Whether a stored record has the given identity. -/
def hasKey (ns name : String) (r : ProxySQL) : Bool :=
  r.meta.Namespace = ns ∧ r.meta.Name = name

/-- An API server holding records in memory, with no other writer: `get` finds the record
of that identity or reports NotFound, `create` refuses an existing identity, `update` and
`updateStatus` replace an existing record, `patch` hands the stored record and the patch
document to `applyPatch` and stores what it returns. -/
def memStore (applyPatch : ProxySQL → String → Except GoError ProxySQL) :
    Client ProxySQL (List ProxySQL) :=
  { get := fun ns name s =>
      match s.find? (hasKey ns name) with
      | some r => (Except.ok r, s)
      | none => (Except.error { reason := StatusReason.notFound, msg := name ++ " not found" }, s)
    create := fun ns obj s =>
      match s.find? (hasKey ns obj.meta.Name) with
      | some _ =>
        (Except.error { reason := StatusReason.alreadyExists,
                        msg := obj.meta.Name ++ " already exists" }, s)
      | none => (Except.ok obj, obj :: s)
    update := fun ns obj s =>
      match s.find? (hasKey ns obj.meta.Name) with
      | some _ => (Except.ok obj, obj :: s.filter (fun r => !hasKey ns obj.meta.Name r))
      | none =>
        (Except.error { reason := StatusReason.notFound,
                        msg := obj.meta.Name ++ " not found" }, s)
    updateStatus := fun ns obj s =>
      match s.find? (hasKey ns obj.meta.Name) with
      | some r =>
        (Except.ok { r with status := obj.status },
          { r with status := obj.status } :: s.filter (fun r => !hasKey ns obj.meta.Name r))
      | none =>
        (Except.error { reason := StatusReason.notFound,
                        msg := obj.meta.Name ++ " not found" }, s)
    patch := fun ns name doc s =>
      match s.find? (hasKey ns name) with
      | some r =>
        match applyPatch r doc with
        | Except.ok r2 => (Except.ok r2, r2 :: s.filter (fun x => !hasKey ns name x))
        | Except.error e => (Except.error e, s)
      | none =>
        (Except.error { reason := StatusReason.notFound, msg := name ++ " not found" }, s) }

/-- A JSON rendering of the spec and status of a record, enough to tell records apart. -/
def renderProxySQL (p : ProxySQL) : String :=
  "\x7b\"kind\":\"" ++ p.typeMeta.Kind ++ "\",\"name\":\"" ++ p.meta.Name ++
    "\",\"namespace\":\"" ++ p.meta.Namespace ++
    "\",\"spec\":\x7b\"version\":\"" ++ p.spec.version ++
    "\",\"replicas\":" ++ toString p.spec.replicas ++
    ",\"paused\":" ++ toString p.spec.paused ++
    "\x7d,\"status\":\x7b\"reason\":\"" ++ p.status.reason ++
    "\",\"observedGeneration\":" ++ toString p.status.observedGeneration ++ "\x7d\x7d"

/-- A JSON library for exercising the helpers: marshalling renders the record, and the
merge patch of two documents is `{}` when they are the same text and the modified document
otherwise (the helpers only test whether the patch is empty). -/
def plainJson : JsonLib :=
  { marshal := fun p => Except.ok (renderProxySQL p)
    createMergePatch := fun cur mod => Except.ok (if cur = mod then "{}" else mod) }

/-- Server-side patching for `memStore` in the exercises: the stored record with the
replica count raised by one, which is what the patch of `bumpReplicas` asks for. -/
def applyBump (r : ProxySQL) (_doc : String) : Except GoError ProxySQL :=
  Except.ok { r with spec := { r.spec with replicas := r.spec.replicas + 1 } }

/-- A transform that is not idempotent: it raises the replica count by one. -/
def bumpReplicas (p : ProxySQL) : ProxySQL :=
  { p with spec := { p.spec with replicas := p.spec.replicas + 1 } }

/-- An idempotent transform: it sets the replica count to three. -/
def threeReplicas (p : ProxySQL) : ProxySQL :=
  { p with spec := { p.spec with replicas := 3 } }

/-- A stored record with three replicas. -/
def storedRecord : ProxySQL := threeReplicas (freshProxySQL { Name := "px", Namespace := "demo", Labels := [] })

/-- The identity of the record used in the exercises. -/
def sampleMeta : ObjectMeta := { Name := "px", Namespace := "demo", Labels := [] }

/-- A server under contention: it holds one record and the number of coming writes that a
concurrent writer will make fail with a conflict; later writes are accepted. -/
def contended (rec : ProxySQL) : Client ProxySQL Nat :=
  { get := fun _ _ n => (Except.ok rec, n)
    create := fun _ obj n => (Except.ok obj, n)
    update := fun _ obj n =>
      match n with
      | 0 => (Except.ok obj, 0)
      | k + 1 => (Except.error { reason := StatusReason.conflict, msg := "conflict" }, k)
    updateStatus := fun _ obj n => (Except.ok obj, n)
    patch := fun _ _ _ n => (Except.ok rec, n) }

/-- The issuer counterpart of `contended`. -/
def contendedIssuer (rec : Issuer) : Client Issuer Nat :=
  { get := fun _ _ n => (Except.ok rec, n)
    create := fun _ obj n => (Except.ok obj, n)
    update := fun _ obj n =>
      match n with
      | 0 => (Except.ok obj, 0)
      | k + 1 => (Except.error { reason := StatusReason.conflict, msg := "conflict" }, k)
    updateStatus := fun _ obj n => (Except.ok obj, n)
    patch := fun _ _ _ n => (Except.ok rec, n) }

/-- The issuer used in the exercises. -/
def sampleIssuer : Issuer :=
  { meta := { Name := "ca", Namespace := "demo", Labels := [] }, caSecretName := "old" }

/-- A server whose record disappears: the next `n` reads return `rec`, every later read
reports NotFound; every write is rejected with a conflict. -/
def vanishing {R : Type} (rec : R) : Client R Nat :=
  { get := fun _ name n =>
      match n with
      | 0 => (Except.error { reason := StatusReason.notFound, msg := name ++ " not found" }, 0)
      | k + 1 => (Except.ok rec, k)
    create := fun _ obj n => (Except.ok obj, n)
    update := fun _ _ n =>
      (Except.error { reason := StatusReason.conflict, msg := "conflict" }, n)
    updateStatus := fun _ _ n =>
      (Except.error { reason := StatusReason.conflict, msg := "conflict" }, n)
    patch := fun _ _ _ n => (Except.ok rec, n) }

/-- A server under contention on the status: it holds `rec` at generation `n`, where `n`
is the number of coming status writes that lose against a concurrent writer; each lost
write lowers `n`, and a read returns the record at the current generation. -/
def statusContended (rec : ProxySQL) : Client ProxySQL Nat :=
  { get := fun _ _ n =>
      (Except.ok { rec with status := { rec.status with observedGeneration := n } }, n)
    create := fun _ obj n => (Except.ok obj, n)
    update := fun _ obj n => (Except.ok obj, n)
    updateStatus := fun _ obj n =>
      match n with
      | 0 => (Except.ok obj, 0)
      | k + 1 => (Except.error { reason := StatusReason.conflict, msg := "conflict" }, k)
    patch := fun _ _ _ n => (Except.ok rec, n) }

/-- A status transform: mark the record as running. -/
def markRunning (st : ProxySQLStatus) : ProxySQLStatus :=
  { st with phase := DatabasePhase.running }

/-- The guard of `setMonitoringPort` (lines 118-120): monitoring with a Prometheus section
is requested and its port is unset. -/
def portUnset (r : Redis) : Bool :=
  match r.spec.monitor with
  | none => false
  | some m =>
    match m.prometheus with
    | none => false
    | some p => decide (p.port = 0)

/-- The exporter port of a spec, 0 when no Prometheus section is present. -/
def exporterPort (spec : RedisSpec) : Nat :=
  match spec.monitor with
  | none => 0
  | some m =>
    match m.prometheus with
    | none => 0
    | some p => p.port

/-- A resource without monitoring. -/
def plainRedis : Redis :=
  { sampleRedis with spec := { sampleRedis.spec with monitor := none } }

/-- The event of lines 64-71 of `create`: the governing service `g` could not be ensured. -/
def governingFailedEvent (r : Redis) (g : String) (err : GoError) : Event :=
  { objNamespace := r.meta.Namespace, objName := r.meta.Name, etype := EventType.warning,
    reason := EventReason.failedToCreate,
    message := "Failed to create Service: \"" ++ g ++ "\". Reason: " ++ err.msg }

/-- The event of lines 104-110 of `create`: the monitoring integration failed. -/
def monitorFailedEvent (r : Redis) (err : GoError) : Event :=
  { objNamespace := r.meta.Namespace, objName := r.meta.Name, etype := EventType.warning,
    reason := EventReason.failedToCreate,
    message := "Failed to manage monitoring system. Reason: " ++ err.msg }

/-- The environment `calmWorld` in which the governing service cannot be ensured. -/
def noGoverningWorld : World :=
  { calmWorld with
    createGoverningService := fun _ _ =>
      some { reason := StatusReason.unknown, msg := "forbidden" } }

/-- The environment `calmWorld` in which the monitoring manager fails. -/
def noMonitorWorld : World :=
  { calmWorld with
    manageMonitor := fun _ => some { reason := StatusReason.unknown, msg := "no operator" } }

/-- The event of lines 220-226 of `pause`: the dormant snapshot was created. -/
def dormantCreatedEvent (r : Redis) : Event :=
  { objNamespace := r.meta.Namespace, objName := r.meta.Name, etype := EventType.normal,
    reason := EventReason.successfulCreate,
    message := "Successfully created DormantDatabase: \"" ++ r.meta.Name ++ "\"" }

/-- The event of lines 210-217 of `pause`: the dormant snapshot could not be created. -/
def dormantFailedEvent (r : Redis) (err : GoError) : Event :=
  { objNamespace := r.meta.Namespace, objName := r.meta.Name, etype := EventType.warning,
    reason := EventReason.failedToCreate,
    message := "Failed to create DormantDatabase: \"" ++ r.meta.Name ++ "\". Reason: " ++
      err.msg }

/-- The event of lines 230-236 of `pause`: the monitoring teardown failed. -/
def teardownFailedEvent (r : Redis) (err : GoError) : Event :=
  { objNamespace := r.meta.Namespace, objName := r.meta.Name, etype := EventType.warning,
    reason := EventReason.failedToDelete,
    message := "Failed to delete monitoring system. Reason: " ++ err.msg }

/-- The environment `calmWorld` in which the dormant snapshot cannot be created. -/
def noDormantWorld : World :=
  { calmWorld with
    createDormantDatabase := fun _ =>
      Except.error { reason := StatusReason.alreadyExists, msg := "r0 already exists" } }

/-- The environment `calmWorld` in which the monitoring teardown fails. -/
def noTeardownWorld : World :=
  { calmWorld with
    deleteMonitor := fun _ => some { reason := StatusReason.unknown, msg := "no operator" } }

/-- A server that refuses every status write as invalid, an error that is neither a
conflict nor retryable; reads return `rec`. -/
def refusing (rec : ProxySQL) : Client ProxySQL Nat :=
  { get := fun _ _ n => (Except.ok rec, n)
    create := fun _ obj n => (Except.ok obj, n)
    update := fun _ obj n => (Except.ok obj, n)
    updateStatus := fun _ _ n =>
      (Except.error { reason := StatusReason.invalid, msg := "status is invalid" }, n + 1)
    patch := fun _ _ _ n => (Except.ok rec, n) }

/-- A secret owned by the Redis resource `r0` as its controller. -/
def ownedSecret : Secret :=
  { Name := "r0-auth", Namespace := "demo", Annotations := [],
    OwnerReferences := [{ Kind := "Redis", Name := "r0", Controller := some true }] }

/-- A TLS secret without owner, issued for the certificate `r0-server-cert`. -/
def tlsSecret : Secret :=
  { Name := "r0-server-cert", Namespace := "demo",
    Annotations := [("cert-manager.io/certificate-name", "r0-server-cert")],
    OwnerReferences := [] }

/-- A certificate client that knows the certificate `r0-server-cert`, owned by the Redis
resource `r0`, and no other. -/
def certStore (_ns name : String) : Except GoError Certificate :=
  if name = "r0-server-cert" then
    Except.ok { Name := "r0-server-cert", Namespace := "demo", SecretName := "r0-server-cert",
                OwnerReferences := [{ Kind := "Redis", Name := "r0", Controller := some true }] }
  else Except.error { reason := StatusReason.notFound, msg := name ++ " not found" }

/-- The text Go appends for one left-over operand that is an empty `[]interface{}`. -/
def extraEmptyArgs : String := "%!(EXTRA []interface \x7b\x7d=[])"

/-- The event of lines 88-93 of `create`, for the resource `r`. -/
def createdEvent (r : Redis) : Event :=
  { objNamespace := r.meta.Namespace, objName := r.meta.Name, etype := EventType.normal,
    reason := EventReason.successful, message := "Successfully created Redis" }

/-- The event of lines 95-100 of `create`, for the resource `r`. -/
def patchedEvent (r : Redis) : Event :=
  { objNamespace := r.meta.Namespace, objName := r.meta.Name, etype := EventType.normal,
    reason := EventReason.successful, message := "Successfully patched Redis" }

/-- The effects of `createProvision` up to and including the call of the monitoring
manager, when the governing service and both provisioners succeeded with verbs `v1`, `v2`. -/
def provisionBody (w : World) (r : Redis) (v1 v2 : VerbType) : List Effect :=
  [Effect.createGoverningService w.governingService r.meta.Namespace,
   Effect.ensureService r, Effect.ensureStatefulSet r] ++
  (if v1 = VerbType.VerbCreated ∧ v2 = VerbType.VerbCreated then
    [Effect.event (createdEvent r)]
   else if v1 = VerbType.VerbPatched ∨ v2 = VerbType.VerbPatched then
    [Effect.event (patchedEvent r)]
   else []) ++
  [Effect.manageMonitor r]

/-- The effects that `create` can produce before it reaches the provisioning steps. -/
def Effect.early : Effect → Prop
  | Effect.validateRedis _ => True
  | Effect.patchRedis _ _ => True
  | Effect.getDormantDatabase _ _ => True
  | Effect.deleteDormantDatabase _ => True
  | Effect.event ev => ev.etype = EventType.warning
  | _ => False

/-- The resource as `create` holds it after the stamping step (lines 30-47) when that step
does not fail: the resource itself if its creation time is already set, otherwise the
resource with the status the stamping patch returned; `none` when the patch fails. -/
def afterStamp (w : World) (redis : Redis) : Option Redis :=
  if redis.status.creationTime = none then
    match w.patchRedis redis (stampStatus w.now redis) with
    | Except.ok mc => some { redis with status := mc.status }
    | Except.error _ => none
  else some redis

/-- The effects of `create` up to the end of the stamping step (lines 18-47) when
validation and stamping succeed: the validator call, and the stamping patch if the creation
time was not set. -/
def stampLog (w : World) (redis : Redis) : List Effect :=
  if redis.status.creationTime = none then
    [Effect.validateRedis redis, Effect.patchRedis redis (stampStatus w.now redis)]
  else [Effect.validateRedis redis]

/-- The environment `staleTwinWorld` with a validator that rejects every resource. -/
def rejectingTwinWorld : World :=
  { staleTwinWorld with
    validateRedis := fun _ => some { reason := StatusReason.invalid, msg := "unsupported version" } }

/-- The environment `staleTwinWorld` with an API server that refuses every patch. -/
def readOnlyTwinWorld : World :=
  { staleTwinWorld with
    patchRedis := fun _ _ => Except.error { reason := StatusReason.conflict, msg := "conflict" } }

/-! # Theorems -/

/-! ## Shape of the logs of the controller methods -/

theorem setMonitoringPort_meta (w : World) (redis : Redis) :
    (setMonitoringPort w redis).redis.meta = redis.meta := by
  unfold setMonitoringPort
  split
  · rfl
  · split
    · rfl
    · split
      · split <;> rfl
      · rfl

theorem setMonitoringPort_status (w : World) (redis : Redis) :
    (setMonitoringPort w redis).redis.status = redis.status := by
  unfold setMonitoringPort
  split
  · rfl
  · split
    · rfl
    · split
      · split <;> rfl
      · rfl

/-- Every effect of `setMonitoringPort` is the port patch on the resource it was given or
a warning event. -/
theorem setMonitoringPort_log (w : World) (redis : Redis) (e : Effect)
    (h : e ∈ (setMonitoringPort w redis).log) :
    e = Effect.patchRedis redis (defaultPort redis) ∨
      ∃ ev, e = Effect.event ev ∧ ev.etype = EventType.warning := by
  unfold setMonitoringPort at h
  split at h
  · simp at h
  · split at h
    · simp at h
    · split at h
      · split at h
        · simp [recordEventf, recordEvent] at h
          rcases h with h | h
          · exact Or.inl h
          · exact Or.inr ⟨_, h, rfl⟩
        · simp at h
          exact Or.inl h
      · simp at h

theorem matchDormantDatabase_redis (w : World) (redis : Redis) :
    (matchDormantDatabase w redis).redis = redis := by
  unfold matchDormantDatabase
  simp only []
  split
  · split <;> rfl
  · split
    · rfl
    · split <;> rfl

theorem createProvision_redis (w : World) (redis : Redis) :
    (createProvision w redis).redis = redis := by
  unfold createProvision
  simp only []
  split
  · rfl
  · split
    · rfl
    · split
      · rfl
      · split <;> rfl

/-- Every effect of `matchDormantDatabase` is the lookup, a warning event or a delete. -/
theorem matchDormantDatabase_log (w : World) (redis : Redis) (e : Effect)
    (h : e ∈ (matchDormantDatabase w redis).log) :
    e = Effect.getDormantDatabase redis.meta.Namespace redis.meta.Name ∨
      (∃ ev, e = Effect.event ev ∧ ev.etype = EventType.warning) ∨
      ∃ m, e = Effect.deleteDormantDatabase m := by
  unfold matchDormantDatabase at h
  simp only [] at h
  split at h
  · split at h
    · simp [recordEventf, recordEvent] at h
      rcases h with h | h
      · exact Or.inl h
      · exact Or.inr (Or.inl ⟨_, h, rfl⟩)
    · simp at h
      exact Or.inl h
  · split at h
    · simp [sendEvent, recordEventf, recordEvent] at h
      rcases h with h | h
      · exact Or.inl h
      · exact Or.inr (Or.inl ⟨_, h, rfl⟩)
    · split at h
      · simp [sendEvent, recordEventf, recordEvent] at h
        rcases h with h | h
        · exact Or.inl h
        · exact Or.inr (Or.inl ⟨_, h, rfl⟩)
      · simp at h
        rcases h with h | h
        · exact Or.inl h
        · exact Or.inr (Or.inr ⟨_, h⟩)

theorem setMonitoringPort_early (w : World) (redis : Redis) :
    ∀ e ∈ (setMonitoringPort w redis).log, e.early := by
  intro e he
  rcases setMonitoringPort_log w redis e he with h | ⟨ev, h, hw⟩
  · subst h; trivial
  · subst h; exact hw

theorem matchDormantDatabase_early (w : World) (redis : Redis) :
    ∀ e ∈ (matchDormantDatabase w redis).log, e.early := by
  intro e he
  rcases matchDormantDatabase_log w redis e he with h | ⟨ev, h, hw⟩ | ⟨m, h⟩
  · subst h; trivial
  · subst h; exact hw
  · subst h; trivial

theorem setMonitoringPort_ok_log (w : World) (redis : Redis)
    (h : (setMonitoringPort w redis).err = none) :
    ∀ e ∈ (setMonitoringPort w redis).log, ∀ ev, e ≠ Effect.event ev := by
  unfold setMonitoringPort at h ⊢
  cases hm : redis.spec.monitor with
  | none => simp
  | some m =>
    simp only [hm] at h ⊢
    cases hp : m.prometheus with
    | none => simp
    | some p =>
      simp only [hp] at h ⊢
      by_cases h0 : p.port = 0
      · simp only [h0, if_true] at h ⊢
        cases hpatch : w.patchRedis redis (defaultPort redis) with
        | error err => simp [hpatch] at h
        | ok mc => simp
      · simp [h0]

theorem matchDormantDatabase_ok_log (w : World) (redis : Redis)
    (h : (matchDormantDatabase w redis).err = none) :
    ∀ e ∈ (matchDormantDatabase w redis).log, ∀ ev, e ≠ Effect.event ev := by
  unfold matchDormantDatabase at h ⊢
  simp only [] at h ⊢
  cases hg : w.getDormantDatabase redis.meta.Namespace redis.meta.Name with
  | error err =>
    simp only [hg] at h ⊢
    by_cases hn : IsNotFound (some err) = true
    · simp [hn]
    · simp [hn] at h
  | ok d =>
    simp only [hg] at h ⊢
    by_cases hk : labelValue d.meta.Labels LabelDatabaseKind = ResourceKindRedis
    · by_cases hs : d.origin = some redis.spec
      · simp [hk, hs]
      · simp [hk, hs, sendEvent] at h
    · simp [hk, sendEvent] at h

/-- The three ways `createDefaulted` can end: at the port patch, at the dormant match, or
in `createProvision`. -/
theorem createDefaulted_cases (w : World) (redis : Redis) :
    ((setMonitoringPort w redis).err ≠ none ∧
      createDefaulted w redis =
        { err := (setMonitoringPort w redis).err, redis := (setMonitoringPort w redis).redis,
          log := (setMonitoringPort w redis).log }) ∨
    ((setMonitoringPort w redis).err = none ∧
      (matchDormantDatabase w (setMonitoringPort w redis).redis).err ≠ none ∧
      createDefaulted w redis =
        { err := (matchDormantDatabase w (setMonitoringPort w redis).redis).err,
          redis := (setMonitoringPort w redis).redis,
          log := (setMonitoringPort w redis).log ++
            (matchDormantDatabase w (setMonitoringPort w redis).redis).log }) ∨
    ((setMonitoringPort w redis).err = none ∧
      (matchDormantDatabase w (setMonitoringPort w redis).redis).err = none ∧
      createDefaulted w redis =
        { err := (createProvision w (setMonitoringPort w redis).redis).err,
          redis := (setMonitoringPort w redis).redis,
          log := (setMonitoringPort w redis).log ++
            (matchDormantDatabase w (setMonitoringPort w redis).redis).log ++
            (createProvision w (setMonitoringPort w redis).redis).log }) := by
  unfold createDefaulted
  simp only []
  cases h1 : (setMonitoringPort w redis).err with
  | some e1 => left; simp
  | none =>
    right
    cases h2 : (matchDormantDatabase w (setMonitoringPort w redis).redis).err with
    | some e2 => left; simp [matchDormantDatabase_redis]
    | none => right; simp [matchDormantDatabase_redis, createProvision_redis]

/-- The four ways `create` can end: at validation, at the stamping patch, or in
`createDefaulted` after a stamp or without one. -/
theorem create_cases (w : World) (redis : Redis) :
    (∃ verr, w.validateRedis redis = some verr ∧
      create w redis =
        { err := none, redis := redis,
          log := [Effect.validateRedis redis,
                  recordEvent redis EventType.warning EventReason.invalid verr.msg] }) ∨
    (∃ perr, w.validateRedis redis = none ∧ redis.status.creationTime = none ∧
      w.patchRedis redis (stampStatus w.now redis) = Except.error perr ∧
      create w redis =
        { err := some perr, redis := redis,
          log := [Effect.validateRedis redis,
                  Effect.patchRedis redis (stampStatus w.now redis),
                  recordEventf redis EventType.warning EventReason.failedToUpdate
                    perr.msg []] }) ∨
    (∃ mc, w.validateRedis redis = none ∧ redis.status.creationTime = none ∧
      w.patchRedis redis (stampStatus w.now redis) = Except.ok mc ∧
      create w redis =
        { err := (createDefaulted w { redis with status := mc.status }).err,
          redis := (createDefaulted w { redis with status := mc.status }).redis,
          log := [Effect.validateRedis redis,
                  Effect.patchRedis redis (stampStatus w.now redis)] ++
                 (createDefaulted w { redis with status := mc.status }).log }) ∨
    (w.validateRedis redis = none ∧ redis.status.creationTime ≠ none ∧
      create w redis =
        { err := (createDefaulted w redis).err, redis := (createDefaulted w redis).redis,
          log := Effect.validateRedis redis :: (createDefaulted w redis).log }) := by
  unfold create
  cases hv : w.validateRedis redis with
  | some verr => left; exact ⟨verr, rfl, rfl⟩
  | none =>
    right
    by_cases hc : redis.status.creationTime = none
    · cases hp : w.patchRedis redis (stampStatus w.now redis) with
      | error perr => left; exact ⟨perr, rfl, hc, rfl, by simp [hc, hp]⟩
      | ok mc => right; left; exact ⟨mc, rfl, hc, rfl, by simp [hc, hp]⟩
    · right; right; exact ⟨rfl, hc, by simp [hc]⟩

/-- When validation and the stamping step succeed, `create` is `createDefaulted` on the
stamped resource, run after the effects of those two steps. -/
theorem create_of_stamped (w : World) (redis stamped : Redis)
    (hv : w.validateRedis redis = none) (hs : afterStamp w redis = some stamped) :
    stamped.meta = redis.meta ∧ stamped.spec = redis.spec ∧
    create w redis =
      { err := (createDefaulted w stamped).err, redis := (createDefaulted w stamped).redis,
        log := stampLog w redis ++ (createDefaulted w stamped).log } := by
  unfold afterStamp at hs
  unfold create stampLog
  by_cases hc : redis.status.creationTime = none
  · cases hp : w.patchRedis redis (stampStatus w.now redis) with
    | error perr => simp [hc, hp] at hs
    | ok mc =>
      simp [hc, hp] at hs
      subst hs
      simp [hv, hc, hp]
  · simp [hc] at hs
    subst hs
    simp [hv, hc]

/-- When validation, the stamping step and the port defaulting succeed, `create` ends at the
dormant match if that fails, and in `createProvision` otherwise. -/
theorem create_at_match (w : World) (redis stamped : Redis)
    (hv : w.validateRedis redis = none) (hs : afterStamp w redis = some stamped)
    (hport : (setMonitoringPort w stamped).err = none) :
    ((matchDormantDatabase w (setMonitoringPort w stamped).redis).err ≠ none →
      create w redis =
        { err := (matchDormantDatabase w (setMonitoringPort w stamped).redis).err,
          redis := (setMonitoringPort w stamped).redis,
          log := stampLog w redis ++ ((setMonitoringPort w stamped).log ++
            (matchDormantDatabase w (setMonitoringPort w stamped).redis).log) }) ∧
    ((matchDormantDatabase w (setMonitoringPort w stamped).redis).err = none →
      create w redis =
        { err := (createProvision w (setMonitoringPort w stamped).redis).err,
          redis := (setMonitoringPort w stamped).redis,
          log := stampLog w redis ++ ((setMonitoringPort w stamped).log ++
            (matchDormantDatabase w (setMonitoringPort w stamped).redis).log ++
            (createProvision w (setMonitoringPort w stamped).redis).log) }) := by
  obtain ⟨_, _, hc⟩ := create_of_stamped w redis stamped hv hs
  rcases createDefaulted_cases w stamped with ⟨h1, _⟩ | ⟨_, h2, h⟩ | ⟨_, h2, h⟩
  · exact absurd hport h1
  · refine ⟨fun _ => ?_, fun h3 => absurd h3 h2⟩
    rw [hc, h]
  · refine ⟨fun h3 => absurd h2 h3, fun _ => ?_⟩
    rw [hc, h]

/-- The spec a resource carries after `setMonitoringPort` is the one it came with or the one
a successful port patch returned. -/
theorem setMonitoringPort_spec (w : World) (redis : Redis) :
    (setMonitoringPort w redis).redis.spec = redis.spec ∨
    ∃ mc, w.patchRedis redis (defaultPort redis) = Except.ok mc ∧
      (setMonitoringPort w redis).redis.spec = mc.spec := by
  unfold setMonitoringPort
  cases hm : redis.spec.monitor with
  | none => simp
  | some m =>
    simp only []
    cases hp : m.prometheus with
    | none => simp
    | some p =>
      simp only []
      by_cases h0 : p.port = 0
      · simp only [h0, if_true]
        cases hpatch : w.patchRedis redis (defaultPort redis) with
        | error err => simp
        | ok mc => simp
      · simp [h0]

/-! ## C1: an invalid spec is recorded and not retried -/

/-- C1: when validation of the resource fails with `verr`, `create` returns nil, leaves the
resource untouched, and its whole effect log is the validator call followed by exactly one
warning event (reason Invalid) whose message is the validation error; hence no status
patch, no port patch, no dormant lookup and no provisioning call is made. -/
theorem create_invalid_spec (w : World) (redis : Redis) (verr : GoError)
    (h : w.validateRedis redis = some verr) :
    (create w redis).err = none ∧
    (create w redis).redis = redis ∧
    (create w redis).log =
      [Effect.validateRedis redis,
       Effect.event { objNamespace := redis.meta.Namespace, objName := redis.meta.Name,
                      etype := EventType.warning, reason := EventReason.invalid,
                      message := verr.msg }] := by
  simp [create, h, recordEvent]

/-- Witness for C1: the rejecting environment on the sample resource. -/
theorem create_invalid_spec_witness :
    (create rejectingWorld sampleRedis).err = none ∧
    (create rejectingWorld sampleRedis).redis = sampleRedis ∧
    (create rejectingWorld sampleRedis).log =
      [Effect.validateRedis sampleRedis,
       Effect.event { objNamespace := "demo", objName := "r0",
                      etype := EventType.warning, reason := EventReason.invalid,
                      message := "unsupported version" }] :=
  create_invalid_spec rejectingWorld sampleRedis
    { reason := StatusReason.invalid, msg := "unsupported version" } rfl

/-! ## C2: the dormant twin is deleted exactly on a full match -/

/-- C2: when the dormant twin `d` of the resource exists, `matchDormantDatabase` issues a
delete (and then it is the delete of `d`, right after the lookup) if and only if the kind
label of `d` is the Redis kind and the origin spec of `d` equals the current spec of the
resource; otherwise the log holds no delete at all. -/
theorem matchDormantDatabase_delete_iff (w : World) (redis : Redis) (d : DormantDatabase)
    (h : w.getDormantDatabase redis.meta.Namespace redis.meta.Name = Except.ok d) :
    ((∃ m, Effect.deleteDormantDatabase m ∈ (matchDormantDatabase w redis).log) ↔
      (labelValue d.meta.Labels LabelDatabaseKind = ResourceKindRedis ∧
        d.origin = some redis.spec)) ∧
    (Effect.deleteDormantDatabase d.meta ∈ (matchDormantDatabase w redis).log ↔
      (labelValue d.meta.Labels LabelDatabaseKind = ResourceKindRedis ∧
        d.origin = some redis.spec)) ∧
    ((labelValue d.meta.Labels LabelDatabaseKind = ResourceKindRedis ∧
        d.origin = some redis.spec) →
      (matchDormantDatabase w redis).log =
        [Effect.getDormantDatabase redis.meta.Namespace redis.meta.Name,
         Effect.deleteDormantDatabase d.meta]) := by
  by_cases hk : labelValue d.meta.Labels LabelDatabaseKind = ResourceKindRedis
  · by_cases hs : d.origin = some redis.spec
    · simp [matchDormantDatabase, h, hk, hs]
    · simp [matchDormantDatabase, h, hk, hs, sendEvent, recordEventf, recordEvent]
  · simp [matchDormantDatabase, h, hk, sendEvent, recordEventf, recordEvent]

/-- Witness for C2: the matching twin of the sample resource is deleted. -/
theorem matchDormantDatabase_delete_iff_witness :
    (Effect.deleteDormantDatabase goodTwin.meta ∈
        (matchDormantDatabase goodTwinWorld (defaultPort sampleRedis)).log ↔
      (labelValue goodTwin.meta.Labels LabelDatabaseKind = ResourceKindRedis ∧
        goodTwin.origin = some (defaultPort sampleRedis).spec)) ∧
    Effect.deleteDormantDatabase goodTwin.meta ∈
        (matchDormantDatabase goodTwinWorld (defaultPort sampleRedis)).log :=
  ⟨(matchDormantDatabase_delete_iff goodTwinWorld (defaultPort sampleRedis) goodTwin rfl).2.1,
   by decide⟩

/-! ## C3: a mismatching dormant twin stops the reconcile -/

/-- On a mismatching twin `matchDormantDatabase` fails after the lookup and one warning. -/
theorem matchDormantDatabase_mismatch (w : World) (r : Redis) (d : DormantDatabase)
    (hget : w.getDormantDatabase r.meta.Namespace r.meta.Name = Except.ok d)
    (hmis : labelValue d.meta.Labels LabelDatabaseKind ≠ ResourceKindRedis ∨
      d.origin ≠ some r.spec) :
    (matchDormantDatabase w r).err ≠ none ∧
    ∃ ev, (matchDormantDatabase w r).log =
        [Effect.getDormantDatabase r.meta.Namespace r.meta.Name, Effect.event ev] ∧
      ev.etype = EventType.warning ∧ ev.reason = EventReason.failedToCreate ∧
      ev.objNamespace = r.meta.Namespace ∧ ev.objName = r.meta.Name := by
  by_cases hk : labelValue d.meta.Labels LabelDatabaseKind = ResourceKindRedis
  · have hs : d.origin ≠ some r.spec := by
      rcases hmis with h | h
      · exact absurd hk h
      · exact h
    simp [matchDormantDatabase, hget, hk, hs, sendEvent, recordEventf, recordEvent]
  · simp [matchDormantDatabase, hget, hk, sendEvent, recordEventf, recordEvent]

theorem createDefaulted_meta (w : World) (redis : Redis) :
    (createDefaulted w redis).redis.meta = redis.meta := by
  rcases createDefaulted_cases w redis with ⟨_, h⟩ | ⟨_, _, h⟩ | ⟨_, _, h⟩ <;>
    simp [h, setMonitoringPort_meta]

/-- With a mismatching twin (relative to the spec `createDefaulted` ends with), the run
never gets past the dormant match. -/
theorem createDefaulted_mismatch (w : World) (redis : Redis) (d : DormantDatabase)
    (hget : w.getDormantDatabase redis.meta.Namespace redis.meta.Name = Except.ok d)
    (hmis : labelValue d.meta.Labels LabelDatabaseKind ≠ ResourceKindRedis ∨
      d.origin ≠ some (createDefaulted w redis).redis.spec) :
    (∀ e ∈ (createDefaulted w redis).log, e.early ∧ ∀ m, e ≠ Effect.deleteDormantDatabase m) ∧
    (Effect.getDormantDatabase redis.meta.Namespace redis.meta.Name ∈
        (createDefaulted w redis).log →
      (createDefaulted w redis).err =
        (matchDormantDatabase w (createDefaulted w redis).redis).err ∧
      (createDefaulted w redis).err ≠ none) := by
  have hport : ∀ e ∈ (setMonitoringPort w redis).log,
      e.early ∧ (∀ m, e ≠ Effect.deleteDormantDatabase m) ∧
      e ≠ Effect.getDormantDatabase redis.meta.Namespace redis.meta.Name := by
    intro e he
    rcases setMonitoringPort_log w redis e he with h | ⟨ev, h, hw⟩
    · subst h; simp [Effect.early]
    · subst h; simp [Effect.early, hw]
  rcases createDefaulted_cases w redis with ⟨_, h⟩ | ⟨_, h2, h⟩ | ⟨_, h2, h⟩
  · rw [h]
    refine ⟨fun e he => ⟨(hport e he).1, (hport e he).2.1⟩, fun hin => ?_⟩
    exact absurd rfl ((hport _ hin).2.2)
  · have hr : (createDefaulted w redis).redis = (setMonitoringPort w redis).redis := by rw [h]
    rw [hr] at hmis
    have hget2 : w.getDormantDatabase (setMonitoringPort w redis).redis.meta.Namespace
        (setMonitoringPort w redis).redis.meta.Name = Except.ok d := by
      rw [setMonitoringPort_meta]; exact hget
    obtain ⟨hne, ev, hlog, hw, _⟩ :=
      matchDormantDatabase_mismatch w (setMonitoringPort w redis).redis d hget2 hmis
    rw [h]
    refine ⟨?_, fun _ => ⟨rfl, hne⟩⟩
    intro e he
    simp only [List.mem_append] at he
    rcases he with he | he
    · exact ⟨(hport e he).1, (hport e he).2.1⟩
    · rw [hlog] at he
      simp at he
      rcases he with he | he
      · subst he; simp [Effect.early]
      · subst he; simp [Effect.early, hw]
  · exfalso
    have hr : (createDefaulted w redis).redis = (setMonitoringPort w redis).redis := by rw [h]
    rw [hr] at hmis
    have hget2 : w.getDormantDatabase (setMonitoringPort w redis).redis.meta.Namespace
        (setMonitoringPort w redis).redis.meta.Name = Except.ok d := by
      rw [setMonitoringPort_meta]; exact hget
    exact (matchDormantDatabase_mismatch w (setMonitoringPort w redis).redis d hget2 hmis).1 h2

/-- The spec of the resource `create` ends with is the spec it was given or a spec that a
successful patch returned. -/
theorem create_spec (w : World) (redis : Redis) :
    (create w redis).redis.spec = redis.spec ∨
    ∃ cur mod mc, w.patchRedis cur mod = Except.ok mc ∧ (create w redis).redis.spec = mc.spec := by
  have hd : ∀ r : Redis, r.spec = redis.spec →
      (createDefaulted w r).redis.spec = redis.spec ∨
      ∃ cur mod mc, w.patchRedis cur mod = Except.ok mc ∧
        (createDefaulted w r).redis.spec = mc.spec := by
    intro r hr
    have hred : (createDefaulted w r).redis = (setMonitoringPort w r).redis := by
      rcases createDefaulted_cases w r with ⟨_, h⟩ | ⟨_, _, h⟩ | ⟨_, _, h⟩ <;> rw [h]
    rw [hred]
    rcases setMonitoringPort_spec w r with h | ⟨mc, hp, h⟩
    · left; rw [h, hr]
    · right; exact ⟨r, defaultPort r, mc, hp, h⟩
  rcases create_cases w redis with ⟨verr, _, h⟩ | ⟨perr, _, _, _, h⟩ | ⟨mc, _, _, _, h⟩ |
    ⟨_, _, h⟩
  · left; rw [h]
  · left; rw [h]
  · rw [h]; exact hd _ rfl
  · rw [h]; exact hd _ rfl

/-- With a twin that mismatches the spec `create` ends with, no effect of the run is a
delete or a provisioning call. -/
theorem create_mismatch_effects (w : World) (redis : Redis) (d : DormantDatabase)
    (hget : w.getDormantDatabase redis.meta.Namespace redis.meta.Name = Except.ok d)
    (hmis : labelValue d.meta.Labels LabelDatabaseKind ≠ ResourceKindRedis ∨
      d.origin ≠ some (create w redis).redis.spec) :
    ∀ e ∈ (create w redis).log,
      (∀ m, e ≠ Effect.deleteDormantDatabase m) ∧
      (∀ g ns, e ≠ Effect.createGoverningService g ns) ∧
      (∀ x, e ≠ Effect.ensureService x) ∧ (∀ x, e ≠ Effect.ensureStatefulSet x) := by
  have key : ∀ e : Effect, (e.early ∧ ∀ m, e ≠ Effect.deleteDormantDatabase m) →
      (∀ m, e ≠ Effect.deleteDormantDatabase m) ∧
      (∀ g ns, e ≠ Effect.createGoverningService g ns) ∧
      (∀ x, e ≠ Effect.ensureService x) ∧ (∀ x, e ≠ Effect.ensureStatefulSet x) := by
    intro e ⟨he, hd⟩
    refine ⟨hd, ?_, ?_, ?_⟩ <;> intros <;> intro h <;> subst h <;> exact he
  rcases create_cases w redis with ⟨verr, _, h⟩ | ⟨perr, _, _, _, h⟩ | ⟨mc, _, _, _, h⟩ |
    ⟨_, _, h⟩
  · rw [h]
    refine fun e he => key e ?_
    simp [recordEvent] at he
    rcases he with he | he <;> subst he <;> simp [Effect.early]
  · rw [h]
    refine fun e he => key e ?_
    simp [recordEventf, recordEvent] at he
    rcases he with he | he | he <;> subst he <;> simp [Effect.early]
  · have hr : (create w redis).redis =
        (createDefaulted w { redis with status := mc.status }).redis := by rw [h]
    rw [hr] at hmis
    obtain ⟨hA, _⟩ := createDefaulted_mismatch w { redis with status := mc.status } d hget hmis
    rw [h]
    refine fun e he => key e ?_
    simp at he
    rcases he with he | he | he
    · subst he; simp [Effect.early]
    · subst he; simp [Effect.early]
    · exact hA e he
  · have hr : (create w redis).redis = (createDefaulted w redis).redis := by rw [h]
    rw [hr] at hmis
    obtain ⟨hA, _⟩ := createDefaulted_mismatch w redis d hget hmis
    rw [h]
    refine fun e he => key e ?_
    simp at he
    rcases he with he | he
    · subst he; simp [Effect.early]
    · exact hA e he

/-- C3, counterexample: the sample resource has a dormant twin whose origin spec differs
from its spec, so `matchDormantDatabase` would fail on it. With a validator that rejects
the resource, `create` returns nil and never looks the twin up; with an API server that
refuses the stamping patch, `create` returns the error of the patch, not the mismatch
error, again without a lookup. -/
theorem create_dormant_mismatch_counterexample :
    rejectingTwinWorld.getDormantDatabase sampleRedis.meta.Namespace sampleRedis.meta.Name =
      Except.ok staleTwin ∧
    staleTwin.origin ≠ some sampleRedis.spec ∧
    (matchDormantDatabase rejectingTwinWorld sampleRedis).err ≠ none ∧
    (create rejectingTwinWorld sampleRedis).err = none ∧
    (create rejectingTwinWorld sampleRedis).err ≠
      (matchDormantDatabase rejectingTwinWorld sampleRedis).err ∧
    Effect.getDormantDatabase "demo" "r0" ∉ (create rejectingTwinWorld sampleRedis).log ∧
    (matchDormantDatabase readOnlyTwinWorld sampleRedis).err ≠ none ∧
    (create readOnlyTwinWorld sampleRedis).err =
      some { reason := StatusReason.conflict, msg := "conflict" } ∧
    (create readOnlyTwinWorld sampleRedis).err ≠
      (matchDormantDatabase readOnlyTwinWorld sampleRedis).err ∧
    Effect.getDormantDatabase "demo" "r0" ∉ (create readOnlyTwinWorld sampleRedis).log := by
  refine ⟨rfl, by decide, by decide, by decide, by decide, by decide, by decide, by decide,
    by decide, by decide⟩

/-- C3, amended: (a) for every resource `r` whose dormant twin `d` exists with a foreign
kind label or an origin spec different from the spec of `r`, `matchDormantDatabase` returns
a non-nil error, its log is the lookup followed by one warning event, and no delete is
issued (the twin persists). (b) For every resource that passes validation, whose stamping
step succeeds (giving `stamped`) and whose port defaulting succeeds, and whose twin `d`
mismatches the spec the resource then carries: `create` returns exactly the error of
`matchDormantDatabase` on that resource, which is non-nil; its log ends with the lookup and
one warning event, before which there are only the validator call and patches; and no
effect of the run is a delete, a governing-service call, a service call or a workload call.
(c) In every run of `create`, whatever the earlier steps do, a twin with a foreign kind
label, or with an origin spec different from the spec of the resource and from every spec
a patch can return, rules out any delete and any provisioning call. -/
theorem create_dormant_mismatch (w : World) :
    (∀ (r : Redis) (d : DormantDatabase),
      w.getDormantDatabase r.meta.Namespace r.meta.Name = Except.ok d →
      (labelValue d.meta.Labels LabelDatabaseKind ≠ ResourceKindRedis ∨
        d.origin ≠ some r.spec) →
      (matchDormantDatabase w r).err ≠ none ∧
      (∃ ev, (matchDormantDatabase w r).log =
          [Effect.getDormantDatabase r.meta.Namespace r.meta.Name, Effect.event ev] ∧
        ev.etype = EventType.warning) ∧
      ∀ m, Effect.deleteDormantDatabase m ∉ (matchDormantDatabase w r).log) ∧
    (∀ (redis stamped : Redis) (d : DormantDatabase),
      w.validateRedis redis = none →
      afterStamp w redis = some stamped →
      (setMonitoringPort w stamped).err = none →
      w.getDormantDatabase redis.meta.Namespace redis.meta.Name = Except.ok d →
      (labelValue d.meta.Labels LabelDatabaseKind ≠ ResourceKindRedis ∨
        d.origin ≠ some (setMonitoringPort w stamped).redis.spec) →
      (create w redis).err =
        (matchDormantDatabase w (setMonitoringPort w stamped).redis).err ∧
      (create w redis).err ≠ none ∧
      (create w redis).redis = (setMonitoringPort w stamped).redis ∧
      (∃ pre ev, (create w redis).log =
          pre ++ [Effect.getDormantDatabase redis.meta.Namespace redis.meta.Name,
                  Effect.event ev] ∧
        ev.etype = EventType.warning ∧
        ∀ e ∈ pre, e = Effect.validateRedis redis ∨ ∃ cur mod, e = Effect.patchRedis cur mod) ∧
      ∀ e ∈ (create w redis).log,
        (∀ m, e ≠ Effect.deleteDormantDatabase m) ∧
        (∀ g ns, e ≠ Effect.createGoverningService g ns) ∧
        (∀ x, e ≠ Effect.ensureService x) ∧ (∀ x, e ≠ Effect.ensureStatefulSet x)) ∧
    (∀ (redis : Redis) (d : DormantDatabase),
      w.getDormantDatabase redis.meta.Namespace redis.meta.Name = Except.ok d →
      (labelValue d.meta.Labels LabelDatabaseKind ≠ ResourceKindRedis ∨
        (d.origin ≠ some redis.spec ∧
          ∀ cur mod mc, w.patchRedis cur mod = Except.ok mc → d.origin ≠ some mc.spec)) →
      ∀ e ∈ (create w redis).log,
        (∀ m, e ≠ Effect.deleteDormantDatabase m) ∧
        (∀ g ns, e ≠ Effect.createGoverningService g ns) ∧
        (∀ x, e ≠ Effect.ensureService x) ∧ (∀ x, e ≠ Effect.ensureStatefulSet x)) := by
  refine ⟨?_, ?_, ?_⟩
  · intro r d hget hmis
    obtain ⟨hne, ev, hlog, hw, _⟩ := matchDormantDatabase_mismatch w r d hget hmis
    refine ⟨hne, ⟨ev, hlog, hw⟩, fun m hm => ?_⟩
    rw [hlog] at hm
    simp at hm
  · intro redis stamped d hv hs hport hget hmis
    obtain ⟨hmeta, _, _⟩ := create_of_stamped w redis stamped hv hs
    have hlm : (setMonitoringPort w stamped).redis.meta = redis.meta := by
      rw [setMonitoringPort_meta, hmeta]
    have hget2 : w.getDormantDatabase (setMonitoringPort w stamped).redis.meta.Namespace
        (setMonitoringPort w stamped).redis.meta.Name = Except.ok d := by
      rw [hlm]; exact hget
    obtain ⟨hne, ev, hlog, hw, _⟩ :=
      matchDormantDatabase_mismatch w (setMonitoringPort w stamped).redis d hget2 hmis
    have hc := (create_at_match w redis stamped hv hs hport).1 hne
    rw [hlm] at hlog
    have hpre : ∀ e ∈ stampLog w redis ++ (setMonitoringPort w stamped).log,
        e = Effect.validateRedis redis ∨ ∃ cur mod, e = Effect.patchRedis cur mod := by
      intro e he
      simp only [List.mem_append] at he
      rcases he with he | he
      · unfold stampLog at he
        split_ifs at he
        · simp at he
          rcases he with he | he
          · exact Or.inl he
          · exact Or.inr ⟨_, _, he⟩
        · simp at he
          exact Or.inl he
      · rcases setMonitoringPort_log w stamped e he with h | ⟨ev2, h, _⟩
        · exact Or.inr ⟨_, _, h⟩
        · exact absurd h (setMonitoringPort_ok_log w stamped hport e he ev2)
    rw [hc]
    refine ⟨rfl, hne, rfl,
      ⟨stampLog w redis ++ (setMonitoringPort w stamped).log, ev, ?_, hw, hpre⟩, ?_⟩
    · simp only [hlog, List.append_assoc]
    · intro e he
      simp only [hlog, ← List.append_assoc, List.mem_append] at he
      rcases he with he | he
      · rcases hpre e (List.mem_append.2 he) with h | ⟨cur, mod, h⟩ <;> subst h <;> simp
      · simp at he
        rcases he with he | he <;> subst he <;> simp
  · intro redis d hget hmis
    apply create_mismatch_effects w redis d hget
    rcases hmis with hk | ⟨h1, h2⟩
    · exact Or.inl hk
    · right
      rcases create_spec w redis with h | ⟨cur, mod, mc, hp, h⟩
      · rw [h]; exact h1
      · rw [h]; exact h2 cur mod mc hp

/-- Witness for C3 (amended): the sample resource against a twin snapshotted with another
version, in an environment where every earlier step succeeds. -/
theorem create_dormant_mismatch_witness :
    staleTwinWorld.validateRedis sampleRedis = none ∧
    afterStamp staleTwinWorld sampleRedis = some (stampStatus 7 sampleRedis) ∧
    (setMonitoringPort staleTwinWorld (stampStatus 7 sampleRedis)).err = none ∧
    (create staleTwinWorld sampleRedis).err =
      (matchDormantDatabase staleTwinWorld
        (setMonitoringPort staleTwinWorld (stampStatus 7 sampleRedis)).redis).err ∧
    (create staleTwinWorld sampleRedis).err ≠ none ∧
    (∀ e ∈ (create staleTwinWorld sampleRedis).log,
      ∀ g ns, e ≠ Effect.createGoverningService g ns) :=
  have h := (create_dormant_mismatch staleTwinWorld).2.1 sampleRedis (stampStatus 7 sampleRedis)
    staleTwin rfl rfl rfl rfl (Or.inr (by decide))
  ⟨rfl, rfl, rfl, h.1, h.2.1, fun e he => (h.2.2.2.2 e he).2.1⟩

/-! ## C4: the outcome event follows the two provisioning verbs -/

/-- Either `create` stopped before provisioning and its log holds early effects only, or
its log is an early part followed by the log of `createProvision` on the resource it ends
with, whose error it returns. -/
theorem create_log_shape (w : World) (redis : Redis) :
    (create w redis).redis.meta = redis.meta ∧
    ((∀ e ∈ (create w redis).log, e.early) ∨
      ∃ pre, (∀ e ∈ pre, e.early) ∧
        (create w redis).log = pre ++ (createProvision w (create w redis).redis).log ∧
        (create w redis).err = (createProvision w (create w redis).redis).err) := by
  have hd : ∀ r : Redis, (createDefaulted w r).redis.meta = r.meta ∧
      ((∀ e ∈ (createDefaulted w r).log, e.early) ∨
        ∃ pre, (∀ e ∈ pre, e.early) ∧
          (createDefaulted w r).log =
            pre ++ (createProvision w (createDefaulted w r).redis).log ∧
          (createDefaulted w r).err =
            (createProvision w (createDefaulted w r).redis).err) := by
    intro r
    refine ⟨createDefaulted_meta w r, ?_⟩
    rcases createDefaulted_cases w r with ⟨_, h⟩ | ⟨_, _, h⟩ | ⟨_, _, h⟩
    · left
      rw [h]
      exact setMonitoringPort_early w r
    · left
      rw [h]
      intro e he
      simp only [List.mem_append] at he
      rcases he with he | he
      · exact setMonitoringPort_early w r e he
      · exact matchDormantDatabase_early w _ e he
    · right
      refine ⟨(setMonitoringPort w r).log ++
        (matchDormantDatabase w (setMonitoringPort w r).redis).log, ?_, ?_, ?_⟩
      · intro e he
        simp only [List.mem_append] at he
        rcases he with he | he
        · exact setMonitoringPort_early w r e he
        · exact matchDormantDatabase_early w _ e he
      · rw [h]
      · rw [h]
  rcases create_cases w redis with ⟨verr, _, h⟩ | ⟨perr, _, _, _, h⟩ | ⟨mc, _, _, _, h⟩ |
    ⟨_, _, h⟩
  · rw [h]
    refine ⟨rfl, Or.inl ?_⟩
    intro e he
    simp [recordEvent] at he
    rcases he with he | he <;> subst he <;> simp [Effect.early]
  · rw [h]
    refine ⟨rfl, Or.inl ?_⟩
    intro e he
    simp [recordEventf, recordEvent] at he
    rcases he with he | he | he <;> subst he <;> simp [Effect.early]
  · obtain ⟨hm, hs⟩ := hd { redis with status := mc.status }
    rw [h]
    refine ⟨hm, ?_⟩
    rcases hs with hs | ⟨pre, hpre, hlog, herr⟩
    · left
      intro e he
      simp at he
      rcases he with he | he | he
      · subst he; simp [Effect.early]
      · subst he; simp [Effect.early]
      · exact hs e he
    · right
      refine ⟨[Effect.validateRedis redis,
        Effect.patchRedis redis (stampStatus w.now redis)] ++ pre, ?_, ?_, herr⟩
      · intro e he
        simp at he
        rcases he with he | he | he
        · subst he; simp [Effect.early]
        · subst he; simp [Effect.early]
        · exact hpre e he
      · simp only [hlog, List.append_assoc]
  · obtain ⟨hm, hs⟩ := hd redis
    rw [h]
    refine ⟨hm, ?_⟩
    rcases hs with hs | ⟨pre, hpre, hlog, herr⟩
    · left
      intro e he
      simp at he
      rcases he with he | he
      · subst he; simp [Effect.early]
      · exact hs e he
    · right
      refine ⟨Effect.validateRedis redis :: pre, ?_, ?_, herr⟩
      · intro e he
        simp at he
        rcases he with he | he
        · subst he; simp [Effect.early]
        · exact hpre e he
      · simp only [hlog, List.cons_append]

theorem createProvision_governing (w : World) (r : Redis) :
    Effect.createGoverningService w.governingService r.meta.Namespace ∈
      (createProvision w r).log := by
  unfold createProvision
  simp only []
  split
  · simp
  · split
    · simp
    · split
      · simp
      · split <;> split_ifs <;> simp

/-- An effect that is not early occurs in the log of `create` exactly when the run reaches
the governing-service call and the effect is one of `createProvision` on the resource
`create` ends with. -/
theorem create_late_effect (w : World) (redis : Redis) (e : Effect) (hne : ¬ e.early) :
    e ∈ (create w redis).log ↔
      (e ∈ (createProvision w (create w redis).redis).log ∧
        Effect.createGoverningService w.governingService redis.meta.Namespace ∈
          (create w redis).log) := by
  obtain ⟨hm, hs⟩ := create_log_shape w redis
  have hg : Effect.createGoverningService w.governingService redis.meta.Namespace ∈
      (createProvision w (create w redis).redis).log := by
    rw [← hm]
    exact createProvision_governing w _
  rcases hs with hs | ⟨pre, hpre, hlog, _⟩
  · constructor
    · intro he
      exact absurd (hs e he) hne
    · rintro ⟨_, hx⟩
      exact absurd (hs _ hx) (by simp [Effect.early])
  · rw [hlog]
    constructor
    · intro he
      simp only [List.mem_append] at he
      rcases he with he | he
      · exact absurd (hpre e he) hne
      · exact ⟨he, List.mem_append_right _ hg⟩
    · rintro ⟨he, _⟩
      exact List.mem_append_right _ he

/-- The log of `createProvision` once the governing service and both provisioners have
succeeded with verbs `v1` and `v2`. -/
theorem createProvision_verbs (w : World) (r : Redis) (v1 v2 : VerbType)
    (hg : w.createGoverningService w.governingService r.meta.Namespace = none)
    (e1 : w.ensureService r = (v1, none)) (e2 : w.ensureStatefulSet r = (v2, none))
    (ev : Event) (hn : ev.etype = EventType.normal) :
    Effect.event ev ∈ (createProvision w r).log ↔
      ((v1 = VerbType.VerbCreated ∧ v2 = VerbType.VerbCreated ∧
          Effect.event ev = recordEvent r EventType.normal EventReason.successful
            "Successfully created Redis") ∨
        ((v1 = VerbType.VerbPatched ∨ v2 = VerbType.VerbPatched) ∧
          Effect.event ev = recordEvent r EventType.normal EventReason.successful
            "Successfully patched Redis")) := by
  have hw : ∀ m : String, ev ≠
      { objNamespace := r.meta.Namespace, objName := r.meta.Name, etype := EventType.warning,
        reason := EventReason.failedToCreate, message := m } := by
    intro m h
    rw [h] at hn
    cases hn
  unfold createProvision
  simp only [hg, e1, e2]
  cases v1 <;> cases v2 <;> cases hm : w.manageMonitor r <;>
    simp [recordEvent, recordEventf, hw]

/-- If the workload provisioner was called on `x` during `createProvision w r`, then
`x = r`, the governing service succeeded and the service provisioner returned no error. -/
theorem createProvision_reached (w : World) (r x : Redis)
    (h : Effect.ensureStatefulSet x ∈ (createProvision w r).log) :
    x = r ∧ w.createGoverningService w.governingService r.meta.Namespace = none ∧
      (w.ensureService r).2 = none := by
  unfold createProvision at h
  simp only [] at h
  split at h
  · simp [recordEventf, recordEvent] at h
  · rename_i hgov
    split at h
    · simp at h
    · rename_i hes
      refine ⟨?_, hgov, by rw [hes]⟩
      split at h
      · simp at h; exact h
      · split at h <;> split_ifs at h <;> simp [recordEvent, recordEventf] at h <;> exact h


/-- C4: when `create` has called the service provisioner and the workload provisioner (on
the resource `x`) and they returned the verbs `v1` and `v2` without error, the log of
`create` holds the event "Successfully created Redis" exactly when both verbs are
`VerbCreated`, holds the event "Successfully patched Redis" exactly when at least one verb
is `VerbPatched`, holds no other Normal event, and holds no Normal event at all when both
verbs are `VerbUnchanged`. -/
theorem create_outcome_event (w : World) (redis x : Redis) (v1 v2 : VerbType)
    (h1 : Effect.ensureService x ∈ (create w redis).log)
    (h2 : Effect.ensureStatefulSet x ∈ (create w redis).log)
    (e1 : w.ensureService x = (v1, none)) (e2 : w.ensureStatefulSet x = (v2, none)) :
    (Effect.event (createdEvent redis) ∈ (create w redis).log ↔
      (v1 = VerbType.VerbCreated ∧ v2 = VerbType.VerbCreated)) ∧
    (Effect.event (patchedEvent redis) ∈ (create w redis).log ↔
      (v1 = VerbType.VerbPatched ∨ v2 = VerbType.VerbPatched)) ∧
    (∀ ev, Effect.event ev ∈ (create w redis).log → ev.etype = EventType.normal →
      ev = createdEvent redis ∨ ev = patchedEvent redis) ∧
    ((v1 = VerbType.VerbUnchanged ∧ v2 = VerbType.VerbUnchanged) →
      ∀ ev, Effect.event ev ∈ (create w redis).log → ev.etype = EventType.warning) := by
  have hm := (create_log_shape w redis).1
  have hl2 := (create_late_effect w redis (Effect.ensureStatefulSet x)
    (by simp [Effect.early])).1 h2
  obtain ⟨hx, hg, _⟩ := createProvision_reached w _ x hl2.1
  subst hx
  have hev : ∀ ev : Event, ev.etype = EventType.normal →
      (Effect.event ev ∈ (create w redis).log ↔
        ((v1 = VerbType.VerbCreated ∧ v2 = VerbType.VerbCreated ∧ ev = createdEvent redis) ∨
          ((v1 = VerbType.VerbPatched ∨ v2 = VerbType.VerbPatched) ∧
            ev = patchedEvent redis))) := by
    intro ev hn
    rw [create_late_effect w redis (Effect.event ev) (by simp [Effect.early, hn]),
      createProvision_verbs w _ v1 v2 hg e1 e2 ev hn]
    simp only [hl2.2, and_true, recordEvent, hm, Effect.event.injEq, createdEvent,
      patchedEvent]
  refine ⟨?_, ?_, ?_, ?_⟩
  · rw [hev _ rfl]
    simp [createdEvent, patchedEvent]
  · rw [hev _ rfl]
    simp [createdEvent, patchedEvent]
  · intro ev he hn
    rcases (hev ev hn).1 he with ⟨_, _, h⟩ | ⟨_, h⟩
    · exact Or.inl h
    · exact Or.inr h
  · rintro ⟨hu1, hu2⟩ ev he
    cases hn : ev.etype with
    | warning => rfl
    | normal =>
      exfalso
      rcases (hev ev hn).1 he with ⟨h, _, _⟩ | ⟨h | h, _⟩
      · rw [hu1] at h; cases h
      · rw [hu1] at h; cases h
      · rw [hu2] at h; cases h

/-- Witness for C4: in the calm environment both provisioners report `VerbCreated`. -/
theorem create_outcome_event_witness :
    Effect.event (createdEvent sampleRedis) ∈ (create calmWorld sampleRedis).log ∧
    Effect.event (patchedEvent sampleRedis) ∉ (create calmWorld sampleRedis).log :=
  have h := create_outcome_event calmWorld sampleRedis (create calmWorld sampleRedis).redis
    VerbType.VerbCreated VerbType.VerbCreated (by decide) (by decide) rfl rfl
  ⟨h.1.2 ⟨rfl, rfl⟩, fun hp => by have := h.2.1.1 hp; simp at this⟩

/-! ## C5: the creation status is stamped at most once -/

theorem createProvision_no_patch (w : World) (r cur mod : Redis) :
    Effect.patchRedis cur mod ∉ (createProvision w r).log := by
  unfold createProvision
  simp only []
  split
  · simp [recordEventf, recordEvent]
  · split
    · simp
    · split
      · simp
      · split <;> split_ifs <;> simp [recordEventf, recordEvent]

/-- The only patch `createDefaulted` can issue is the port patch on its argument. -/
theorem createDefaulted_patch (w : World) (r cur mod : Redis)
    (h : Effect.patchRedis cur mod ∈ (createDefaulted w r).log) :
    cur = r ∧ mod = defaultPort r := by
  have hport : Effect.patchRedis cur mod ∈ (setMonitoringPort w r).log →
      cur = r ∧ mod = defaultPort r := by
    intro hin
    rcases setMonitoringPort_log w r _ hin with h | ⟨ev, h, _⟩
    · simpa using h
    · cases h
  have hmatch : ∀ x, Effect.patchRedis cur mod ∉ (matchDormantDatabase w x).log := by
    intro x hin
    rcases matchDormantDatabase_log w x _ hin with h | ⟨ev, h, _⟩ | ⟨m, h⟩ <;> cases h
  rcases createDefaulted_cases w r with ⟨_, hc⟩ | ⟨_, _, hc⟩ | ⟨_, _, hc⟩
  · rw [hc] at h
    exact hport h
  · rw [hc] at h
    simp only [List.mem_append] at h
    rcases h with h | h
    · exact hport h
    · exact absurd h (hmatch _)
  · rw [hc] at h
    simp only [List.mem_append] at h
    rcases h with (h | h) | h
    · exact hport h
    · exact absurd h (hmatch _)
    · exact absurd h (createProvision_no_patch w _ cur mod)

theorem createDefaulted_status (w : World) (r : Redis) :
    (createDefaulted w r).redis.status = r.status := by
  rcases createDefaulted_cases w r with ⟨_, hc⟩ | ⟨_, _, hc⟩ | ⟨_, _, hc⟩ <;>
    simp [hc, setMonitoringPort_status]

/-- C5: (a) when `Status.CreationTime` of the resource is already set, every patch that
`create` issues sends the status it read from the resource unchanged (so neither the
creation time nor the phase is rewritten), and the resource leaves `create` with the
status it came with. (b) A patch of `create` that changes the status occurs only when
`Status.CreationTime` is nil, and it is the stamping patch on the resource itself: it sets
`CreationTime` to the current time and `Phase` to Creating and changes nothing else. -/
theorem create_stamps_once (w : World) (redis : Redis) :
    (redis.status.creationTime ≠ none →
      (∀ cur mod, Effect.patchRedis cur mod ∈ (create w redis).log →
        cur.status = redis.status ∧ mod.status = redis.status) ∧
      (create w redis).redis.status = redis.status) ∧
    (∀ cur mod, Effect.patchRedis cur mod ∈ (create w redis).log →
      mod.status ≠ cur.status →
      redis.status.creationTime = none ∧ cur = redis ∧
      mod.status = { redis.status with creationTime := some w.now,
                                       phase := DatabasePhase.creating } ∧
      mod.spec = redis.spec ∧ mod.meta = redis.meta) := by
  have hdp : ∀ r : Redis, (defaultPort r).status = r.status := fun _ => rfl
  rcases create_cases w redis with ⟨verr, _, h⟩ | ⟨perr, _, hc, _, h⟩ | ⟨mc, _, hc, _, h⟩ |
    ⟨_, hc, h⟩
  · rw [h]
    simp [recordEvent]
  · rw [h]
    refine ⟨fun hne => absurd hc hne, ?_⟩
    intro cur mod hin hd
    simp [recordEventf, recordEvent] at hin
    obtain ⟨h1, h2⟩ := hin
    subst h1 h2
    exact ⟨hc, rfl, rfl, rfl, rfl⟩
  · rw [h]
    refine ⟨fun hne => absurd hc hne, ?_⟩
    intro cur mod hin hd
    simp at hin
    rcases hin with ⟨h1, h2⟩ | hin
    · subst h1 h2
      exact ⟨hc, rfl, rfl, rfl, rfl⟩
    · obtain ⟨h1, h2⟩ := createDefaulted_patch w _ cur mod hin
      subst h1 h2
      exact absurd (hdp _) hd
  · rw [h]
    refine ⟨fun _ => ⟨?_, createDefaulted_status w redis⟩, ?_⟩
    · intro cur mod hin
      simp at hin
      obtain ⟨h1, h2⟩ := createDefaulted_patch w _ cur mod hin
      subst h1 h2
      exact ⟨rfl, rfl⟩
    · intro cur mod hin hd
      simp at hin
      obtain ⟨h1, h2⟩ := createDefaulted_patch w _ cur mod hin
      subst h1 h2
      exact absurd (hdp _) hd

/-- Witness for C5: a resource stamped earlier is reconciled without a status change, and
the patch of a fresh resource that changes the status is the stamp. -/
theorem create_stamps_once_witness :
    (create calmWorld (stampStatus 3 sampleRedis)).redis.status =
      (stampStatus 3 sampleRedis).status ∧
    (sampleRedis.status.creationTime = none ∧
      (stampStatus calmWorld.now sampleRedis).status =
        { sampleRedis.status with creationTime := some calmWorld.now,
                                  phase := DatabasePhase.creating }) :=
  ⟨((create_stamps_once calmWorld (stampStatus 3 sampleRedis)).1 (by decide)).2,
   have h := (create_stamps_once calmWorld sampleRedis).2 sampleRedis
     (stampStatus calmWorld.now sampleRedis) (by decide) (by decide)
   ⟨h.1, h.2.2.1⟩⟩

/-! ## C6: create-or-patch on an absent record -/

/-- C6: when the read of `meta` reports NotFound, `CreateOrPatchProxySQL` issues the read
and then one Create of `transform` applied to the fresh record (kind, API version and the
given meta, everything else zero), issues no Patch, returns `VerbCreated`, and hands back
the answer of the Create call (the stored object, or its error). -/
theorem CreateOrPatch_absent {σ : Type} (lib : JsonLib) (c : Client ProxySQL σ)
    (meta : ObjectMeta) (transform : ProxySQL → ProxySQL) (s s1 : σ) (e : GoError)
    (hget : c.get meta.Namespace meta.Name s = (Except.error e, s1))
    (hnf : e.reason = StatusReason.notFound) :
    (CreateOrPatchProxySQL lib c meta transform s).verb = VerbType.VerbCreated ∧
    (CreateOrPatchProxySQL lib c meta transform s).calls =
      [Call.get meta.Namespace meta.Name,
       Call.create meta.Namespace (transform (freshProxySQL meta))] ∧
    (∀ ns name doc, Call.patch ns name doc ∉ (CreateOrPatchProxySQL lib c meta transform s).calls) ∧
    (freshProxySQL meta).meta = meta ∧
    (freshProxySQL meta).typeMeta = { Kind := "ProxySQL", APIVersion := SchemeGroupVersion } ∧
    (freshProxySQL meta).spec = ProxySQLSpec.zero ∧
    (freshProxySQL meta).status = ProxySQLStatus.zero ∧
    (CreateOrPatchProxySQL lib c meta transform s).store =
      (c.create meta.Namespace (transform (freshProxySQL meta)) s1).2 ∧
    (match (c.create meta.Namespace (transform (freshProxySQL meta)) s1).1 with
      | Except.ok out =>
        (CreateOrPatchProxySQL lib c meta transform s).obj = some out ∧
        (CreateOrPatchProxySQL lib c meta transform s).err = none
      | Except.error cerr =>
        (CreateOrPatchProxySQL lib c meta transform s).err = some cerr) := by
  unfold CreateOrPatchProxySQL
  simp only [hget, IsNotFound, hnf, decide_True, if_true]
  rcases hc : c.create meta.Namespace (transform (freshProxySQL meta)) s1 with ⟨res, s2⟩
  cases res <;> simp [freshProxySQL]

/-- Witness for C6: the empty in-memory store. -/
theorem CreateOrPatch_absent_witness :
    (CreateOrPatchProxySQL plainJson (memStore applyBump) sampleMeta threeReplicas []).verb =
      VerbType.VerbCreated ∧
    (CreateOrPatchProxySQL plainJson (memStore applyBump) sampleMeta threeReplicas []).calls =
      [Call.get "demo" "px", Call.create "demo" (threeReplicas (freshProxySQL sampleMeta))] :=
  have h := CreateOrPatch_absent plainJson (memStore applyBump) sampleMeta threeReplicas [] []
    { reason := StatusReason.notFound, msg := "px not found" } rfl rfl
  ⟨h.1, h.2.1⟩

/-! ## C7: create-or-patch on a present record -/

/-- C7: when the read returns the record `cur` and the merge patch computed from `cur`
and `transform cur` is `doc`: if `doc` is empty (zero bytes or `{}`) the call returns
`VerbUnchanged`, no error and `cur` itself, and issues no call but the read (no Patch, no
Create); otherwise it issues, after the read, exactly one Patch carrying `doc`, no Create,
and returns `VerbPatched`. The same holds of `PatchProxySQL` on `cur` without the read. -/
theorem CreateOrPatch_present {σ : Type} (lib : JsonLib) (c : Client ProxySQL σ)
    (meta : ObjectMeta) (transform : ProxySQL → ProxySQL) (s s1 : σ) (cur : ProxySQL)
    (curJson modJson doc : String)
    (hget : c.get meta.Namespace meta.Name s = (Except.ok cur, s1))
    (hcur : lib.marshal cur = Except.ok curJson)
    (hmod : lib.marshal (transform cur) = Except.ok modJson)
    (hdiff : lib.createMergePatch curJson modJson = Except.ok doc) :
    ((doc.length = 0 ∨ doc = "{}") →
      (CreateOrPatchProxySQL lib c meta transform s).verb = VerbType.VerbUnchanged ∧
      (CreateOrPatchProxySQL lib c meta transform s).err = none ∧
      (CreateOrPatchProxySQL lib c meta transform s).obj = some cur ∧
      (CreateOrPatchProxySQL lib c meta transform s).calls =
        [Call.get meta.Namespace meta.Name] ∧
      (CreateOrPatchProxySQL lib c meta transform s).store = s1 ∧
      (PatchProxySQL lib c cur transform s1).verb = VerbType.VerbUnchanged ∧
      (PatchProxySQL lib c cur transform s1).obj = some cur ∧
      (PatchProxySQL lib c cur transform s1).calls = []) ∧
    (¬ (doc.length = 0 ∨ doc = "{}") →
      (CreateOrPatchProxySQL lib c meta transform s).verb = VerbType.VerbPatched ∧
      (CreateOrPatchProxySQL lib c meta transform s).calls =
        [Call.get meta.Namespace meta.Name,
         Call.patch cur.meta.Namespace cur.meta.Name doc] ∧
      (PatchProxySQL lib c cur transform s1).verb = VerbType.VerbPatched ∧
      (PatchProxySQL lib c cur transform s1).calls =
        [Call.patch cur.meta.Namespace cur.meta.Name doc]) := by
  constructor
  · intro hp
    simp [CreateOrPatchProxySQL, PatchProxySQL, PatchProxySQLObject, hget, hcur, hmod, hdiff,
      hp]
  · intro hp
    rcases hc : c.patch cur.meta.Namespace cur.meta.Name doc s1 with ⟨res, s2⟩
    cases res <;>
      simp [CreateOrPatchProxySQL, PatchProxySQL, PatchProxySQLObject, hget, hcur, hmod, hdiff,
        hp, hc]

set_option maxRecDepth 100000 in
/-- Witness for C7: on a stored record with three replicas, setting three replicas changes
nothing and raising the count issues one Patch. -/
theorem CreateOrPatch_present_witness :
    ((CreateOrPatchProxySQL plainJson (memStore applyBump) sampleMeta threeReplicas
        [storedRecord]).verb = VerbType.VerbUnchanged ∧
      (CreateOrPatchProxySQL plainJson (memStore applyBump) sampleMeta threeReplicas
        [storedRecord]).calls = [Call.get "demo" "px"]) ∧
    ((CreateOrPatchProxySQL plainJson (memStore applyBump) sampleMeta bumpReplicas
        [storedRecord]).verb = VerbType.VerbPatched ∧
      (CreateOrPatchProxySQL plainJson (memStore applyBump) sampleMeta bumpReplicas
        [storedRecord]).calls =
        [Call.get "demo" "px",
         Call.patch "demo" "px" (renderProxySQL (bumpReplicas storedRecord))]) :=
  have h1 := (CreateOrPatch_present plainJson (memStore applyBump) sampleMeta threeReplicas
    [storedRecord] [storedRecord] storedRecord (renderProxySQL storedRecord)
    (renderProxySQL storedRecord) "{}" rfl rfl rfl rfl).1 (Or.inr rfl)
  have h2 := (CreateOrPatch_present plainJson (memStore applyBump) sampleMeta bumpReplicas
    [storedRecord] [storedRecord] storedRecord (renderProxySQL storedRecord)
    (renderProxySQL (bumpReplicas storedRecord)) (renderProxySQL (bumpReplicas storedRecord))
    rfl rfl rfl rfl).2 (by decide)
  ⟨⟨h1.1, h1.2.2.2.1⟩, ⟨h2.1, h2.2.1⟩⟩

/-! ## C8: calling create-or-patch twice -/

set_option maxRecDepth 100000 in
/-- C8, counterexample: on the empty in-memory store, two calls with the same transform
`bumpReplicas` (raise the replica count by one) return `VerbCreated` and then
`VerbPatched`, not `VerbUnchanged`, and the second call writes: it issues a Patch. -/
theorem CreateOrPatch_twice_counterexample :
    (CreateOrPatchProxySQL plainJson (memStore applyBump) sampleMeta bumpReplicas []).verb =
      VerbType.VerbCreated ∧
    (CreateOrPatchProxySQL plainJson (memStore applyBump) sampleMeta bumpReplicas
      (CreateOrPatchProxySQL plainJson (memStore applyBump) sampleMeta bumpReplicas
        []).store).verb = VerbType.VerbPatched ∧
    (CreateOrPatchProxySQL plainJson (memStore applyBump) sampleMeta bumpReplicas
      (CreateOrPatchProxySQL plainJson (memStore applyBump) sampleMeta bumpReplicas
        []).store).verb ≠ VerbType.VerbUnchanged ∧
    (CreateOrPatchProxySQL plainJson (memStore applyBump) sampleMeta bumpReplicas
      (CreateOrPatchProxySQL plainJson (memStore applyBump) sampleMeta bumpReplicas
        []).store).calls =
      [Call.get "demo" "px",
       Call.patch "demo" "px"
         (renderProxySQL (bumpReplicas (bumpReplicas (freshProxySQL sampleMeta))))] := by
  refine ⟨rfl, ?_, ?_, ?_⟩
  · decide
  · decide
  · decide

/-- C8, amended: starting from a state in which the read of `meta` reports NotFound, if
the Create succeeds with the record `out`, the next read returns `out`, `transform` maps
`out` to itself, and the merge patch of a document against itself is empty, then two calls
with the same transform return `VerbCreated` and then `VerbUnchanged`; the second call
returns `out` without error and issues the read only (no Create, Update or Patch). -/
theorem CreateOrPatch_twice {σ : Type} (lib : JsonLib) (c : Client ProxySQL σ)
    (meta : ObjectMeta) (transform : ProxySQL → ProxySQL) (s s1 s2 s3 : σ) (e : GoError)
    (out : ProxySQL) (outJson doc : String)
    (hget : c.get meta.Namespace meta.Name s = (Except.error e, s1))
    (hnf : e.reason = StatusReason.notFound)
    (hcreate : c.create meta.Namespace (transform (freshProxySQL meta)) s1 = (Except.ok out, s2))
    (hread : c.get meta.Namespace meta.Name s2 = (Except.ok out, s3))
    (hidem : transform out = out)
    (hjson : lib.marshal out = Except.ok outJson)
    (hdiff : lib.createMergePatch outJson outJson = Except.ok doc)
    (hempty : doc.length = 0 ∨ doc = "{}") :
    (CreateOrPatchProxySQL lib c meta transform s).verb = VerbType.VerbCreated ∧
    (CreateOrPatchProxySQL lib c meta transform s).store = s2 ∧
    (CreateOrPatchProxySQL lib c meta transform
      (CreateOrPatchProxySQL lib c meta transform s).store).verb = VerbType.VerbUnchanged ∧
    (CreateOrPatchProxySQL lib c meta transform
      (CreateOrPatchProxySQL lib c meta transform s).store).err = none ∧
    (CreateOrPatchProxySQL lib c meta transform
      (CreateOrPatchProxySQL lib c meta transform s).store).obj = some out ∧
    (CreateOrPatchProxySQL lib c meta transform
      (CreateOrPatchProxySQL lib c meta transform s).store).calls =
        [Call.get meta.Namespace meta.Name] := by
  have h1 : (CreateOrPatchProxySQL lib c meta transform s).store = s2 := by
    simp [CreateOrPatchProxySQL, hget, IsNotFound, hnf, hcreate]
  refine ⟨?_, h1, ?_⟩
  · simp [CreateOrPatchProxySQL, hget, IsNotFound, hnf, hcreate]
  · rw [h1]
    simp [CreateOrPatchProxySQL, PatchProxySQL, PatchProxySQLObject, hread, hidem, hjson,
      hdiff, hempty]

set_option maxRecDepth 100000 in
/-- Witness for C8 (amended): the idempotent transform `threeReplicas` on the empty
in-memory store. -/
theorem CreateOrPatch_twice_witness :
    (CreateOrPatchProxySQL plainJson (memStore applyBump) sampleMeta threeReplicas []).verb =
      VerbType.VerbCreated ∧
    (CreateOrPatchProxySQL plainJson (memStore applyBump) sampleMeta threeReplicas
      (CreateOrPatchProxySQL plainJson (memStore applyBump) sampleMeta threeReplicas
        []).store).verb = VerbType.VerbUnchanged ∧
    (CreateOrPatchProxySQL plainJson (memStore applyBump) sampleMeta threeReplicas
      (CreateOrPatchProxySQL plainJson (memStore applyBump) sampleMeta threeReplicas
        []).store).calls = [Call.get "demo" "px"] :=
  have h := CreateOrPatch_twice plainJson (memStore applyBump) sampleMeta threeReplicas
    [] [] [storedRecord] [storedRecord]
    { reason := StatusReason.notFound, msg := "px not found" } storedRecord
    (renderProxySQL storedRecord) "{}" rfl rfl rfl rfl rfl rfl rfl (Or.inr rfl)
  ⟨h.1, h.2.2.1, h.2.2.2.2.2⟩

/-! ## C9: the retrying update under contention -/

/-- The poll of `TryUpdateProxySQL` when the writes of the next `k` attempts are rejected
and the one after is accepted, started in any state of the loop variables. -/
theorem poll_rejected_then_accepted {σ : Type} (c : Client ProxySQL σ) (meta : ObjectMeta)
    (transform : ProxySQL → ProxySQL) (out : ProxySQL) :
    ∀ (k ticks : Nat) (st rd : Nat → σ) (cur : Nat → ProxySQL) (init : TryState ProxySQL σ),
      k ≤ ticks → init.store = st 0 →
      (∀ i, i ≤ k → c.get meta.Namespace meta.Name (st i) = (Except.ok (cur i), rd i)) →
      (∀ i, i < k → ∃ e, c.update (cur i).meta.Namespace (transform (cur i)) (rd i) =
        (Except.error e, st (i + 1))) →
      c.update (cur k).meta.Namespace (transform (cur k)) (rd k) =
        (Except.ok out, st (k + 1)) →
      PollImmediate (tryUpdateAttempt c meta transform) ticks init =
        (none, { attempt := init.attempt + (k + 1), result := some out, store := st (k + 1),
                 calls := init.calls ++ ((List.range (k + 1)).map (fun i =>
                   attemptCalls meta (cur i).meta.Namespace (transform (cur i)))).flatten }) := by
  intro k
  induction k with
  | zero =>
    intro ticks st rd cur init _ hinit hget _ hacc
    have hg := hget 0 (Nat.le_refl 0)
    have hr : List.range 1 = [0] := rfl
    cases ticks <;>
      simp [PollImmediate, tryUpdateAttempt, hinit, hg, hacc, attemptCalls, hr]
  | succ k ih =>
    intro ticks st rd cur init hk hinit hget hrej hacc
    obtain ⟨t, rfl⟩ : ∃ t, ticks = t + 1 := ⟨ticks - 1, by omega⟩
    have hg := hget 0 (Nat.zero_le _)
    obtain ⟨e, he⟩ := hrej 0 (Nat.succ_pos k)
    have hstep : PollImmediate (tryUpdateAttempt c meta transform) (t + 1) init =
        PollImmediate (tryUpdateAttempt c meta transform) t
          { attempt := init.attempt + 1, result := none, store := st 1,
            calls := init.calls ++
              attemptCalls meta (cur 0).meta.Namespace (transform (cur 0)) } := by
      simp [PollImmediate, tryUpdateAttempt, hinit, hg, he, attemptCalls]
    rw [hstep]
    rw [ih t (fun i => st (i + 1)) (fun i => rd (i + 1)) (fun i => cur (i + 1)) _
      (by omega) rfl (fun i hi => hget (i + 1) (by omega))
      (fun i hi => hrej (i + 1) (by omega)) hacc]
    have hr : List.range (k + 1 + 1) = 0 :: (List.range (k + 1)).map Nat.succ :=
      List.range_succ_eq_map (k + 1)
    simp only [hr, List.map_cons, List.map_map, List.flatten_cons, List.append_assoc]
    congr 2
    omega

/-- C9: let the poll allow `ticks + 1` attempts and let `k < ticks + 1`. Suppose that in
attempt `i` (for `i ≤ k`) the read, made in server state `st i`, returns `cur i`, that
the writes of attempts `0 .. k-1` are rejected and the write of attempt `k` is accepted
with `out`. Then `TryUpdateProxySQL` returns `out` and no error after exactly `k + 1`
attempts, and its calls are, attempt by attempt, the read followed by the Update of
`transform (cur i)`: the object written in attempt `i` comes from the record read in
attempt `i`. -/
theorem TryUpdate_rejected_then_accepted {σ : Type} (ticks k : Nat) (c : Client ProxySQL σ)
    (meta : ObjectMeta) (transform : ProxySQL → ProxySQL) (st rd : Nat → σ)
    (cur : Nat → ProxySQL) (out : ProxySQL)
    (hk : k < ticks + 1)
    (hget : ∀ i, i ≤ k → c.get meta.Namespace meta.Name (st i) = (Except.ok (cur i), rd i))
    (hrej : ∀ i, i < k → ∃ e, c.update (cur i).meta.Namespace (transform (cur i)) (rd i) =
      (Except.error e, st (i + 1)))
    (hacc : c.update (cur k).meta.Namespace (transform (cur k)) (rd k) =
      (Except.ok out, st (k + 1))) :
    (TryUpdateProxySQL ticks c meta transform (st 0)).err = none ∧
    (TryUpdateProxySQL ticks c meta transform (st 0)).result = some out ∧
    (TryUpdateProxySQL ticks c meta transform (st 0)).attempt = k + 1 ∧
    (TryUpdateProxySQL ticks c meta transform (st 0)).store = st (k + 1) ∧
    (TryUpdateProxySQL ticks c meta transform (st 0)).calls =
      ((List.range (k + 1)).map (fun i =>
        [Call.get meta.Namespace meta.Name,
         Call.update (cur i).meta.Namespace (transform (cur i))])).flatten := by
  have h := poll_rejected_then_accepted c meta transform out k ticks st rd cur
    { attempt := 0, result := none, store := st 0, calls := [] }
    (by omega) rfl hget hrej hacc
  unfold TryUpdateProxySQL
  rw [h]
  simp [attemptCalls]

/-- Witness for C9: two conflicting writers, five attempts allowed. -/
theorem TryUpdate_rejected_then_accepted_witness :
    (TryUpdateProxySQL 4 (contended storedRecord) sampleMeta bumpReplicas 2).err = none ∧
    (TryUpdateProxySQL 4 (contended storedRecord) sampleMeta bumpReplicas 2).result =
      some (bumpReplicas storedRecord) ∧
    (TryUpdateProxySQL 4 (contended storedRecord) sampleMeta bumpReplicas 2).attempt = 3 :=
  have h := TryUpdate_rejected_then_accepted 4 2 (contended storedRecord) sampleMeta
    bumpReplicas (fun i => 2 - i) (fun i => 2 - i) (fun _ => storedRecord)
    (bumpReplicas storedRecord) (by decide) (fun _ _ => rfl)
    (fun i hi => by
      have hi2 : i = 0 ∨ i = 1 := by omega
      rcases hi2 with rfl | rfl
      · exact ⟨_, rfl⟩
      · exact ⟨_, rfl⟩)
    rfl
  ⟨h.1, h.2.1, h.2.2.1⟩

/-! ## C10: the retrying update gives up after the attempt bound -/

theorem sprintf_tryUpdate (ns name e : String) (n : Nat) :
    Sprintf "failed to update ProxySQL %s/%s after %d attempts due to %v"
      [FmtArg.str ns, FmtArg.str name, FmtArg.int n, FmtArg.str e] =
    "failed to update ProxySQL " ++ ns ++ "/" ++ name ++ " after " ++ toString n ++
      " attempts due to " ++ e := by
  apply String.ext
  simp [Sprintf, sprintfAux, FmtState.next, isFlag, isDigit, renderVerb, renderExtra,
    FmtArg.value, String.toList]

theorem sprintf_updateIssuer (ns name : String) (n : Nat) :
    Sprintf "failed to update Issuer %s@%s after %d attempts"
      [FmtArg.str name, FmtArg.str ns, FmtArg.int n] =
    "failed to update Issuer " ++ name ++ "@" ++ ns ++ " after " ++ toString n ++
      " attempts" := by
  apply String.ext
  simp [Sprintf, sprintfAux, FmtState.next, isFlag, isDigit, renderVerb, renderExtra,
    FmtArg.value, String.toList]

/-- The poll of `TryUpdateProxySQL` when every write is rejected. -/
theorem poll_all_rejected {σ : Type} (c : Client ProxySQL σ) (meta : ObjectMeta)
    (transform : ProxySQL → ProxySQL) :
    ∀ (ticks : Nat) (st rd : Nat → σ) (cur : Nat → ProxySQL) (init : TryState ProxySQL σ),
      init.store = st 0 →
      (∀ i, i ≤ ticks → c.get meta.Namespace meta.Name (st i) = (Except.ok (cur i), rd i)) →
      (∀ i, i ≤ ticks → ∃ e, c.update (cur i).meta.Namespace (transform (cur i)) (rd i) =
        (Except.error e, st (i + 1))) →
      PollImmediate (tryUpdateAttempt c meta transform) ticks init =
        (some ErrWaitTimeout,
          { attempt := init.attempt + (ticks + 1), result := none, store := st (ticks + 1),
            calls := init.calls ++ ((List.range (ticks + 1)).map (fun i =>
              attemptCalls meta (cur i).meta.Namespace (transform (cur i)))).flatten }) := by
  intro ticks
  induction ticks with
  | zero =>
    intro st rd cur init hinit hget hrej
    have hg := hget 0 (Nat.le_refl 0)
    obtain ⟨e, he⟩ := hrej 0 (Nat.le_refl 0)
    have hr : List.range 1 = [0] := rfl
    simp [PollImmediate, tryUpdateAttempt, hinit, hg, he, attemptCalls, hr]
  | succ t ih =>
    intro st rd cur init hinit hget hrej
    have hg := hget 0 (Nat.zero_le _)
    obtain ⟨e, he⟩ := hrej 0 (Nat.zero_le _)
    have hstep : PollImmediate (tryUpdateAttempt c meta transform) (t + 1) init =
        PollImmediate (tryUpdateAttempt c meta transform) t
          { attempt := init.attempt + 1, result := none, store := st 1,
            calls := init.calls ++
              attemptCalls meta (cur 0).meta.Namespace (transform (cur 0)) } := by
      simp [PollImmediate, tryUpdateAttempt, hinit, hg, he, attemptCalls]
    rw [hstep]
    rw [ih (fun i => st (i + 1)) (fun i => rd (i + 1)) (fun i => cur (i + 1)) _
      rfl (fun i hi => hget (i + 1) (by omega)) (fun i hi => hrej (i + 1) (by omega))]
    have hr : List.range (t + 1 + 1) = 0 :: (List.range (t + 1)).map Nat.succ :=
      List.range_succ_eq_map (t + 1)
    simp only [hr, List.map_cons, List.map_map, List.flatten_cons, List.append_assoc]
    congr 2
    omega

/-- The loop of `UpdateIssuer` when every write of the remaining iterations is rejected. -/
theorem issuerLoop_all_rejected {σ : Type} (c : Client Issuer σ) (meta : ObjectMeta)
    (transformer : Issuer → Issuer) :
    ∀ (remaining attempt : Nat) (st rd : Nat → σ) (cur : Nat → Issuer)
      (calls : List (Call Issuer)),
      (∀ i, i < remaining →
        c.get meta.Namespace meta.Name (st i) = (Except.ok (cur i), rd i)) →
      (∀ i, i < remaining →
        ∃ e, c.update (cur i).meta.Namespace (transformer (cur i)) (rd i) =
          (Except.error e, st (i + 1))) →
      UpdateIssuerLoop c meta transformer remaining attempt (st 0) calls =
        { result := none,
          err := some (Errorf "failed to update Issuer %s@%s after %d attempts"
            [FmtArg.str meta.Name, FmtArg.str meta.Namespace,
             FmtArg.int (attempt + remaining)]),
          attempt := attempt + remaining, store := st remaining,
          calls := calls ++ ((List.range remaining).map (fun i =>
            attemptCalls meta (cur i).meta.Namespace (transformer (cur i)))).flatten } := by
  intro remaining
  induction remaining with
  | zero =>
    intro attempt st rd cur calls _ _
    simp [UpdateIssuerLoop]
  | succ n ih =>
    intro attempt st rd cur calls hget hrej
    have hg := hget 0 (Nat.succ_pos n)
    obtain ⟨e, he⟩ := hrej 0 (Nat.succ_pos n)
    have hstep : UpdateIssuerLoop c meta transformer (n + 1) attempt (st 0) calls =
        UpdateIssuerLoop c meta transformer n (attempt + 1) (st 1)
          (calls ++ attemptCalls meta (cur 0).meta.Namespace (transformer (cur 0))) := by
      simp [UpdateIssuerLoop, hg, he, attemptCalls]
    rw [hstep]
    rw [ih (attempt + 1) (fun i => st (i + 1)) (fun i => rd (i + 1)) (fun i => cur (i + 1)) _
      (fun i hi => hget (i + 1) (by omega)) (fun i hi => hrej (i + 1) (by omega))]
    have hr : List.range (n + 1) = 0 :: (List.range n).map Nat.succ :=
      List.range_succ_eq_map n
    have ha : attempt + 1 + n = attempt + (n + 1) := by omega
    simp only [hr, List.map_cons, List.map_map, List.flatten_cons, List.append_assoc, ha]
    rfl

/-- C10: (a) when the poll allows `ticks + 1` attempts and in each of them the read
succeeds and the write is rejected, `TryUpdateProxySQL` makes exactly `ticks + 1`
attempts (each a read and an Update) and returns the error
"failed to update ProxySQL <namespace>/<name> after <ticks + 1> attempts due to timed out
waiting for the condition". (b) When in each of the `maxAttempts` iterations the read
succeeds and the write is rejected, `UpdateIssuer` makes exactly 5 attempts and returns
the error "failed to update Issuer <name>@<namespace> after 5 attempts". -/
theorem retrying_update_exhausted :
    (∀ {σ : Type} (ticks : Nat) (c : Client ProxySQL σ) (meta : ObjectMeta)
      (transform : ProxySQL → ProxySQL) (st rd : Nat → σ) (cur : Nat → ProxySQL),
      (∀ i, i ≤ ticks → c.get meta.Namespace meta.Name (st i) = (Except.ok (cur i), rd i)) →
      (∀ i, i ≤ ticks → ∃ e, c.update (cur i).meta.Namespace (transform (cur i)) (rd i) =
        (Except.error e, st (i + 1))) →
      (TryUpdateProxySQL ticks c meta transform (st 0)).attempt = ticks + 1 ∧
      (TryUpdateProxySQL ticks c meta transform (st 0)).err =
        some { reason := StatusReason.unknown,
               msg := "failed to update ProxySQL " ++ meta.Namespace ++ "/" ++ meta.Name ++
                 " after " ++ toString (ticks + 1) ++
                 " attempts due to timed out waiting for the condition" } ∧
      (TryUpdateProxySQL ticks c meta transform (st 0)).calls =
        ((List.range (ticks + 1)).map (fun i =>
          [Call.get meta.Namespace meta.Name,
           Call.update (cur i).meta.Namespace (transform (cur i))])).flatten) ∧
    (∀ {σ : Type} (c : Client Issuer σ) (meta : ObjectMeta) (transformer : Issuer → Issuer)
      (st rd : Nat → σ) (cur : Nat → Issuer),
      (∀ i, i < maxAttempts →
        c.get meta.Namespace meta.Name (st i) = (Except.ok (cur i), rd i)) →
      (∀ i, i < maxAttempts →
        ∃ e, c.update (cur i).meta.Namespace (transformer (cur i)) (rd i) =
          (Except.error e, st (i + 1))) →
      (UpdateIssuer c meta transformer (st 0)).attempt = 5 ∧
      (UpdateIssuer c meta transformer (st 0)).err =
        some { reason := StatusReason.unknown,
               msg := "failed to update Issuer " ++ meta.Name ++ "@" ++ meta.Namespace ++
                 " after 5 attempts" } ∧
      (UpdateIssuer c meta transformer (st 0)).calls =
        ((List.range 5).map (fun i =>
          [Call.get meta.Namespace meta.Name,
           Call.update (cur i).meta.Namespace (transformer (cur i))])).flatten) := by
  constructor
  · intro σ ticks c meta transform st rd cur hget hrej
    have h := poll_all_rejected c meta transform ticks st rd cur
      { attempt := 0, result := none, store := st 0, calls := [] } rfl hget hrej
    unfold TryUpdateProxySQL
    rw [h]
    have hl : " attempts due to " ++ "timed out waiting for the condition" =
        " attempts due to timed out waiting for the condition" := by decide
    simp [attemptCalls, Errorf, sprintf_tryUpdate, ErrWaitTimeout]
    rw [String.append_assoc, hl]
  · intro σ c meta transformer st rd cur hget hrej
    have h := issuerLoop_all_rejected c meta transformer maxAttempts 0 st rd cur [] hget hrej
    unfold UpdateIssuer
    rw [h]
    have h5 : toString 5 = "5" := by decide
    simp [attemptCalls, Errorf, sprintf_updateIssuer, maxAttempts, h5, String.append_assoc]

/-- Witness for C10: nine conflicting writers against three attempts of
`TryUpdateProxySQL` and against the five attempts of `UpdateIssuer`. -/
theorem retrying_update_exhausted_witness :
    ((TryUpdateProxySQL 2 (contended storedRecord) sampleMeta bumpReplicas 9).attempt = 3 ∧
      (TryUpdateProxySQL 2 (contended storedRecord) sampleMeta bumpReplicas 9).err =
        some { reason := StatusReason.unknown,
               msg := "failed to update ProxySQL demo/px after 3 attempts due to timed out waiting for the condition" }) ∧
    ((UpdateIssuer (contendedIssuer sampleIssuer) sampleIssuer.meta
        (fun i => { i with caSecretName := "new" }) 9).attempt = 5 ∧
      (UpdateIssuer (contendedIssuer sampleIssuer) sampleIssuer.meta
        (fun i => { i with caSecretName := "new" }) 9).err =
        some { reason := StatusReason.unknown,
               msg := "failed to update Issuer ca@demo after 5 attempts" }) :=
  have h1 := retrying_update_exhausted.1 2 (contended storedRecord) sampleMeta bumpReplicas
    (fun i => 9 - i) (fun i => 9 - i) (fun _ => storedRecord) (fun _ _ => rfl)
    (fun i hi => by
      have hi2 : i = 0 ∨ i = 1 ∨ i = 2 := by omega
      rcases hi2 with rfl | rfl | rfl <;> exact ⟨_, rfl⟩)
  have h2 := retrying_update_exhausted.2 (contendedIssuer sampleIssuer) sampleIssuer.meta
    (fun i => { i with caSecretName := "new" })
    (fun i => 9 - i) (fun i => 9 - i) (fun _ => sampleIssuer) (fun _ _ => rfl)
    (fun i hi => by
      have hi2 : i = 0 ∨ i = 1 ∨ i = 2 ∨ i = 3 ∨ i = 4 := by
        simp only [maxAttempts] at hi; omega
      rcases hi2 with rfl | rfl | rfl | rfl | rfl <;> exact ⟨_, rfl⟩)
  ⟨⟨h1.1, h1.2.1⟩, ⟨h2.1, h2.2.1⟩⟩

/-! ## C11: a record that is not found ends the retrying update -/

/-- An attempt of `TryUpdateProxySQL` whose read reports NotFound ends the poll, whatever
number of ticks is left. -/
theorem poll_notFound {σ : Type} (c : Client ProxySQL σ) (meta : ObjectMeta)
    (transform : ProxySQL → ProxySQL) (ticks : Nat) (st : TryState ProxySQL σ)
    (e : GoError) (s1 : σ)
    (hget : c.get meta.Namespace meta.Name st.store = (Except.error e, s1))
    (hnf : e.reason = StatusReason.notFound) :
    PollImmediate (tryUpdateAttempt c meta transform) ticks st =
      (some e, { attempt := st.attempt + 1, result := st.result, store := s1,
                 calls := st.calls ++ [Call.get meta.Namespace meta.Name] }) := by
  cases ticks <;> simp [PollImmediate, tryUpdateAttempt, hget, IsNotFound, hnf]

/-- The poll of `TryUpdateProxySQL` when the writes of the next `k` attempts are rejected
and the read of the attempt after them reports NotFound. -/
theorem poll_rejected_then_notFound {σ : Type} (c : Client ProxySQL σ) (meta : ObjectMeta)
    (transform : ProxySQL → ProxySQL) (e : GoError) (fin : σ)
    (hnf : e.reason = StatusReason.notFound) :
    ∀ (k ticks : Nat) (st rd : Nat → σ) (cur : Nat → ProxySQL) (init : TryState ProxySQL σ),
      k ≤ ticks → init.store = st 0 → init.result = none →
      (∀ i, i < k → c.get meta.Namespace meta.Name (st i) = (Except.ok (cur i), rd i)) →
      (∀ i, i < k → ∃ e2, c.update (cur i).meta.Namespace (transform (cur i)) (rd i) =
        (Except.error e2, st (i + 1))) →
      c.get meta.Namespace meta.Name (st k) = (Except.error e, fin) →
      PollImmediate (tryUpdateAttempt c meta transform) ticks init =
        (some e, { attempt := init.attempt + (k + 1), result := none, store := fin,
                   calls := init.calls ++ ((List.range k).map (fun i =>
                     attemptCalls meta (cur i).meta.Namespace (transform (cur i)))).flatten ++
                     [Call.get meta.Namespace meta.Name] }) := by
  intro k
  induction k with
  | zero =>
    intro ticks st rd cur init _ hinit hres _ _ hlast
    rw [← hinit] at hlast
    rw [poll_notFound c meta transform ticks init e fin hlast hnf, hres]
    simp
  | succ k ih =>
    intro ticks st rd cur init hk hinit hres hget hrej hlast
    obtain ⟨t, rfl⟩ : ∃ t, ticks = t + 1 := ⟨ticks - 1, by omega⟩
    have hg := hget 0 (Nat.succ_pos k)
    obtain ⟨e2, he⟩ := hrej 0 (Nat.succ_pos k)
    have hstep : PollImmediate (tryUpdateAttempt c meta transform) (t + 1) init =
        PollImmediate (tryUpdateAttempt c meta transform) t
          { attempt := init.attempt + 1, result := none, store := st 1,
            calls := init.calls ++
              attemptCalls meta (cur 0).meta.Namespace (transform (cur 0)) } := by
      simp [PollImmediate, tryUpdateAttempt, hinit, hg, he, attemptCalls]
    rw [hstep]
    rw [ih t (fun i => st (i + 1)) (fun i => rd (i + 1)) (fun i => cur (i + 1)) _
      (by omega) rfl rfl (fun i hi => hget (i + 1) (by omega))
      (fun i hi => hrej (i + 1) (by omega)) hlast]
    have hr : List.range (k + 1) = 0 :: (List.range k).map Nat.succ :=
      List.range_succ_eq_map k
    simp only [hr, List.map_cons, List.map_map, List.flatten_cons, List.append_assoc]
    congr 2
    omega

/-- C11: (a) in `TryUpdateProxySQL`, an attempt whose read reports NotFound ends the poll
with that error, whatever number of attempts is still allowed: the only call of the
attempt is the read (no Update), and the outcome does not depend on `transform`.
(b) After `k` attempts with a rejected write, a read reporting NotFound in attempt `k + 1`
makes `TryUpdateProxySQL` return a non-nil error after exactly `k + 1` attempts, its last
call being that read. (c) In `UpdateIssuer` an iteration whose read reports NotFound ends
the loop as well, its only call being the read; `UpdateIssuer` then returns nil. -/
theorem retrying_update_notFound :
    (∀ {σ : Type} (c : Client ProxySQL σ) (meta : ObjectMeta)
      (transform other : ProxySQL → ProxySQL) (ticks : Nat) (st : TryState ProxySQL σ)
      (e : GoError) (s1 : σ),
      c.get meta.Namespace meta.Name st.store = (Except.error e, s1) →
      e.reason = StatusReason.notFound →
      PollImmediate (tryUpdateAttempt c meta transform) ticks st =
        (some e, { attempt := st.attempt + 1, result := st.result, store := s1,
                   calls := st.calls ++ [Call.get meta.Namespace meta.Name] }) ∧
      PollImmediate (tryUpdateAttempt c meta other) ticks st =
        PollImmediate (tryUpdateAttempt c meta transform) ticks st) ∧
    (∀ {σ : Type} (ticks k : Nat) (c : Client ProxySQL σ) (meta : ObjectMeta)
      (transform : ProxySQL → ProxySQL) (st rd : Nat → σ) (cur : Nat → ProxySQL)
      (e : GoError) (fin : σ),
      k < ticks + 1 →
      (∀ i, i < k → c.get meta.Namespace meta.Name (st i) = (Except.ok (cur i), rd i)) →
      (∀ i, i < k → ∃ e2, c.update (cur i).meta.Namespace (transform (cur i)) (rd i) =
        (Except.error e2, st (i + 1))) →
      c.get meta.Namespace meta.Name (st k) = (Except.error e, fin) →
      e.reason = StatusReason.notFound →
      (TryUpdateProxySQL ticks c meta transform (st 0)).err =
        some (Errorf "failed to update ProxySQL %s/%s after %d attempts due to %v"
          [FmtArg.str meta.Namespace, FmtArg.str meta.Name, FmtArg.int (k + 1),
           FmtArg.str e.msg]) ∧
      (TryUpdateProxySQL ticks c meta transform (st 0)).err ≠ none ∧
      (TryUpdateProxySQL ticks c meta transform (st 0)).attempt = k + 1 ∧
      (TryUpdateProxySQL ticks c meta transform (st 0)).store = fin ∧
      (TryUpdateProxySQL ticks c meta transform (st 0)).calls =
        ((List.range k).map (fun i =>
          [Call.get meta.Namespace meta.Name,
           Call.update (cur i).meta.Namespace (transform (cur i))])).flatten ++
          [Call.get meta.Namespace meta.Name]) ∧
    (∀ {σ : Type} (c : Client Issuer σ) (meta : ObjectMeta) (transformer : Issuer → Issuer)
      (remaining attempt : Nat) (s s1 : σ) (calls : List (Call Issuer)) (e : GoError),
      c.get meta.Namespace meta.Name s = (Except.error e, s1) →
      e.reason = StatusReason.notFound →
      UpdateIssuerLoop c meta transformer (remaining + 1) attempt s calls =
        { result := none, err := none, attempt := attempt, store := s1,
          calls := calls ++ [Call.get meta.Namespace meta.Name] }) := by
  refine ⟨?_, ?_, ?_⟩
  · intro σ c meta transform other ticks st e s1 hget hnf
    rw [poll_notFound c meta transform ticks st e s1 hget hnf,
      poll_notFound c meta other ticks st e s1 hget hnf]
    exact ⟨rfl, rfl⟩
  · intro σ ticks k c meta transform st rd cur e fin hk hget hrej hlast hnf
    have h := poll_rejected_then_notFound c meta transform e fin hnf k ticks st rd cur
      { attempt := 0, result := none, store := st 0, calls := [] }
      (by omega) rfl rfl hget hrej hlast
    unfold TryUpdateProxySQL
    rw [h]
    simp [attemptCalls]
  · intro σ c meta transformer remaining attempt s s1 calls e hget hnf
    simp [UpdateIssuerLoop, hget, IsNotFound, hnf]

/-- Witness for C11: the record disappears after one read; the first attempt is rejected,
the second finds nothing. -/
theorem retrying_update_notFound_witness :
    (TryUpdateProxySQL 4 (vanishing storedRecord) sampleMeta bumpReplicas 1).err ≠ none ∧
    (TryUpdateProxySQL 4 (vanishing storedRecord) sampleMeta bumpReplicas 1).attempt = 2 ∧
    (TryUpdateProxySQL 4 (vanishing storedRecord) sampleMeta bumpReplicas 1).calls =
      [Call.get "demo" "px", Call.update "demo" (bumpReplicas storedRecord),
       Call.get "demo" "px"] ∧
    (UpdateIssuerLoop (vanishing sampleIssuer) sampleIssuer.meta
        (fun i => { i with caSecretName := "new" }) (4 + 1) 0 0 []).err = none :=
  have h := retrying_update_notFound.2.1 4 1 (vanishing storedRecord) sampleMeta bumpReplicas
    (fun i => 1 - i) (fun i => 1 - i - 1) (fun _ => storedRecord)
    { reason := StatusReason.notFound, msg := "px not found" } 0 (by decide)
    (fun i hi => by
      have hi0 : i = 0 := by omega
      subst hi0; rfl)
    (fun i hi => by
      have hi0 : i = 0 := by omega
      subst hi0; exact ⟨_, rfl⟩)
    rfl rfl
  have h3 := retrying_update_notFound.2.2 (vanishing sampleIssuer) sampleIssuer.meta
    (fun i => { i with caSecretName := "new" }) 4 0 0 0 []
    { reason := StatusReason.notFound, msg := "ca not found" } rfl rfl
  ⟨h.2.1, h.2.2.1, h.2.2.2.2, by rw [h3]⟩

/-! ## C12: what `UpdateProxySQLStatus` submits -/

/-- Every attempt of `UpdateProxySQLStatus` first submits `applyStatus transform` of the
base record it holds, and keeps that base unless the write met a conflict. -/
theorem updateStatusAttempt_submits {σ : Type} (c : Client ProxySQL σ) (meta : ObjectMeta)
    (transform : ProxySQLStatus → ProxySQLStatus) (err : Option GoError)
    (st : StatusState σ) :
    (∃ rest, (updateStatusAttempt c meta transform err st).2.calls =
      st.calls ++ Call.updateStatus meta.Namespace (applyStatus transform st.cur) :: rest) ∧
    (∀ out s1, c.updateStatus meta.Namespace (applyStatus transform st.cur) st.store =
        (Except.ok out, s1) →
      (updateStatusAttempt c meta transform err st).2.cur = st.cur) ∧
    (∀ e s1, c.updateStatus meta.Namespace (applyStatus transform st.cur) st.store =
        (Except.error e, s1) → e.reason ≠ StatusReason.conflict →
      (updateStatusAttempt c meta transform err st).2.cur = st.cur) := by
  unfold updateStatusAttempt
  simp only []
  rcases hu : c.updateStatus meta.Namespace (applyStatus transform st.cur) st.store with
    ⟨res, s1⟩
  cases res with
  | error e2 =>
    by_cases hc : e2.reason = StatusReason.conflict
    · simp only [IsConflict, hc, decide_True, if_true]
      rcases hg : c.get meta.Namespace meta.Name s1 with ⟨res2, s2⟩
      cases res2 with
      | error e3 =>
        by_cases hr : IsRequestRetryable (some e3) = true
        · simp [hr, hc]
        · simp [hr, hc]
      | ok latest => simp [hc]
    · simp only [IsConflict, hc, decide_False]
      by_cases hr : (err.isSome && !IsRequestRetryable (some e2)) = true
      · simp [hr]
      · simp [hr]
  | ok out =>
    by_cases hr : (err.isSome && !IsRequestRetryable none) = true
    · simp [hr]
    · simp [hr]

/-- The calls of the poll of `UpdateProxySQLStatus` begin with the calls made before it and
the status write of the base record the poll starts with. -/
theorem statusPoll_first_call {σ : Type} (c : Client ProxySQL σ) (meta : ObjectMeta)
    (transform : ProxySQLStatus → ProxySQLStatus) (err : Option GoError) :
    ∀ (ticks : Nat) (st : StatusState σ),
      ∃ rest, (PollImmediate (updateStatusAttempt c meta transform err) ticks st).2.calls =
        st.calls ++ Call.updateStatus meta.Namespace (applyStatus transform st.cur) :: rest := by
  intro ticks
  induction ticks with
  | zero =>
    intro st
    obtain ⟨rest, hrest⟩ := (updateStatusAttempt_submits c meta transform err st).1
    rcases hc : updateStatusAttempt c meta transform err st with ⟨⟨done, e⟩, st1⟩
    rw [hc] at hrest
    refine ⟨rest, ?_⟩
    cases e <;> cases done <;> simp [PollImmediate, hc] <;> exact hrest
  | succ t ih =>
    intro st
    obtain ⟨rest, hrest⟩ := (updateStatusAttempt_submits c meta transform err st).1
    rcases hc : updateStatusAttempt c meta transform err st with ⟨⟨done, e⟩, st1⟩
    rw [hc] at hrest
    cases e with
    | some e1 =>
      refine ⟨rest, ?_⟩
      cases done <;> simp [PollImmediate, hc] <;> exact hrest
    | none =>
      cases done with
      | true =>
        refine ⟨rest, ?_⟩
        simp [PollImmediate, hc]
        exact hrest
      | false =>
        obtain ⟨rest2, hrest2⟩ := ih st1
        refine ⟨rest ++ Call.updateStatus meta.Namespace (applyStatus transform st1.cur) ::
          rest2, ?_⟩
        simp only [PollImmediate, hc]
        rw [hrest2]
        simp only [] at hrest
        rw [hrest]
        simp

/-- C12: for every record `x` and status transform, the object built by the closure
`apply` has the type meta, object meta and spec of `x` and the status `transform x.Status`;
when the first read returns `x`, the first write of `UpdateProxySQLStatus` is the
UpdateStatus of exactly that object; and every attempt whose base record is `x` submits it
and still holds `x` as its base afterwards unless the write met a conflict (a conflict
replaces the base by the re-fetched record, see C13): building the object leaves `x` as it
was. -/
theorem UpdateStatus_submits (transform : ProxySQLStatus → ProxySQLStatus) (x : ProxySQL) :
    (applyStatus transform x).typeMeta = x.typeMeta ∧
    (applyStatus transform x).meta = x.meta ∧
    (applyStatus transform x).spec = x.spec ∧
    (applyStatus transform x).status = transform x.status ∧
    (∀ {σ : Type} (ticks : Nat) (c : Client ProxySQL σ) (meta : ObjectMeta) (s s1 : σ),
      c.get meta.Namespace meta.Name s = (Except.ok x, s1) →
      ∃ rest, (UpdateProxySQLStatus ticks c meta transform s).calls =
        Call.get meta.Namespace meta.Name ::
          Call.updateStatus meta.Namespace (applyStatus transform x) :: rest) ∧
    (∀ {σ : Type} (c : Client ProxySQL σ) (meta : ObjectMeta) (err : Option GoError)
      (st : StatusState σ), st.cur = x →
      (∃ rest, (updateStatusAttempt c meta transform err st).2.calls =
        st.calls ++ Call.updateStatus meta.Namespace (applyStatus transform x) :: rest) ∧
      (∀ out s1, c.updateStatus meta.Namespace (applyStatus transform x) st.store =
          (Except.ok out, s1) →
        (updateStatusAttempt c meta transform err st).2.cur = x) ∧
      (∀ e s1, c.updateStatus meta.Namespace (applyStatus transform x) st.store =
          (Except.error e, s1) → e.reason ≠ StatusReason.conflict →
        (updateStatusAttempt c meta transform err st).2.cur = x)) := by
  refine ⟨rfl, rfl, rfl, rfl, ?_, ?_⟩
  · intro σ ticks c meta s s1 hget
    obtain ⟨rest, hrest⟩ := statusPoll_first_call c meta transform none ticks
      { attempt := 0, result := none, cur := x, store := s1,
        calls := [Call.get meta.Namespace meta.Name] }
    refine ⟨rest, ?_⟩
    unfold UpdateProxySQLStatus
    simp only [hget]
    rcases hp : PollImmediate (updateStatusAttempt c meta transform none) ticks
      { attempt := 0, result := none, cur := x, store := s1,
        calls := [Call.get meta.Namespace meta.Name] } with ⟨e, st⟩
    rw [hp] at hrest
    cases e <;> simpa using hrest
  · intro σ c meta err st hcur
    subst hcur
    exact updateStatusAttempt_submits c meta transform err st

/-- Witness for C12: the first write on a stored record that exists. -/
theorem UpdateStatus_submits_witness :
    (applyStatus markRunning storedRecord).spec = storedRecord.spec ∧
    ∃ rest, (UpdateProxySQLStatus 3 (contended storedRecord) sampleMeta markRunning 0).calls =
      Call.get "demo" "px" ::
        Call.updateStatus "demo" (applyStatus markRunning storedRecord) :: rest :=
  have h := UpdateStatus_submits markRunning storedRecord
  ⟨h.2.2.1, h.2.2.2.2.1 3 (contended storedRecord) sampleMeta 0 0 rfl⟩

/-! ## C13: a conflict makes `UpdateProxySQLStatus` retry on the re-fetched record -/

/-- The poll of `UpdateProxySQLStatus` when the next `k` status writes meet a conflict, each
followed by a successful re-fetch, and the write after them is accepted. -/
theorem statusPoll_conflicts_then_accepted {σ : Type} (c : Client ProxySQL σ)
    (meta : ObjectMeta) (transform : ProxySQLStatus → ProxySQLStatus) (out : ProxySQL)
    (fin : σ) :
    ∀ (k ticks : Nat) (st mid : Nat → σ) (base : Nat → ProxySQL) (init : StatusState σ),
      k ≤ ticks → init.store = st 0 → init.cur = base 0 →
      (∀ i, i < k → ∃ e, e.reason = StatusReason.conflict ∧
        c.updateStatus meta.Namespace (applyStatus transform (base i)) (st i) =
          (Except.error e, mid i)) →
      (∀ i, i < k → c.get meta.Namespace meta.Name (mid i) =
        (Except.ok (base (i + 1)), st (i + 1))) →
      c.updateStatus meta.Namespace (applyStatus transform (base k)) (st k) =
        (Except.ok out, fin) →
      PollImmediate (updateStatusAttempt c meta transform none) ticks init =
        (none, { attempt := init.attempt + (k + 1), result := some out, cur := base k,
                 store := fin,
                 calls := init.calls ++ ((List.range k).map (fun i =>
                   conflictCalls meta (applyStatus transform (base i)))).flatten ++
                   [Call.updateStatus meta.Namespace (applyStatus transform (base k))] }) := by
  intro k
  induction k with
  | zero =>
    intro ticks st mid base init _ hinit hcur _ _ hacc
    rw [← hinit] at hacc
    cases ticks <;>
      simp [PollImmediate, updateStatusAttempt, hacc, IsRequestRetryable, hcur]
  | succ k ih =>
    intro ticks st mid base init hk hinit hcur hconf hget hacc
    obtain ⟨t, rfl⟩ : ∃ t, ticks = t + 1 := ⟨ticks - 1, by omega⟩
    obtain ⟨e, hc, hu⟩ := hconf 0 (Nat.succ_pos k)
    have hg := hget 0 (Nat.succ_pos k)
    rw [← hinit] at hu
    have hstep : PollImmediate (updateStatusAttempt c meta transform none) (t + 1) init =
        PollImmediate (updateStatusAttempt c meta transform none) t
          { attempt := init.attempt + 1, result := none, cur := base 1, store := st 1,
            calls := init.calls ++ conflictCalls meta (applyStatus transform (base 0)) } := by
      simp [PollImmediate, updateStatusAttempt, hu, IsConflict, hc, hg, conflictCalls, hcur]
    rw [hstep]
    rw [ih t (fun i => st (i + 1)) (fun i => mid (i + 1)) (fun i => base (i + 1)) _
      (by omega) rfl rfl (fun i hi => hconf (i + 1) (by omega))
      (fun i hi => hget (i + 1) (by omega)) hacc]
    have hr : List.range (k + 1) = 0 :: (List.range k).map Nat.succ :=
      List.range_succ_eq_map k
    simp only [hr, List.map_cons, List.map_map, List.flatten_cons, List.append_assoc]
    congr 2
    omega

/-- C13: let the first read return `base 0`. If the status writes of attempts `1 .. k` each
meet a conflict and the re-fetch after the `i`-th conflict returns `base i`, and the write
of attempt `k + 1` is accepted with `out` (with `k + 1` attempts allowed), then
`UpdateProxySQLStatus` returns `out` and no error after exactly `k + 1` attempts, and its
calls are the first read, then per conflicting attempt the UpdateStatus of
`applyStatus transform (base i)` and the re-fetch, then the accepted UpdateStatus of
`applyStatus transform (base k)`: each attempt submits the transform of the record fetched
last, and the first accepted write ends the call. -/
theorem UpdateStatus_conflict_refetch {σ : Type} (ticks k : Nat) (c : Client ProxySQL σ)
    (meta : ObjectMeta) (transform : ProxySQLStatus → ProxySQLStatus) (s : σ)
    (st mid : Nat → σ) (base : Nat → ProxySQL) (out : ProxySQL) (fin : σ)
    (hk : k < ticks + 1)
    (hfirst : c.get meta.Namespace meta.Name s = (Except.ok (base 0), st 0))
    (hconf : ∀ i, i < k → ∃ e, e.reason = StatusReason.conflict ∧
      c.updateStatus meta.Namespace (applyStatus transform (base i)) (st i) =
        (Except.error e, mid i))
    (hget : ∀ i, i < k → c.get meta.Namespace meta.Name (mid i) =
      (Except.ok (base (i + 1)), st (i + 1)))
    (hacc : c.updateStatus meta.Namespace (applyStatus transform (base k)) (st k) =
      (Except.ok out, fin)) :
    (UpdateProxySQLStatus ticks c meta transform s).err = none ∧
    (UpdateProxySQLStatus ticks c meta transform s).result = some out ∧
    (UpdateProxySQLStatus ticks c meta transform s).attempt = k + 1 ∧
    (UpdateProxySQLStatus ticks c meta transform s).store = fin ∧
    (UpdateProxySQLStatus ticks c meta transform s).calls =
      Call.get meta.Namespace meta.Name ::
        (((List.range k).map (fun i =>
          [Call.updateStatus meta.Namespace (applyStatus transform (base i)),
           Call.get meta.Namespace meta.Name])).flatten ++
          [Call.updateStatus meta.Namespace (applyStatus transform (base k))]) := by
  have h := statusPoll_conflicts_then_accepted c meta transform out fin k ticks st mid base
    { attempt := 0, result := none, cur := base 0, store := st 0,
      calls := [Call.get meta.Namespace meta.Name] }
    (by omega) rfl rfl hconf hget hacc
  unfold UpdateProxySQLStatus
  simp only [hfirst]
  rw [h]
  simp [conflictCalls]

/-- Witness for C13: two status writes lose against a concurrent writer, the third is
accepted; the record read at generation `n` is written at generation `n`. -/
theorem UpdateStatus_conflict_refetch_witness :
    (UpdateProxySQLStatus 4 (statusContended storedRecord) sampleMeta markRunning 2).err =
      none ∧
    (UpdateProxySQLStatus 4 (statusContended storedRecord) sampleMeta markRunning 2).attempt =
      3 ∧
    (UpdateProxySQLStatus 4 (statusContended storedRecord) sampleMeta markRunning 2).result =
      some (applyStatus markRunning
        { storedRecord with status := { storedRecord.status with observedGeneration := 0 } }) :=
  have h := UpdateStatus_conflict_refetch 4 2 (statusContended storedRecord) sampleMeta
    markRunning 2 (fun i => 2 - i) (fun i => 1 - i)
    (fun i => { storedRecord with
      status := { storedRecord.status with observedGeneration := 2 - i } })
    (applyStatus markRunning
      { storedRecord with status := { storedRecord.status with observedGeneration := 0 } })
    0 (by decide) rfl
    (fun i hi => by
      have hi2 : i = 0 ∨ i = 1 := by omega
      rcases hi2 with rfl | rfl <;> exact ⟨_, rfl, rfl⟩)
    (fun i hi => by
      have hi2 : i = 0 ∨ i = 1 := by omega
      rcases hi2 with rfl | rfl <;> rfl)
    rfl
  ⟨h.1, h.2.2.1, h.2.1⟩

/-! ## Chains of slot ranges -/

/-- What the check `chainFrom s L t` establishes about the list `L`. -/
theorem chainFrom_spec : ∀ (L : List SlotRange) (s t : Nat), chainFrom s L t = true →
    s ≤ t ∧ (∀ r ∈ L, s ≤ r.start ∧ r.start ≤ r.stop ∧ r.stop < t) ∧
    L.Pairwise (fun a b => a.stop < b.start) ∧
    Contiguous L ∧
    (∀ x, (s ≤ x ∧ x < t) ↔ ∃ r ∈ L, r.start ≤ x ∧ x ≤ r.stop) := by
  intro L
  induction L with
  | nil =>
    intro s t h
    simp [chainFrom] at h
    subst h
    simp [Contiguous]
  | cons r rest ih =>
    intro s t h
    simp [chainFrom] at h
    obtain ⟨⟨hs, hle⟩, hrest⟩ := h
    obtain ⟨h1, h2, h3, h4, h5⟩ := ih (r.stop + 1) t hrest
    refine ⟨by omega, ?_, ?_, ?_, ?_⟩
    · intro q hq
      simp at hq
      rcases hq with rfl | hq
      · exact ⟨by omega, hle, by omega⟩
      · have := h2 q hq
        exact ⟨by omega, this.2.1, this.2.2⟩
    · rw [List.pairwise_cons]
      refine ⟨?_, h3⟩
      intro q hq
      have := h2 q hq
      omega
    · unfold Contiguous at h4 ⊢
      cases rest with
      | nil => simp
      | cons q rest2 =>
        rw [List.chain'_cons]
        refine ⟨?_, h4⟩
        simp [chainFrom] at hrest
        exact hrest.1.1
    · intro x
      constructor
      · rintro ⟨hx1, hx2⟩
        by_cases hx : x ≤ r.stop
        · exact ⟨r, by simp, by omega, hx⟩
        · obtain ⟨q, hq, hq2⟩ := (h5 x).1 ⟨by omega, hx2⟩
          exact ⟨q, by simp [hq], hq2⟩
      · rintro ⟨q, hq, hq1, hq2⟩
        simp at hq
        rcases hq with rfl | hq
        · exact ⟨by omega, by omega⟩
        · have := (h5 x).2 ⟨q, hq, hq1, hq2⟩
          have := h2 q hq
          omega

/-- Ranges laid out with sizes that are all positive form a chain. -/
theorem layoutRanges_chain : ∀ (sizes : List Nat) (s : Nat), (∀ n ∈ sizes, 1 ≤ n) →
    chainFrom s (layoutRanges s sizes) (s + sizes.sum) = true := by
  intro sizes
  induction sizes with
  | nil => intro s _; simp [layoutRanges, chainFrom]
  | cons n rest ih =>
    intro s h
    have hn : 1 ≤ n := h n (by simp)
    have hr := ih (s + n) (fun m hm => h m (by simp [hm]))
    simp only [layoutRanges, chainFrom, List.sum_cons]
    have e1 : s + n - 1 + 1 = s + n := by omega
    have e2 : s + (n + rest.sum) = s + n + rest.sum := by omega
    rw [e1, e2, hr]
    simp
    omega

theorem layoutRanges_sizes : ∀ (sizes : List Nat) (s : Nat), (∀ n ∈ sizes, 1 ≤ n) →
    (layoutRanges s sizes).map SlotRange.size = sizes := by
  intro sizes
  induction sizes with
  | nil => intro s _; simp [layoutRanges]
  | cons n rest ih =>
    intro s h
    have hn : 1 ≤ n := h n (by simp)
    simp only [layoutRanges, List.map_cons, ih (s + n) (fun m hm => h m (by simp [hm]))]
    simp [SlotRange.size]
    omega

theorem layoutRanges_length : ∀ (sizes : List Nat) (s : Nat),
    (layoutRanges s sizes).length = sizes.length := by
  intro sizes
  induction sizes with
  | nil => intro s; simp [layoutRanges]
  | cons n rest ih => intro s; simp [layoutRanges, ih]

theorem sizes_sum (q : Nat) (extra : Nat → Bool) : ∀ l : List Nat,
    (l.map (fun i => q + if extra i then 1 else 0)).sum = l.length * q + l.countP extra := by
  intro l
  induction l with
  | nil => simp
  | cons a rest ih =>
    simp only [List.map_cons, List.sum_cons, ih, List.length_cons, List.countP_cons]
    cases extra a <;> simp <;> ring

theorem countP_firstExtra (r : Nat) : ∀ M : Nat,
    (List.range M).countP (fun i => decide (i < r)) = min r M := by
  intro M
  induction M with
  | zero => simp
  | succ n ih =>
    rw [List.range_succ, List.countP_append, ih]
    by_cases h : n < r
    · simp [h]; omega
    · simp [h]; omega

theorem rangeSizes_sum (M : Nat) (extra : Nat → Bool)
    (h : (List.range M).countP extra = TotalSlots % M) :
    (rangeSizes M extra).sum = TotalSlots := by
  unfold rangeSizes
  rw [sizes_sum, h, List.length_range]
  exact Nat.div_add_mod TotalSlots M

theorem rangeSizes_pos (M : Nat) (extra : Nat → Bool) (h1 : 1 ≤ M) (h2 : M ≤ TotalSlots) :
    ∀ n ∈ rangeSizes M extra, 1 ≤ n := by
  intro n hn
  simp [rangeSizes] at hn
  obtain ⟨i, _, rfl⟩ := hn
  have : 1 ≤ TotalSlots / M := (Nat.one_le_div_iff (by omega)).2 h2
  omega

theorem apart_symmetric : Symmetric SlotRange.apart := by
  intro a b h
  unfold SlotRange.apart at h ⊢
  omega

/-- A list that passes `tilesKeyspace` is, as a set, pairwise non-overlapping and covers
the keyspace exactly. -/
theorem tilesKeyspace_spec (L : List SlotRange) (h : tilesKeyspace L = true) :
    NonOverlapping L ∧ CoversExactly L TotalSlots := by
  unfold tilesKeyspace at h
  obtain ⟨_, _, hp, _, hc⟩ := chainFrom_spec _ 0 TotalSlots h
  have hperm := List.perm_insertionSort (fun a b : SlotRange => a.start ≤ b.start) L
  constructor
  · unfold NonOverlapping
    rw [← List.Perm.pairwise_iff (fun {x y} hxy => apart_symmetric hxy) hperm]
    exact hp.imp (fun hab => Or.inl hab)
  · intro x
    rw [show (x < TotalSlots) = (0 ≤ x ∧ x < TotalSlots) by simp, hc x]
    constructor
    · rintro ⟨r, hr, h2⟩
      exact ⟨r, hperm.mem_iff.1 hr, h2⟩
    · rintro ⟨r, hr, h2⟩
      exact ⟨r, hperm.mem_iff.2 hr, h2⟩

/-- With exactly `TotalSlots mod M` ranges flagged, the laid-out ranges are a complete
partition, for every master count that leaves no range empty. -/
theorem partition_complete (M : Nat) (extra : Nat → Bool) (h1 : 1 ≤ M) (h2 : M ≤ TotalSlots)
    (hc : (List.range M).countP extra = TotalSlots % M) :
    CompletePartition (ExpectedPartition M extra) M := by
  have hpos := rangeSizes_pos M extra h1 h2
  have hchain := layoutRanges_chain (rangeSizes M extra) 0 hpos
  rw [rangeSizes_sum M extra hc, Nat.zero_add] at hchain
  obtain ⟨_, _, hp, hcont, hcov⟩ := chainFrom_spec _ 0 TotalSlots hchain
  refine ⟨?_, hp, hp.imp (fun hab => Or.inl hab), hcont, ?_⟩
  · simp [ExpectedPartition, layoutRanges_length, rangeSizes]
  · intro x
    rw [show (x < TotalSlots) = (0 ≤ x ∧ x < TotalSlots) by simp]
    exact hcov x

theorem firstExtra_count (M : Nat) (h1 : 1 ≤ M) :
    (List.range M).countP (firstExtra M) = TotalSlots % M := by
  have h := countP_firstExtra (TotalSlots % M) M
  have hlt : TotalSlots % M < M := Nat.mod_lt _ (by omega)
  unfold firstExtra
  rw [h]
  omega

/-! ## C14: the expected partition is complete -/

/-- C14: for every master count `M` from 1 to 50, the ranges of `ExpectedPartition M` as
the spec words it are `M` ranges, pairwise non-overlapping, in increasing order with each
start equal to the previous end plus one, and their union is exactly the slots 0 to 16383.
The same holds for any placement of the `16384 mod M` extra slots. -/
theorem ExpectedPartition_complete (M : Nat) (h1 : 1 ≤ M) (h50 : M ≤ 50) :
    (ExpectedPartition M (firstExtra M)).length = M ∧
    NonOverlapping (ExpectedPartition M (firstExtra M)) ∧
    (ExpectedPartition M (firstExtra M)).Pairwise (fun a b => a.stop < b.start) ∧
    Contiguous (ExpectedPartition M (firstExtra M)) ∧
    (∀ x, x ≤ 16383 ↔
      ∃ r ∈ ExpectedPartition M (firstExtra M), r.start ≤ x ∧ x ≤ r.stop) ∧
    (∀ extra : Nat → Bool, (List.range M).countP extra = TotalSlots % M →
      CompletePartition (ExpectedPartition M extra) M) := by
  have hT : M ≤ TotalSlots := by unfold TotalSlots; omega
  obtain ⟨hl, hp, hn, hc, hcov⟩ :=
    partition_complete M (firstExtra M) h1 hT (firstExtra_count M h1)
  refine ⟨hl, hn, hp, hc, ?_, fun extra he => partition_complete M extra h1 hT he⟩
  intro x
  rw [← hcov x]
  unfold TotalSlots
  omega

/-- Witness for C14: four masters. -/
theorem ExpectedPartition_complete_witness :
    (ExpectedPartition 4 (firstExtra 4)).length = 4 ∧
    Contiguous (ExpectedPartition 4 (firstExtra 4)) ∧
    ExpectedPartition 4 (firstExtra 4) =
      [{ start := 0, stop := 4095 }, { start := 4096, stop := 8191 },
       { start := 8192, stop := 12287 }, { start := 12288, stop := 16383 }] :=
  have h := ExpectedPartition_complete 4 (by decide) (by decide)
  ⟨h.1, h.2.2.2.1, by decide⟩

/-- Ranges laid out from a slot other than 0 have the sizes they were given, empty ranges
included. -/
theorem layoutRanges_sizes_from : ∀ (sizes : List Nat) (s : Nat), 1 ≤ s →
    (layoutRanges s sizes).map SlotRange.size = sizes := by
  intro sizes
  induction sizes with
  | nil => intro s _; simp [layoutRanges]
  | cons n rest ih =>
    intro s h
    simp only [layoutRanges, List.map_cons, ih (s + n) (by omega)]
    simp [SlotRange.size]
    omega

/-- The sizes of `M` ranges of base size `q` when the first `r` of them take one extra
slot. -/
theorem map_firstExtra (q r : Nat) : ∀ M : Nat,
    (List.range M).map (fun i => q + if decide (i < r) = true then 1 else 0) =
      List.replicate (min r M) (q + 1) ++ List.replicate (M - r) q := by
  intro M
  induction M with
  | zero => simp
  | succ n ih =>
    rw [List.range_succ, List.map_append, ih]
    by_cases h : n < r
    · have e1 : min r n = n := by omega
      have e2 : min r (n + 1) = n + 1 := by omega
      have e3 : n - r = 0 := by omega
      have e4 : n + 1 - r = 0 := by omega
      simp [h, e1, e2, e3, e4, List.replicate_succ']
    · have e1 : min r n = r := by omega
      have e2 : min r (n + 1) = r := by omega
      have e4 : n + 1 - r = (n - r) + 1 := by omega
      simp [h, e1, e2, e4, List.replicate_succ']

theorem rangeSizes_first (M : Nat) (h1 : 1 ≤ M) :
    rangeSizes M (firstExtra M) =
      List.replicate (TotalSlots % M) (TotalSlots / M + 1) ++
        List.replicate (M - TotalSlots % M) (TotalSlots / M) := by
  have hlt : TotalSlots % M < M := Nat.mod_lt _ (by omega)
  have h := map_firstExtra (TotalSlots / M) (TotalSlots % M) M
  rw [show min (TotalSlots % M) M = TotalSlots % M by omega] at h
  rw [← h]
  rfl

/-- The ranges of the partition as the spec words it have the sizes `rangeSizes` lists, for
every master count, also one that exceeds the number of slots. -/
theorem expectedSizes_first (M : Nat) (h1 : 1 ≤ M) :
    (ExpectedPartition M (firstExtra M)).map SlotRange.size = rangeSizes M (firstExtra M) := by
  obtain ⟨n, rfl⟩ : ∃ n, M = n + 1 := ⟨M - 1, by omega⟩
  have hhead : 1 ≤ TotalSlots / (n + 1) + if firstExtra (n + 1) 0 = true then 1 else 0 := by
    by_cases hM : n + 1 ≤ TotalSlots
    · have : 1 ≤ TotalSlots / (n + 1) := (Nat.one_le_div_iff (by omega)).2 hM
      omega
    · have hmod : TotalSlots % (n + 1) = TotalSlots := Nat.mod_eq_of_lt (by omega)
      have : firstExtra (n + 1) 0 = true := by
        simp only [firstExtra, hmod]
        decide
      simp [this]
  unfold ExpectedPartition rangeSizes
  rw [List.range_succ_eq_map, List.map_cons]
  simp only [layoutRanges, List.map_cons, Nat.zero_add]
  rw [layoutRanges_sizes_from _ _ hhead]
  simp only [SlotRange.size, List.cons.injEq, and_true]
  omega

/-! ## C15: the expected partition for three masters -/

/-- C15, counterexample: for three masters `16384 mod 3 = 1`, so `ExpectedPartition` as
section 4.4 words it makes the first range the long one: it is the list 0-5461,
5462-10922, 10923-16383. The ranges 0-5460 and 5461-10922 of the claim are not among its
ranges, and its sizes are not 5461, 5462, 5461. -/
theorem ExpectedPartition_three_counterexample :
    ExpectedPartition 3 (firstExtra 3) =
      [{ start := 0, stop := 5461 }, { start := 5462, stop := 10922 },
       { start := 10923, stop := 16383 }] ∧
    ({ start := 0, stop := 5460 } : SlotRange) ∉ ExpectedPartition 3 (firstExtra 3) ∧
    ({ start := 5461, stop := 10922 } : SlotRange) ∉ ExpectedPartition 3 (firstExtra 3) ∧
    (ExpectedPartition 3 (firstExtra 3)).map SlotRange.size ≠ [5461, 5462, 5461] := by
  decide

/-- C15, amended: for three masters `ExpectedPartition` as section 4.4 words it is exactly
the set of ranges 0-5461, 5462-10922, 10923-16383, with sizes 5462, 5461, 5461 (base size
`16384 / 3 = 5461`, the first `16384 mod 3 = 1` range one slot longer), a complete
partition of the keyspace. The list the cluster tests expect for three masters (initially,
after a replica was added and after it was removed) is the set 0-5460, 5461-10922,
10923-16383, with sizes 5461, 5462, 5461: a complete partition too, with the same sizes in
another order, sharing only the third range with `ExpectedPartition`. -/
theorem ExpectedPartition_three :
    TotalSlots / 3 = 5461 ∧ TotalSlots % 3 = 1 ∧
    (∀ r, r ∈ ExpectedPartition 3 (firstExtra 3) ↔
      (r = { start := 0, stop := 5461 } ∨ r = { start := 5462, stop := 10922 } ∨
        r = { start := 10923, stop := 16383 })) ∧
    (ExpectedPartition 3 (firstExtra 3)).map SlotRange.size = [5462, 5461, 5461] ∧
    CompletePartition (ExpectedPartition 3 (firstExtra 3)) 3 ∧
    (∀ r, r ∈ wantedClusterSlots ↔
      (r = { start := 0, stop := 5460 } ∨ r = { start := 5461, stop := 10922 } ∨
        r = { start := 10923, stop := 16383 })) ∧
    wantedClusterSlots.map SlotRange.size = [5461, 5462, 5461] ∧
    expectedAfterAddReplica = wantedClusterSlots ∧
    expectedAfterRemoveReplica = wantedClusterSlots ∧
    CompletePartition wantedClusterSlots 3 ∧
    (wantedClusterSlots.map SlotRange.size).Perm
      ((ExpectedPartition 3 (firstExtra 3)).map SlotRange.size) ∧
    (∀ r, r ∈ wantedClusterSlots ∧ r ∈ ExpectedPartition 3 (firstExtra 3) ↔
      r = { start := 10923, stop := 16383 }) := by
  have he : ExpectedPartition 3 (firstExtra 3) =
      [{ start := 0, stop := 5461 }, { start := 5462, stop := 10922 },
       { start := 10923, stop := 16383 }] := by decide
  have hw : CompletePartition wantedClusterSlots 3 := by
    obtain ⟨_, _, hp, hcont, hcov⟩ :=
      chainFrom_spec wantedClusterSlots 0 TotalSlots (by decide)
    refine ⟨rfl, hp, hp.imp (fun hab => Or.inl hab), hcont, ?_⟩
    intro x
    rw [show (x < TotalSlots) = (0 ≤ x ∧ x < TotalSlots) by simp]
    exact hcov x
  refine ⟨by decide, by decide, ?_, by decide,
    partition_complete 3 (firstExtra 3) (by decide) (by decide) (by decide), ?_,
    by decide, rfl, rfl, hw, ?_, ?_⟩
  · intro r
    rw [he]
    simp
  · intro r
    simp [wantedClusterSlots]
  · rw [he]
    exact List.Perm.swap _ _ _
  · intro r
    rw [he]
    simp only [wantedClusterSlots, List.mem_cons, List.mem_singleton, List.not_mem_nil,
      or_false]
    constructor
    · rintro ⟨h1 | h1 | h1, h2 | h2 | h2⟩ <;> first | exact h1 | (subst h1; cases h2)
    · intro h
      exact ⟨Or.inr (Or.inr h), Or.inr (Or.inr h)⟩

/-! ## C16: sizes of the expected ranges -/

/-- C16: for every master count `M >= 1`, `ExpectedPartition M` as section 4.4 words it has
`M` ranges; range number `i` (from 0) has `floor(16384 / M) + 1` slots when
`i < 16384 mod M` and the base size `floor(16384 / M)` otherwise, that is, the sizes are
`16384 mod M` times the longer size followed by `M - 16384 mod M` times the base size;
exactly `16384 mod M` ranges are one slot longer than the base size; any two range sizes
differ by at most 1; and the sizes add up to 16384. -/
theorem ExpectedPartition_fair (M : Nat) (h1 : 1 ≤ M) :
    (ExpectedPartition M (firstExtra M)).length = M ∧
    (ExpectedPartition M (firstExtra M)).map SlotRange.size =
      (List.range M).map (fun i => if i < 16384 % M then 16384 / M + 1 else 16384 / M) ∧
    (ExpectedPartition M (firstExtra M)).map SlotRange.size =
      List.replicate (16384 % M) (16384 / M + 1) ++ List.replicate (M - 16384 % M) (16384 / M) ∧
    ((ExpectedPartition M (firstExtra M)).filter
      (fun r => decide (r.size = 16384 / M + 1))).length = 16384 % M ∧
    (∀ a ∈ ExpectedPartition M (firstExtra M), ∀ b ∈ ExpectedPartition M (firstExtra M),
      a.size ≤ b.size + 1) ∧
    ((ExpectedPartition M (firstExtra M)).map SlotRange.size).sum = 16384 := by
  have hs := expectedSizes_first M h1
  have hr := rangeSizes_first M h1
  have hlt : TotalSlots % M < M := Nat.mod_lt _ (by omega)
  have hmem : ∀ a ∈ ExpectedPartition M (firstExtra M),
      a.size = TotalSlots / M ∨ a.size = TotalSlots / M + 1 := by
    intro a ha
    have : a.size ∈ (ExpectedPartition M (firstExtra M)).map SlotRange.size :=
      List.mem_map_of_mem _ ha
    rw [hs, hr] at this
    simp only [List.mem_append, List.mem_replicate] at this
    rcases this with ⟨_, h⟩ | ⟨_, h⟩
    · exact Or.inr h
    · exact Or.inl h
  refine ⟨?_, ?_, ?_, ?_, ?_, ?_⟩
  · simp [ExpectedPartition, layoutRanges_length, rangeSizes]
  · rw [hs]
    unfold rangeSizes firstExtra
    apply List.map_congr_left
    intro i _
    have e : TotalSlots = 16384 := rfl
    rw [e]
    by_cases h : i < 16384 % M <;> simp [h]
  · rw [hs, hr]; rfl
  · have : ((ExpectedPartition M (firstExtra M)).map SlotRange.size).countP
        (fun n => decide (n = TotalSlots / M + 1)) = TotalSlots % M := by
      rw [hs, hr, List.countP_append]
      simp [List.countP_replicate]
    rw [List.countP_map, List.countP_eq_length_filter] at this
    exact this
  · intro a ha b hb
    rcases hmem a ha with h | h <;> rcases hmem b hb with h2 | h2 <;> omega
  · rw [hs]
    exact rangeSizes_sum M _ (firstExtra_count M h1)

/-- Witness for C16: five masters, `16384 = 5 * 3276 + 4`. -/
theorem ExpectedPartition_fair_witness :
    (ExpectedPartition 5 (firstExtra 5)).map SlotRange.size =
      [3277, 3277, 3277, 3277, 3276] ∧
    (∀ a ∈ ExpectedPartition 5 (firstExtra 5), ∀ b ∈ ExpectedPartition 5 (firstExtra 5),
      a.size ≤ b.size + 1) :=
  ⟨by decide, (ExpectedPartition_fair 5 (by decide)).2.2.2.2.1⟩

/-! ## C17: the expected slot lists of the cluster tests -/

/-- C17, counterexample: the list the test expects after a fourth master was added holds
six ranges, not four. -/
theorem expectedAfterAddMaster_counterexample :
    expectedAfterAddMaster.length = 6 ∧ expectedAfterAddMaster.length ≠ 4 := by
  decide

/-- C17, amended: each of the five expected slot lists of the cluster tests (initial three
masters, after adding a replica, after removing a replica, after adding a master, after
removing a master) is a set of pairwise non-overlapping ranges whose union is exactly the
slots 0 to 16383; after the fourth master was added the slots are spread over six ranges
(three of 4096 slots, and three of 1365, 1366 and 1365 slots that make up another 4096),
and after it was removed again over five. -/
theorem expected_slot_lists_tile :
    (NonOverlapping wantedClusterSlots ∧ CoversExactly wantedClusterSlots 16384) ∧
    (NonOverlapping expectedAfterAddReplica ∧ CoversExactly expectedAfterAddReplica 16384) ∧
    (NonOverlapping expectedAfterRemoveReplica ∧
      CoversExactly expectedAfterRemoveReplica 16384) ∧
    (NonOverlapping expectedAfterAddMaster ∧ CoversExactly expectedAfterAddMaster 16384) ∧
    (NonOverlapping expectedAfterRemoveMaster ∧
      CoversExactly expectedAfterRemoveMaster 16384) ∧
    expectedAfterAddMaster.length = 6 ∧
    expectedAfterAddMaster.map SlotRange.size = [4096, 4096, 4096, 1365, 1366, 1365] ∧
    expectedAfterRemoveMaster.length = 5 :=
  ⟨tilesKeyspace_spec _ (by decide), tilesKeyspace_spec _ (by decide),
   tilesKeyspace_spec _ (by decide), tilesKeyspace_spec _ (by decide),
   tilesKeyspace_spec _ (by decide), by decide, by decide, by decide⟩


/-! ## C18: the monitoring port is defaulted once -/

/-- C18: `setMonitoringPort` issues a patch if and only if monitoring with a Prometheus
section is requested and its port is 0, and the patch is then the one that sets the port
to `PrometheusExporterPortNumber` and nothing else. In every other case it has no effect
at all, leaves the resource as it is and returns nil. When the patch succeeds the
in-memory spec becomes the spec the patch call returned; when that spec has its port set
(as the patched spec has), a second call has no effect, changes nothing and returns
nil. -/
theorem setMonitoringPort_defaults (w : World) (redis : Redis) :
    ((∃ cur mod, Effect.patchRedis cur mod ∈ (setMonitoringPort w redis).log) ↔
      portUnset redis = true) ∧
    (portUnset redis = true →
      Effect.patchRedis redis (defaultPort redis) ∈ (setMonitoringPort w redis).log ∧
      exporterPort (defaultPort redis).spec = PrometheusExporterPortNumber ∧
      (defaultPort redis).meta = redis.meta ∧ (defaultPort redis).status = redis.status ∧
      (defaultPort redis).spec.version = redis.spec.version ∧
      (defaultPort redis).spec.cluster = redis.spec.cluster ∧
      (defaultPort redis).spec.terminationPolicy = redis.spec.terminationPolicy) ∧
    (portUnset redis = false →
      setMonitoringPort w redis = { err := none, redis := redis, log := [] }) ∧
    (∀ mc, portUnset redis = true →
      w.patchRedis redis (defaultPort redis) = Except.ok mc →
      (setMonitoringPort w redis).err = none ∧
      (setMonitoringPort w redis).redis.spec = mc.spec ∧
      (setMonitoringPort w redis).log = [Effect.patchRedis redis (defaultPort redis)] ∧
      (portUnset { redis with spec := mc.spec } = false →
        setMonitoringPort w (setMonitoringPort w redis).redis =
          { err := none, redis := (setMonitoringPort w redis).redis, log := [] }) ∧
      (mc.spec = (defaultPort redis).spec →
        setMonitoringPort w (setMonitoringPort w redis).redis =
          { err := none, redis := (setMonitoringPort w redis).redis, log := [] })) := by
  have hno : ∀ r : Redis, portUnset r = false →
      setMonitoringPort w r = { err := none, redis := r, log := [] } := by
    intro r hr
    unfold portUnset at hr
    unfold setMonitoringPort
    cases hm : r.spec.monitor with
    | none => rfl
    | some m =>
      simp only [hm] at hr ⊢
      cases hp : m.prometheus with
      | none => rfl
      | some p =>
        simp only [hp] at hr ⊢
        have : ¬ p.port = 0 := by simpa using hr
        simp [this]
  cases hm : redis.spec.monitor with
  | none =>
    have hu : portUnset redis = false := by simp [portUnset, hm]
    simp [hu, hno redis hu]
  | some m =>
    cases hp : m.prometheus with
    | none =>
      have hu : portUnset redis = false := by simp [portUnset, hm, hp]
      simp [hu, hno redis hu]
    | some p =>
      by_cases h0 : p.port = 0
      · have hu : portUnset redis = true := by simp [portUnset, hm, hp, h0]
        have hdp : portUnset { redis with spec := (defaultPort redis).spec } = false := by
          simp [portUnset, defaultPort, hm, hp, PrometheusExporterPortNumber]
        have hlog : Effect.patchRedis redis (defaultPort redis) ∈
            (setMonitoringPort w redis).log := by
          unfold setMonitoringPort
          simp only [hm, hp, h0, if_true]
          cases w.patchRedis redis (defaultPort redis) <;> simp
        have hfalse : portUnset redis = false →
            setMonitoringPort w redis = { err := none, redis := redis, log := [] } := by
          intro hf
          rw [hu] at hf
          cases hf
        refine ⟨⟨fun _ => hu, fun _ => ⟨_, _, hlog⟩⟩,
          fun _ => ⟨hlog, ?_, rfl, rfl, rfl, rfl, rfl⟩, hfalse, ?_⟩
        · simp [exporterPort, defaultPort, hm, hp]
        · intro mc _ hpatch
          have hres : setMonitoringPort w redis =
              { err := none, redis := { redis with spec := mc.spec },
                log := [Effect.patchRedis redis (defaultPort redis)] } := by
            unfold setMonitoringPort
            simp only [hm, hp, h0, if_true, hpatch]
          rw [hres]
          refine ⟨rfl, rfl, rfl, fun hf => hno _ hf, fun hmc => hno _ ?_⟩
          rw [hmc]
          exact hdp
      · have hu : portUnset redis = false := by simp [portUnset, hm, hp, h0]
        simp [hu, hno redis hu]

/-- Witness for C18: the sample resource has monitoring with the port unset and is patched
once; a resource without monitoring is left alone. -/
theorem setMonitoringPort_defaults_witness :
    Effect.patchRedis sampleRedis (defaultPort sampleRedis) ∈
      (setMonitoringPort calmWorld sampleRedis).log ∧
    exporterPort (setMonitoringPort calmWorld sampleRedis).redis.spec = 56790 ∧
    setMonitoringPort calmWorld (setMonitoringPort calmWorld sampleRedis).redis =
      { err := none, redis := (setMonitoringPort calmWorld sampleRedis).redis, log := [] } ∧
    setMonitoringPort calmWorld plainRedis = { err := none, redis := plainRedis, log := [] } :=
  have h := setMonitoringPort_defaults calmWorld sampleRedis
  have h2 := h.2.2.2 (defaultPort sampleRedis) rfl rfl
  ⟨(h.2.1 rfl).1, by decide, h2.2.2.2.2 rfl,
   (setMonitoringPort_defaults calmWorld plainRedis).2.2.1 rfl⟩

/-! ## Runs of `create` that reach the provisioning steps -/

/-- A run of `create` that gets to the governing-service call has made no event before
it: its log is an early part without events followed by the log of `createProvision` on
the resource it ends with, whose error it returns. -/
theorem create_reached (w : World) (redis : Redis)
    (h : Effect.createGoverningService w.governingService redis.meta.Namespace ∈
      (create w redis).log) :
    (create w redis).redis.meta = redis.meta ∧
    (create w redis).err = (createProvision w (create w redis).redis).err ∧
    ∃ pre, (∀ e ∈ pre, e.early ∧ ∀ ev, e ≠ Effect.event ev) ∧
      (create w redis).log = pre ++ (createProvision w (create w redis).redis).log := by
  have hng : ¬ (Effect.createGoverningService w.governingService
      redis.meta.Namespace).early := by simp [Effect.early]
  have hd : ∀ r : Redis, r.meta = redis.meta →
      Effect.createGoverningService w.governingService redis.meta.Namespace ∈
        (createDefaulted w r).log →
      (createDefaulted w r).err = (createProvision w (createDefaulted w r).redis).err ∧
      ∃ pre, (∀ e ∈ pre, e.early ∧ ∀ ev, e ≠ Effect.event ev) ∧
        (createDefaulted w r).log =
          pre ++ (createProvision w (createDefaulted w r).redis).log := by
    intro r _ hin
    rcases createDefaulted_cases w r with ⟨_, hc⟩ | ⟨_, _, hc⟩ | ⟨h1, h2, hc⟩
    · rw [hc] at hin
      exact absurd (setMonitoringPort_early w r _ hin) hng
    · rw [hc] at hin
      simp only [List.mem_append] at hin
      rcases hin with hin | hin
      · exact absurd (setMonitoringPort_early w r _ hin) hng
      · exact absurd (matchDormantDatabase_early w _ _ hin) hng
    · rw [hc]
      refine ⟨rfl, (setMonitoringPort w r).log ++
        (matchDormantDatabase w (setMonitoringPort w r).redis).log, ?_, rfl⟩
      intro e he
      simp only [List.mem_append] at he
      rcases he with he | he
      · exact ⟨setMonitoringPort_early w r e he, setMonitoringPort_ok_log w r h1 e he⟩
      · exact ⟨matchDormantDatabase_early w _ e he,
          matchDormantDatabase_ok_log w _ h2 e he⟩
  refine ⟨(create_log_shape w redis).1, ?_⟩
  rcases create_cases w redis with ⟨verr, _, hc⟩ | ⟨perr, _, _, _, hc⟩ | ⟨mc, _, _, _, hc⟩ |
    ⟨_, _, hc⟩
  · rw [hc] at h
    simp [recordEvent] at h
  · rw [hc] at h
    simp [recordEventf, recordEvent] at h
  · rw [hc] at h
    simp at h
    obtain ⟨herr, pre, hpre, hlog⟩ := hd { redis with status := mc.status } rfl h
    rw [hc]
    refine ⟨herr, [Effect.validateRedis redis,
      Effect.patchRedis redis (stampStatus w.now redis)] ++ pre, ?_, ?_⟩
    · intro e he
      simp at he
      rcases he with he | he | he
      · subst he; simp [Effect.early]
      · subst he; simp [Effect.early]
      · exact hpre e he
    · simp only [hlog, List.append_assoc]
  · rw [hc] at h
    simp at h
    obtain ⟨herr, pre, hpre, hlog⟩ := hd redis rfl h
    rw [hc]
    refine ⟨herr, Effect.validateRedis redis :: pre, ?_, ?_⟩
    · intro e he
      simp at he
      rcases he with he | he
      · subst he; simp [Effect.early]
      · exact hpre e he
    · simp only [hlog, List.cons_append]

theorem sprintf_governing (g e : String) :
    Sprintf "Failed to create Service: \"%v\". Reason: %v" [FmtArg.str g, FmtArg.str e] =
      "Failed to create Service: \"" ++ g ++ "\". Reason: " ++ e := by
  apply String.ext
  simp [Sprintf, sprintfAux, FmtState.next, isFlag, isDigit, renderVerb, renderExtra,
    FmtArg.value, String.toList]

theorem sprintf_monitor (e : String) :
    Sprintf "Failed to manage monitoring system. Reason: %v" [FmtArg.str e] =
      "Failed to manage monitoring system. Reason: " ++ e := by
  apply String.ext
  simp [Sprintf, sprintfAux, FmtState.next, isFlag, isDigit, renderVerb, renderExtra,
    FmtArg.value, String.toList]

/-! ## C19: a failing governing service stops the reconcile -/

theorem createProvision_governing_fails (w : World) (r : Redis) (gerr : GoError)
    (h : w.createGoverningService w.governingService r.meta.Namespace = some gerr) :
    createProvision w r =
      { err := some gerr, redis := r,
        log := [Effect.createGoverningService w.governingService r.meta.Namespace,
                Effect.event (governingFailedEvent r w.governingService gerr)] } := by
  unfold createProvision
  simp [h, recordEventf, recordEvent, sprintf_governing, governingFailedEvent]

/-- C19: when ensuring the governing service fails with `gerr`, no run of `create` calls
the service provisioner, the workload provisioner or the monitoring manager; and a run
that gets to the governing-service call returns `gerr`, its log ending with that call and
one warning event (reason FailedToCreate) naming the service and the error, the only event
of the run. -/
theorem create_governing_service_fails (w : World) (redis : Redis) (gerr : GoError)
    (hfail : w.createGoverningService w.governingService redis.meta.Namespace = some gerr) :
    (∀ e ∈ (create w redis).log,
      (∀ x, e ≠ Effect.ensureService x) ∧ (∀ x, e ≠ Effect.ensureStatefulSet x) ∧
        (∀ x, e ≠ Effect.manageMonitor x)) ∧
    (Effect.createGoverningService w.governingService redis.meta.Namespace ∈
        (create w redis).log →
      (create w redis).err = some gerr ∧
      (∃ pre, (∀ e ∈ pre, ∀ ev, e ≠ Effect.event ev) ∧
        (create w redis).log = pre ++
          [Effect.createGoverningService w.governingService redis.meta.Namespace,
           Effect.event (governingFailedEvent redis w.governingService gerr)]) ∧
      (governingFailedEvent redis w.governingService gerr).etype = EventType.warning) := by
  obtain ⟨hm, hs⟩ := create_log_shape w redis
  have hfail2 : w.createGoverningService w.governingService
      (create w redis).redis.meta.Namespace = some gerr := by rw [hm]; exact hfail
  have hprov := createProvision_governing_fails w _ gerr hfail2
  have hev : governingFailedEvent (create w redis).redis w.governingService gerr =
      governingFailedEvent redis w.governingService gerr := by
    simp [governingFailedEvent, hm]
  have hearly : ∀ e : Effect, e.early →
      (∀ x, e ≠ Effect.ensureService x) ∧ (∀ x, e ≠ Effect.ensureStatefulSet x) ∧
        (∀ x, e ≠ Effect.manageMonitor x) := by
    intro e he
    refine ⟨?_, ?_, ?_⟩ <;> intro x hx <;> subst hx <;> exact he
  constructor
  · intro e he
    rcases hs with hs | ⟨pre, hpre, hlog, _⟩
    · exact hearly e (hs e he)
    · rw [hlog, hprov] at he
      simp only [List.mem_append] at he
      rcases he with he | he
      · exact hearly e (hpre e he)
      · simp at he
        rcases he with he | he <;> subst he <;> simp
  · intro hreach
    obtain ⟨_, herr, pre, hpre, hlog⟩ := create_reached w redis hreach
    rw [hprov] at herr hlog
    refine ⟨herr, ⟨pre, fun e he => (hpre e he).2, ?_⟩, rfl⟩
    rw [hlog, hev, hm]

/-- Witness for C19: the sample resource where the governing service is refused. -/
theorem create_governing_service_fails_witness :
    (create noGoverningWorld sampleRedis).err =
      some { reason := StatusReason.unknown, msg := "forbidden" } ∧
    Effect.event (governingFailedEvent sampleRedis "kubedb"
        { reason := StatusReason.unknown, msg := "forbidden" }) ∈
      (create noGoverningWorld sampleRedis).log ∧
    ∀ e ∈ (create noGoverningWorld sampleRedis).log, ∀ x, e ≠ Effect.ensureService x :=
  have h := create_governing_service_fails noGoverningWorld sampleRedis
    { reason := StatusReason.unknown, msg := "forbidden" } rfl
  ⟨(h.2 (by decide)).1, by decide, fun e he => (h.1 e he).1⟩

/-! ## C20: monitoring is best effort -/

/-- If the monitoring manager was called on `x` during `createProvision w r`, then
`x = r` and the governing service and both provisioners succeeded. -/
theorem createProvision_monitor_reached (w : World) (r x : Redis)
    (h : Effect.manageMonitor x ∈ (createProvision w r).log) :
    x = r ∧ w.createGoverningService w.governingService r.meta.Namespace = none ∧
      ∃ v1 v2, w.ensureService r = (v1, none) ∧ w.ensureStatefulSet r = (v2, none) := by
  unfold createProvision at h
  simp only [] at h
  cases hg : w.createGoverningService w.governingService r.meta.Namespace with
  | some gerr => simp [hg, recordEventf, recordEvent] at h
  | none =>
    simp only [hg] at h
    rcases hs : w.ensureService r with ⟨v1, _ | er1⟩
    · simp only [hs] at h
      rcases hw : w.ensureStatefulSet r with ⟨v2, _ | er2⟩
      · simp only [hw] at h
        refine ⟨?_, rfl, v1, v2, rfl, rfl⟩
        cases hmm : w.manageMonitor r <;> simp only [hmm] at h <;>
          split_ifs at h <;> simp [recordEvent, recordEventf] at h <;> exact h
      · simp [hw] at h
    · simp [hs] at h

/-- The outcome of `createProvision` when the governing service and both provisioners
succeeded: nil, and the log `provisionBody`, followed by the warning event of lines
104-110 exactly when the monitoring manager failed. -/
theorem createProvision_success (w : World) (r : Redis) (v1 v2 : VerbType)
    (hg : w.createGoverningService w.governingService r.meta.Namespace = none)
    (e1 : w.ensureService r = (v1, none)) (e2 : w.ensureStatefulSet r = (v2, none)) :
    createProvision w r =
      { err := none, redis := r,
        log := provisionBody w r v1 v2 ++
          (match w.manageMonitor r with
            | some merr => [Effect.event (monitorFailedEvent r merr)]
            | none => []) } := by
  unfold createProvision
  simp only [hg, e1, e2]
  cases hmm : w.manageMonitor r <;> simp only [] <;> unfold provisionBody <;>
    split_ifs <;>
    simp [recordEvent, recordEventf, sprintf_monitor, monitorFailedEvent, createdEvent,
      patchedEvent]


theorem provisionBody_events (w : World) (r : Redis) (v1 v2 : VerbType) (ev : Event)
    (h : Effect.event ev ∈ provisionBody w r v1 v2) : ev.etype = EventType.normal := by
  unfold provisionBody at h
  split_ifs at h <;> simp [createdEvent, patchedEvent] at h <;> subst h <;> rfl

/-- C20: for every resource that passes validation, whose stamping step succeeds (giving
`stamped`), whose port defaulting succeeds (giving `live`), whose dormant match succeeds,
and for which the governing service and both provisioners succeed, `create` returns nil
and calls the monitoring manager on `live`, whatever the manager answers. When the manager
fails with `merr`, the last effect of the run is the warning event "Failed to manage
monitoring system. Reason: <merr>", the only warning event of the run; when it succeeds,
the manager call is the last effect and the run records no warning event. -/
theorem create_monitor_best_effort (w : World) (redis stamped live : Redis) (v1 v2 : VerbType)
    (hv : w.validateRedis redis = none)
    (hst : afterStamp w redis = some stamped)
    (hport : (setMonitoringPort w stamped).err = none)
    (hlive : (setMonitoringPort w stamped).redis = live)
    (hmatch : (matchDormantDatabase w live).err = none)
    (hg : w.createGoverningService w.governingService redis.meta.Namespace = none)
    (hs : w.ensureService live = (v1, none))
    (hw : w.ensureStatefulSet live = (v2, none)) :
    (create w redis).err = none ∧ (create w redis).redis = live ∧
    Effect.manageMonitor live ∈ (create w redis).log ∧
    (∀ merr, w.manageMonitor live = some merr →
      (create w redis).log.getLast? = some (Effect.event (monitorFailedEvent redis merr)) ∧
      (∀ ev, Effect.event ev ∈ (create w redis).log → ev.etype = EventType.warning →
        ev = monitorFailedEvent redis merr)) ∧
    (w.manageMonitor live = none →
      (create w redis).log.getLast? = some (Effect.manageMonitor live) ∧
      ∀ ev, Effect.event ev ∈ (create w redis).log → ev.etype = EventType.normal) := by
  subst hlive
  obtain ⟨hmeta, _, _⟩ := create_of_stamped w redis stamped hv hst
  have hlm : (setMonitoringPort w stamped).redis.meta = redis.meta := by
    rw [setMonitoringPort_meta, hmeta]
  have hg2 : w.createGoverningService w.governingService
      (setMonitoringPort w stamped).redis.meta.Namespace = none := by rw [hlm]; exact hg
  have hprov := createProvision_success w _ v1 v2 hg2 hs hw
  have hc := (create_at_match w redis stamped hv hst hport).2 hmatch
  rw [hprov] at hc
  have hev : ∀ merr, monitorFailedEvent (setMonitoringPort w stamped).redis merr =
      monitorFailedEvent redis merr := by
    intro merr
    simp [monitorFailedEvent, hlm]
  have hpre : ∀ e ∈ stampLog w redis ++ ((setMonitoringPort w stamped).log ++
      (matchDormantDatabase w (setMonitoringPort w stamped).redis).log),
      ∀ ev, e ≠ Effect.event ev := by
    intro e he
    simp only [List.mem_append] at he
    rcases he with he | he | he
    · unfold stampLog at he
      split_ifs at he
      · simp at he
        rcases he with he | he <;> subst he <;> simp
      · simp at he
        subst he
        simp
    · exact setMonitoringPort_ok_log w stamped hport e he
    · exact matchDormantDatabase_ok_log w _ hmatch e he
  have hbody : Effect.manageMonitor (setMonitoringPort w stamped).redis ∈
      provisionBody w (setMonitoringPort w stamped).redis v1 v2 := by
    simp [provisionBody]
  have hlast : (provisionBody w (setMonitoringPort w stamped).redis v1 v2).getLast? =
      some (Effect.manageMonitor (setMonitoringPort w stamped).redis) := by
    unfold provisionBody
    rw [List.getLast?_append]
    simp
  have hlog : (create w redis).log =
      (stampLog w redis ++ ((setMonitoringPort w stamped).log ++
        (matchDormantDatabase w (setMonitoringPort w stamped).redis).log)) ++
      (provisionBody w (setMonitoringPort w stamped).redis v1 v2 ++
        (match w.manageMonitor (setMonitoringPort w stamped).redis with
          | some merr => [Effect.event (monitorFailedEvent redis merr)]
          | none => [])) := by
    rw [hc]
    cases hmm : w.manageMonitor (setMonitoringPort w stamped).redis <;>
      simp only [hev, List.append_assoc]
  have herr : (create w redis).err = none := by rw [hc]
  have hred : (create w redis).redis = (setMonitoringPort w stamped).redis := by rw [hc]
  refine ⟨herr, hred, ?_, ?_, ?_⟩
  · rw [hlog]
    exact List.mem_append_right _ (List.mem_append_left _ hbody)
  · intro merr hmerr
    rw [hlog]
    simp only [hmerr]
    constructor
    · simp [← List.append_assoc]
    · intro ev hin hwarn
      rcases List.mem_append.1 hin with hin | hin
      · exact absurd rfl (hpre _ hin ev)
      · rcases List.mem_append.1 hin with hin | hin
        · have := provisionBody_events w _ v1 v2 ev hin
          rw [this] at hwarn
          cases hwarn
        · exact Effect.event.inj (List.mem_singleton.1 hin)
  · intro hnone
    rw [hlog]
    simp only [hnone, List.append_nil]
    constructor
    · rw [List.getLast?_append, hlast]
      rfl
    · intro ev hin
      rcases List.mem_append.1 hin with hin | hin
      · exact absurd rfl (hpre _ hin ev)
      · exact provisionBody_events w _ v1 v2 ev hin

/-- Witness for C20: the sample resource where the monitoring manager fails, and where it
succeeds. -/
theorem create_monitor_best_effort_witness :
    (create noMonitorWorld sampleRedis).err = none ∧
    (create noMonitorWorld sampleRedis).log.getLast? =
      some (Effect.event (monitorFailedEvent sampleRedis
        { reason := StatusReason.unknown, msg := "no operator" })) ∧
    (create calmWorld sampleRedis).err = none ∧
    Effect.manageMonitor (defaultPort (stampStatus 7 sampleRedis)) ∈
      (create calmWorld sampleRedis).log :=
  have h := create_monitor_best_effort noMonitorWorld sampleRedis (stampStatus 7 sampleRedis)
    (defaultPort (stampStatus 7 sampleRedis)) VerbType.VerbCreated VerbType.VerbCreated
    rfl rfl rfl rfl rfl rfl rfl rfl
  have h2 := create_monitor_best_effort calmWorld sampleRedis (stampStatus 7 sampleRedis)
    (defaultPort (stampStatus 7 sampleRedis)) VerbType.VerbCreated VerbType.VerbCreated
    rfl rfl rfl rfl rfl rfl rfl rfl
  ⟨h.1, (h.2.2.2.1 _ rfl).1, h2.1, h2.2.2.1⟩

/-! ## C21: pausing a resource -/

theorem sprintf_dormantCreated (name : String) :
    Sprintf "Successfully created DormantDatabase: \"%v\"" [FmtArg.str name] =
      "Successfully created DormantDatabase: \"" ++ name ++ "\"" := by
  apply String.ext
  simp [Sprintf, sprintfAux, FmtState.next, isFlag, isDigit, renderVerb, renderExtra,
    FmtArg.value, String.toList]

theorem sprintf_dormantFailed (name e : String) :
    Sprintf "Failed to create DormantDatabase: \"%v\". Reason: %v"
        [FmtArg.str name, FmtArg.str e] =
      "Failed to create DormantDatabase: \"" ++ name ++ "\". Reason: " ++ e := by
  apply String.ext
  simp [Sprintf, sprintfAux, FmtState.next, isFlag, isDigit, renderVerb, renderExtra,
    FmtArg.value, String.toList]

theorem sprintf_teardown (e : String) :
    Sprintf "Failed to delete monitoring system. Reason: %v" [FmtArg.str e] =
      "Failed to delete monitoring system. Reason: " ++ e := by
  apply String.ext
  simp [Sprintf, sprintfAux, FmtState.next, isFlag, isDigit, renderVerb, renderExtra,
    FmtArg.value, String.toList]

/-- The four ways `pause` can end, with the whole outcome of each. -/
theorem pause_cases (w : World) (redis : Redis) :
    (∃ derr, w.createDormantDatabase redis = Except.error derr ∧
      pause w redis =
        { err := some derr, redis := redis,
          log := [Effect.createDormantDatabase redis,
                  Effect.event (dormantFailedEvent redis derr)] }) ∨
    (∃ d, w.createDormantDatabase redis = Except.ok d ∧ redis.spec.monitor = none ∧
      pause w redis =
        { err := none, redis := redis,
          log := [Effect.createDormantDatabase redis,
                  Effect.event (dormantCreatedEvent redis)] }) ∨
    (∃ d, w.createDormantDatabase redis = Except.ok d ∧ redis.spec.monitor ≠ none ∧
      w.deleteMonitor redis = none ∧
      pause w redis =
        { err := none, redis := redis,
          log := [Effect.createDormantDatabase redis,
                  Effect.event (dormantCreatedEvent redis),
                  Effect.deleteMonitor redis] }) ∨
    (∃ d merr, w.createDormantDatabase redis = Except.ok d ∧ redis.spec.monitor ≠ none ∧
      w.deleteMonitor redis = some merr ∧
      pause w redis =
        { err := none, redis := redis,
          log := [Effect.createDormantDatabase redis,
                  Effect.event (dormantCreatedEvent redis),
                  Effect.deleteMonitor redis,
                  Effect.event (teardownFailedEvent redis merr)] }) := by
  unfold pause
  cases hd : w.createDormantDatabase redis with
  | error derr =>
    left
    exact ⟨derr, rfl, by
      simp [recordEventf, recordEvent, sprintf_dormantFailed, dormantFailedEvent]⟩
  | ok d =>
    right
    cases hm : redis.spec.monitor with
    | none =>
      left
      exact ⟨d, rfl, rfl, by
        simp [recordEventf, recordEvent, sprintf_dormantCreated, dormantCreatedEvent]⟩
    | some m =>
      right
      cases ht : w.deleteMonitor redis with
      | none =>
        left
        exact ⟨d, rfl, by simp, rfl, by
          simp [recordEventf, recordEvent, sprintf_dormantCreated, dormantCreatedEvent]⟩
      | some merr =>
        right
        exact ⟨d, merr, rfl, by simp, rfl, by
          simp [recordEventf, recordEvent, sprintf_dormantCreated, dormantCreatedEvent,
            sprintf_teardown, teardownFailedEvent]⟩

/-- C21: `pause` returns an error if and only if creating the dormant snapshot fails, and
then it returns that error. When the snapshot is created, the second effect of `pause` is
the Normal event "Successfully created DormantDatabase: <name>", the monitoring teardown is
called if and only if `Spec.Monitor` is set, and `pause` returns nil also when the teardown
fails, which only adds a warning event. -/
theorem pause_outcome (w : World) (redis : Redis) :
    ((pause w redis).err ≠ none ↔ ∃ derr, w.createDormantDatabase redis = Except.error derr) ∧
    (∀ derr, w.createDormantDatabase redis = Except.error derr →
      (pause w redis).err = some derr ∧
      (pause w redis).log = [Effect.createDormantDatabase redis,
                            Effect.event (dormantFailedEvent redis derr)]) ∧
    (∀ d, w.createDormantDatabase redis = Except.ok d →
      (pause w redis).err = none ∧
      (pause w redis).log.take 2 =
        [Effect.createDormantDatabase redis, Effect.event (dormantCreatedEvent redis)] ∧
      ((∃ x, Effect.deleteMonitor x ∈ (pause w redis).log) ↔ redis.spec.monitor ≠ none) ∧
      (Effect.deleteMonitor redis ∈ (pause w redis).log ↔ redis.spec.monitor ≠ none) ∧
      (∀ merr, redis.spec.monitor ≠ none → w.deleteMonitor redis = some merr →
        (pause w redis).log =
          [Effect.createDormantDatabase redis, Effect.event (dormantCreatedEvent redis),
           Effect.deleteMonitor redis, Effect.event (teardownFailedEvent redis merr)])) := by
  rcases pause_cases w redis with ⟨derr, hd, h⟩ | ⟨d, hd, hm, h⟩ | ⟨d, hd, hm, ht, h⟩ |
    ⟨d, merr, hd, hm, ht, h⟩
  · rw [h]
    simp [hd]
  · rw [h]
    simp [hd, hm]
  · rw [h]
    simp [hd, hm, ht]
  · rw [h]
    simp [hd, hm, ht]

/-- Witness for C21: the snapshot of the sample resource is created and the teardown fails;
and the snapshot cannot be created. -/
theorem pause_outcome_witness :
    ((pause noTeardownWorld sampleRedis).err = none ∧
      Effect.deleteMonitor sampleRedis ∈ (pause noTeardownWorld sampleRedis).log) ∧
    (pause noDormantWorld sampleRedis).err =
      some { reason := StatusReason.alreadyExists, msg := "r0 already exists" } :=
  have h := (pause_outcome noTeardownWorld sampleRedis).2.2
    { meta := sampleRedis.meta, origin := some sampleRedis.spec } rfl
  have h2 := (pause_outcome noDormantWorld sampleRedis).2.1
    { reason := StatusReason.alreadyExists, msg := "r0 already exists" } rfl
  ⟨⟨h.1, h.2.2.2.1.2 (by decide)⟩, h2.1⟩

/-! ## C22: pausing does not touch the phase -/

/-- C22, counterexample: pausing the sample resource in the calm environment creates the
dormant snapshot and returns nil, yet the phase of the resource is what it was (not
Dormant) and no patch of the resource was issued. -/
theorem pause_phase_counterexample :
    calmWorld.createDormantDatabase sampleRedis =
      Except.ok { meta := sampleRedis.meta, origin := some sampleRedis.spec } ∧
    (pause calmWorld sampleRedis).err = none ∧
    (pause calmWorld sampleRedis).redis.status.phase = DatabasePhase.unset ∧
    (pause calmWorld sampleRedis).redis.status.phase ≠ DatabasePhase.dormant ∧
    (pause calmWorld sampleRedis).log =
      [Effect.createDormantDatabase sampleRedis,
       Effect.event (dormantCreatedEvent sampleRedis),
       Effect.deleteMonitor sampleRedis] := by
  refine ⟨rfl, rfl, rfl, by decide, by decide⟩

/-- C22, amended: for every resource, whether or not the dormant snapshot is created,
`pause` leaves the resource as it was, its phase included, and issues no patch of the
resource: every effect is the snapshot creation, an event or the monitoring teardown. -/
theorem pause_keeps_phase (w : World) (redis : Redis) :
    (pause w redis).redis = redis ∧
    (pause w redis).redis.status.phase = redis.status.phase ∧
    (∀ cur mod, Effect.patchRedis cur mod ∉ (pause w redis).log) ∧
    (∀ e ∈ (pause w redis).log,
      e = Effect.createDormantDatabase redis ∨ e = Effect.deleteMonitor redis ∨
        ∃ ev, e = Effect.event ev) := by
  rcases pause_cases w redis with ⟨derr, hd, h⟩ | ⟨d, hd, hm, h⟩ | ⟨d, hd, hm, ht, h⟩ |
    ⟨d, merr, hd, hm, ht, h⟩ <;>
  · rw [h]
    simp

/-! ## C23: a refused status write is retried until the timeout -/

theorem sprintf_updateStatus (ns name e : String) (n : Nat) :
    Sprintf "failed to update status of ProxySQL %s/%s after %d attempts due to %v"
      [FmtArg.str ns, FmtArg.str name, FmtArg.int n, FmtArg.str e] =
    "failed to update status of ProxySQL " ++ ns ++ "/" ++ name ++ " after " ++ toString n ++
      " attempts due to " ++ e := by
  apply String.ext
  simp [Sprintf, sprintfAux, FmtState.next, isFlag, isDigit, renderVerb, renderExtra,
    FmtArg.value, String.toList]

/-- One attempt of `UpdateProxySQLStatus` whose write fails without a conflict: with the
outer `err` nil, as it is while the poll runs, the attempt asks for another one whatever
the error is. -/
theorem updateStatusAttempt_refused {σ : Type} (c : Client ProxySQL σ) (meta : ObjectMeta)
    (transform : ProxySQLStatus → ProxySQLStatus) (st : StatusState σ) (e : GoError) (s1 : σ)
    (hu : c.updateStatus meta.Namespace (applyStatus transform st.cur) st.store =
      (Except.error e, s1))
    (hc : e.reason ≠ StatusReason.conflict) :
    updateStatusAttempt c meta transform none st =
      ((false, none),
        { attempt := st.attempt + 1, result := none, cur := st.cur, store := s1,
          calls := st.calls ++
            [Call.updateStatus meta.Namespace (applyStatus transform st.cur)] }) := by
  simp [updateStatusAttempt, hu, IsConflict, hc]

/-- The poll of `UpdateProxySQLStatus` when every status write fails without a conflict. -/
theorem statusPoll_all_refused {σ : Type} (c : Client ProxySQL σ) (meta : ObjectMeta)
    (transform : ProxySQLStatus → ProxySQLStatus) :
    ∀ (ticks : Nat) (st : Nat → σ) (init : StatusState σ),
      init.store = st 0 →
      (∀ i, i ≤ ticks → ∃ e, e.reason ≠ StatusReason.conflict ∧
        c.updateStatus meta.Namespace (applyStatus transform init.cur) (st i) =
          (Except.error e, st (i + 1))) →
      PollImmediate (updateStatusAttempt c meta transform none) ticks init =
        (some ErrWaitTimeout,
          { attempt := init.attempt + (ticks + 1), result := none, cur := init.cur,
            store := st (ticks + 1),
            calls := init.calls ++ List.replicate (ticks + 1)
              (Call.updateStatus meta.Namespace (applyStatus transform init.cur)) }) := by
  intro ticks
  induction ticks with
  | zero =>
    intro st init hinit href
    obtain ⟨e, hc, hu⟩ := href 0 (Nat.le_refl 0)
    rw [← hinit] at hu
    simp [PollImmediate, updateStatusAttempt_refused c meta transform init e _ hu hc]
  | succ t ih =>
    intro st init hinit href
    obtain ⟨e, hc, hu⟩ := href 0 (Nat.zero_le _)
    rw [← hinit] at hu
    have hstep : PollImmediate (updateStatusAttempt c meta transform none) (t + 1) init =
        PollImmediate (updateStatusAttempt c meta transform none) t
          { attempt := init.attempt + 1, result := none, cur := init.cur, store := st 1,
            calls := init.calls ++
              [Call.updateStatus meta.Namespace (applyStatus transform init.cur)] } := by
      simp [PollImmediate, updateStatusAttempt_refused c meta transform init e _ hu hc]
    rw [hstep]
    rw [ih (fun i => st (i + 1))
      { attempt := init.attempt + 1, result := none, cur := init.cur, store := st 1,
        calls := init.calls ++
          [Call.updateStatus meta.Namespace (applyStatus transform init.cur)] }
      rfl (fun i hi => href (i + 1) (by omega))]
    simp only [List.append_assoc, List.singleton_append, ← List.replicate_succ]
    congr 2
    omega

/-- C23, what the code does: let the first read return `x` and let every status write
fail with an error that is not a conflict (retryable or not; for instance Invalid). Then
`UpdateProxySQLStatus` does not stop at the first failure: it writes again in every one of
the `ticks + 1` attempts the poll allows and returns the timeout error of the poll, not
the error of the write. Line 141 tests the named result `err`, which is nil while the
poll runs, where the error `e2` of the write was meant. -/
theorem UpdateStatus_refused_retries {σ : Type} (ticks : Nat) (c : Client ProxySQL σ)
    (meta : ObjectMeta) (transform : ProxySQLStatus → ProxySQLStatus) (s : σ) (st : Nat → σ)
    (x : ProxySQL)
    (hfirst : c.get meta.Namespace meta.Name s = (Except.ok x, st 0))
    (href : ∀ i, i ≤ ticks → ∃ e, e.reason ≠ StatusReason.conflict ∧
      c.updateStatus meta.Namespace (applyStatus transform x) (st i) =
        (Except.error e, st (i + 1))) :
    (UpdateProxySQLStatus ticks c meta transform s).attempt = ticks + 1 ∧
    (UpdateProxySQLStatus ticks c meta transform s).err =
      some { reason := StatusReason.unknown,
             msg := "failed to update status of ProxySQL " ++ meta.Namespace ++ "/" ++
               meta.Name ++ " after " ++ toString (ticks + 1) ++
               " attempts due to timed out waiting for the condition" } ∧
    (UpdateProxySQLStatus ticks c meta transform s).calls =
      Call.get meta.Namespace meta.Name ::
        List.replicate (ticks + 1)
          (Call.updateStatus meta.Namespace (applyStatus transform x)) := by
  have h := statusPoll_all_refused c meta transform ticks st
    { attempt := 0, result := none, cur := x, store := st 0,
      calls := [Call.get meta.Namespace meta.Name] } rfl href
  unfold UpdateProxySQLStatus
  simp only [hfirst]
  rw [h]
  have hl : " attempts due to " ++ "timed out waiting for the condition" =
      " attempts due to timed out waiting for the condition" := by decide
  simp [Errorf, sprintf_updateStatus, ErrWaitTimeout]
  rw [String.append_assoc, hl]

/-- Witness for C23: every status write is refused as invalid; four attempts are allowed
and four writes are made. -/
theorem UpdateStatus_refused_retries_witness :
    (UpdateProxySQLStatus 3 (refusing storedRecord) sampleMeta markRunning 0).attempt = 4 ∧
    (UpdateProxySQLStatus 3 (refusing storedRecord) sampleMeta markRunning 0).err =
      some { reason := StatusReason.unknown,
             msg := "failed to update status of ProxySQL demo/px after 4 attempts due to timed out waiting for the condition" } ∧
    (UpdateProxySQLStatus 3 (refusing storedRecord) sampleMeta markRunning 0).calls =
      [Call.get "demo" "px",
       Call.updateStatus "demo" (applyStatus markRunning storedRecord),
       Call.updateStatus "demo" (applyStatus markRunning storedRecord),
       Call.updateStatus "demo" (applyStatus markRunning storedRecord),
       Call.updateStatus "demo" (applyStatus markRunning storedRecord)] :=
  UpdateStatus_refused_retries 3 (refusing storedRecord) sampleMeta markRunning 0
    (fun i => i) storedRecord rfl
    (fun _ _ => ⟨{ reason := StatusReason.invalid, msg := "status is invalid" },
      by decide, rfl⟩)

/-! ## C24: the Redis key of a secret -/

/-- What `GetControllerOf` returns is one of the owner references, marked as controller. -/
theorem GetControllerOf_some (owners : List OwnerReference) (ctrl : OwnerReference)
    (h : GetControllerOf owners = some ctrl) :
    ctrl ∈ owners ∧ ctrl.Controller = some true := by
  unfold GetControllerOf at h
  refine ⟨List.mem_of_find?_eq_some h, ?_⟩
  have := List.find?_some h
  simpa using this

/-- C24: for every secret `s` and every certificate client, `RedisForSecret s` is the empty
key or `s.Namespace/n`, where `n` is the name of a controller owner of kind Redis: that of
the secret when the secret has a controller owner, and otherwise that of the certificate
named by the certificate-name annotation of the secret, which must exist in the namespace
of the secret and have `Spec.SecretName` equal to the name of the secret. Each of these
cases does give the key; a secret whose controller owner is of another kind gives the
empty key whatever its annotations are. -/
theorem RedisForSecret_key (getCertificate : String → String → Except GoError Certificate)
    (s : Secret) :
    (RedisForSecret getCertificate s = "" ∨
      ∃ n, RedisForSecret getCertificate s = s.Namespace ++ "/" ++ n ∧
        ((∃ ctrl, GetControllerOf s.OwnerReferences = some ctrl ∧
            ctrl ∈ s.OwnerReferences ∧ ctrl.Controller = some true ∧
            ctrl.Kind = ResourceKindRedis ∧ ctrl.Name = n) ∨
          (GetControllerOf s.OwnerReferences = none ∧
            ∃ certName cert certCtrl,
              s.Annotations.lookup CertificateNameKey = some certName ∧
              getCertificate s.Namespace certName = Except.ok cert ∧
              cert.SecretName = s.Name ∧
              GetControllerOf cert.OwnerReferences = some certCtrl ∧
              certCtrl ∈ cert.OwnerReferences ∧ certCtrl.Controller = some true ∧
              certCtrl.Kind = ResourceKindRedis ∧ certCtrl.Name = n))) ∧
    (∀ ctrl, GetControllerOf s.OwnerReferences = some ctrl →
      ctrl.Kind ≠ ResourceKindRedis → RedisForSecret getCertificate s = "") ∧
    (∀ ctrl, GetControllerOf s.OwnerReferences = some ctrl →
      ctrl.Kind = ResourceKindRedis →
      RedisForSecret getCertificate s = s.Namespace ++ "/" ++ ctrl.Name) ∧
    (∀ certName cert certCtrl, GetControllerOf s.OwnerReferences = none →
      s.Annotations.lookup CertificateNameKey = some certName →
      getCertificate s.Namespace certName = Except.ok cert →
      cert.SecretName = s.Name →
      GetControllerOf cert.OwnerReferences = some certCtrl →
      certCtrl.Kind = ResourceKindRedis →
      RedisForSecret getCertificate s = s.Namespace ++ "/" ++ certCtrl.Name) := by
  refine ⟨?_, ?_, ?_, ?_⟩
  · unfold RedisForSecret
    cases hc : GetControllerOf s.OwnerReferences with
    | some ctrl =>
      obtain ⟨hmem, hctl⟩ := GetControllerOf_some _ _ hc
      by_cases hk : ctrl.Kind = ResourceKindRedis
      · right
        exact ⟨ctrl.Name, by simp [hk], Or.inl ⟨ctrl, rfl, hmem, hctl, hk, rfl⟩⟩
      · left
        simp [hk]
    | none =>
      cases ha : s.Annotations.lookup CertificateNameKey with
      | none => left; rfl
      | some certName =>
        cases hg : getCertificate s.Namespace certName with
        | error e => left; simp [hg]
        | ok cert =>
          by_cases hn : cert.SecretName = s.Name
          · cases hcc : GetControllerOf cert.OwnerReferences with
            | none => left; simp [hg, hn, hcc]
            | some certCtrl =>
              obtain ⟨hmem, hctl⟩ := GetControllerOf_some _ _ hcc
              by_cases hk : certCtrl.Kind = ResourceKindRedis
              · right
                exact ⟨certCtrl.Name, by simp [hg, hn, hcc, hk],
                  Or.inr ⟨rfl, certName, cert, certCtrl, rfl, hg, hn, hcc, hmem, hctl, hk,
                    rfl⟩⟩
              · left
                simp [hg, hn, hcc, hk]
          · left
            simp [hg, hn]
  · intro ctrl hc hk
    simp [RedisForSecret, hc, hk]
  · intro ctrl hc hk
    simp [RedisForSecret, hc, hk]
  · intro certName cert certCtrl hc ha hg hn hcc hk
    simp [RedisForSecret, hc, ha, hg, hn, hcc, hk]

/-- Witness for C24: a secret owned by `r0`, and a TLS secret reached through its
certificate. -/
theorem RedisForSecret_key_witness :
    RedisForSecret certStore ownedSecret = "demo/r0" ∧
    RedisForSecret certStore tlsSecret = "demo/r0" ∧
    RedisForSecret certStore
      { tlsSecret with
        OwnerReferences := [{ Kind := "Deployment", Name := "d0", Controller := some true }] } =
      "" :=
  ⟨(RedisForSecret_key certStore ownedSecret).2.2.1
      { Kind := "Redis", Name := "r0", Controller := some true } rfl rfl,
   (RedisForSecret_key certStore tlsSecret).2.2.2 "r0-server-cert"
      { Name := "r0-server-cert", Namespace := "demo", SecretName := "r0-server-cert",
        OwnerReferences := [{ Kind := "Redis", Name := "r0", Controller := some true }] }
      { Kind := "Redis", Name := "r0", Controller := some true } rfl rfl rfl rfl rfl rfl,
   (RedisForSecret_key certStore
      { tlsSecret with
        OwnerReferences := [{ Kind := "Deployment", Name := "d0", Controller := some true }] }).2.1
      { Kind := "Deployment", Name := "d0", Controller := some true } rfl (by decide)⟩

/-! ## C25: the message of a rejected resume -/

/-- A format without any percent sign is printed as it is, followed by the left-over
operands. -/
theorem sprintfAux_plain (args : List FmtArg) :
    ∀ cs : List Char, '%' ∉ cs →
      sprintfAux FmtState.text cs args = cs ++ renderExtra args := by
  intro cs
  induction cs with
  | nil => intro _; simp [sprintfAux]
  | cons c tl ih =>
    intro h
    have hc : c ≠ '%' := fun hc => h (by simp [hc])
    have htl : '%' ∉ tl := fun ht => h (by simp [ht])
    simp [sprintfAux, hc, ih htl]

/-- What `sendEvent` makes of a message without percent sign: Go appends the diagnostic for
the left-over operand. -/
theorem sprintf_emptyArgs (message : String) (h : '%' ∉ message.toList) :
    Sprintf message [FmtArg.emptyArgs] = message ++ extraEmptyArgs := by
  apply String.ext
  unfold Sprintf
  rw [sprintfAux_plain _ _ h]
  simp [String.toList, renderExtra, FmtArg.typed, FmtArg.typeName, FmtArg.value,
    extraEmptyArgs]

/-- C25, what the code does: for every resource whose dormant twin has the Redis kind
label and an origin spec different from the spec of the resource, the error returned by
`matchDormantDatabase` and the warning event it records both carry the message
"Redis spec mismatches with OriginSpec in DormantDatabases%!(EXTRA []interface {}=[])":
the text handed to `sendEvent` followed by the diagnostic Go prints for the argument slice,
which lines 164 and 166 hand on as one operand. The message is not the text alone. -/
theorem matchDormantDatabase_message (w : World) (r : Redis) (d : DormantDatabase)
    (hget : w.getDormantDatabase r.meta.Namespace r.meta.Name = Except.ok d)
    (hk : labelValue d.meta.Labels LabelDatabaseKind = ResourceKindRedis)
    (hs : d.origin ≠ some r.spec) :
    (matchDormantDatabase w r).err =
      some { reason := StatusReason.unknown,
             msg := "Redis spec mismatches with OriginSpec in DormantDatabases" ++
               extraEmptyArgs } ∧
    (matchDormantDatabase w r).log =
      [Effect.getDormantDatabase r.meta.Namespace r.meta.Name,
       Effect.event
         { objNamespace := r.meta.Namespace, objName := r.meta.Name,
           etype := EventType.warning, reason := EventReason.failedToCreate,
           message := "Redis spec mismatches with OriginSpec in DormantDatabases" ++
             extraEmptyArgs }] ∧
    "Redis spec mismatches with OriginSpec in DormantDatabases" ++ extraEmptyArgs =
      "Redis spec mismatches with OriginSpec in DormantDatabases%!(EXTRA []interface \x7b\x7d=[])" ∧
    "Redis spec mismatches with OriginSpec in DormantDatabases" ++ extraEmptyArgs ≠
      "Redis spec mismatches with OriginSpec in DormantDatabases" := by
  have hm := sprintf_emptyArgs "Redis spec mismatches with OriginSpec in DormantDatabases"
    (by decide)
  refine ⟨?_, ?_, by decide, by decide⟩
  · simp [matchDormantDatabase, hget, hk, hs, sendEvent, Errorf, hm]
  · simp [matchDormantDatabase, hget, hk, hs, sendEvent, recordEventf, recordEvent, hm]

/-- Witness for C25: the sample resource against the twin snapshotted with another
version. -/
theorem matchDormantDatabase_message_witness :
    (matchDormantDatabase staleTwinWorld sampleRedis).err =
      some { reason := StatusReason.unknown,
             msg := "Redis spec mismatches with OriginSpec in DormantDatabases%!(EXTRA []interface \x7b\x7d=[])" } :=
  (matchDormantDatabase_message staleTwinWorld sampleRedis staleTwin rfl (by decide)
    (by decide)).1

end KubedbRedis
